import Mathlib

/-! hass-miyoo: the offline cache / sync layer

A shallow embedding of `src/utils/json_helpers.c`, `src/database.c` and
`src/cache_manager.c`, and theorems about it.

Conventions of the embedding.

* A C string is the list of its `char`s before the terminating NUL; Lean's
  `Char` stands for C's `char`.  `strncpy (dst, src, n)` into a zeroed buffer of
  `n + 1` bytes is `src.take n`.
* A pointer the source tests against NULL is an `Option`.  An `int *count`
  out-parameter is an `Int` that goes in and comes out next to the result.
* SQLite, cJSON, libcurl and `time` are not code of this repository.  What the
  engine answers to one statement is a `stmt_outcome` argument, what the hub
  answers is an `ha_response_t` argument, the clock is an `Int` argument, and
  the two cJSON routines that work on text are the fields of a `cjson_lib`.
* A table is the list of its rows in rowid order.
* `long` and `time_t` have 64 bits.  A value of these types is an `Int` from
  `LONG_MIN` to `LONG_MAX`; the difference of two `time_t` values is reduced to
  64 bits by `to_long`, and `atol` returns `LONG_MAX` or `LONG_MIN` for a text
  that denotes an integer beyond them.
-/

namespace HassMiyoo

/-! ## C strings -/

/-- C string: the chars before the terminating NUL. -/
abbrev c_string := List Char

/-- The double quote character. -/
def dquote : Char := Char.ofNat 34

/-- Copy of at most `n` chars into a zeroed buffer of `n + 1` bytes. -/
def strncpy (src : c_string) (n : Nat) : c_string := src.take n

/-- Index of the first occurrence of `c`, as `strchr` finds it. -/
def strchr : c_string → Char → Option Nat
  | [], _ => none
  | x :: xs, c => if x = c then some 0 else (strchr xs c).map (· + 1)

/-- Index of the first occurrence of `needle`, as `strstr` finds it. -/
def strstr : c_string → c_string → Option Nat
  | [], needle => if needle = [] then some 0 else none
  | x :: xs, needle =>
    if needle.isPrefixOf (x :: xs) then some 0 else (strstr xs needle).map (· + 1)

/-- C `int` read out of a wider integer: the low 32 bits, two's complement. -/
def to_int32 (n : Int) : Int := (n + 2147483648) % 4294967296 - 2147483648

/-- The largest value of a C `long`, which is also the type behind `time_t`:
64 bits. -/
def LONG_MAX : Int := 9223372036854775807

/-- The smallest value of a C `long`. -/
def LONG_MIN : Int := -9223372036854775808

/-- C `long` read out of a wider integer: the low 64 bits, two's complement. -/
def to_long (n : Int) : Int :=
  (n + 9223372036854775808) % 18446744073709551616 - 9223372036854775808

/-- Decimal text of a `long`, as `snprintf` with `%ld` writes it. -/
def snprintf_ld (n : Int) : c_string := (toString n).toList

/-- SQLite's BINARY collation on text: `memcmp` on the common length, the
shorter text first on a tie. -/
def text_le : c_string → c_string → Bool
  | [], _ => true
  | _ :: _, [] => false
  | a :: as, b :: bs =>
    if a.toNat < b.toNat then true
    else if b.toNat < a.toNat then false
    else text_le as bs

/-! ## The entity record (`json_helpers.h`) -/

/-- Entity record of `json_helpers.h`.  The same ten columns make a row of
table `entities`; in a row the text columns are not bounded in length. -/
structure ha_entity_t where
  entity_id : c_string
  state : c_string
  friendly_name : c_string
  icon : c_string
  domain : c_string
  area_id : c_string
  attributes_json : Option c_string
  supported_features : Int
  last_changed : c_string
  last_updated : c_string
  deriving DecidableEq, Repr

/-- The bounds the C type puts on a record: each text field fits its buffer
with the terminating NUL, `supported_features` is an `int`. -/
def ha_entity_wf (e : ha_entity_t) : Prop :=
  e.entity_id.length ≤ 127 ∧ e.state.length ≤ 63 ∧ e.friendly_name.length ≤ 127 ∧
  e.icon.length ≤ 63 ∧ e.domain.length ≤ 31 ∧ e.area_id.length ≤ 63 ∧
  e.last_changed.length ≤ 31 ∧ e.last_updated.length ≤ 31 ∧
  -2147483648 ≤ e.supported_features ∧ e.supported_features < 2147483648

instance (e : ha_entity_t) : Decidable (ha_entity_wf e) := by
  unfold ha_entity_wf; infer_instance

/-! ## The store (`database.c` over SQLite) -/

/-- Row of table `favorites`. -/
structure favorites_row where
  entity_id : c_string
  added_at : c_string
  deriving DecidableEq, Repr

/-- Row of table `metadata`. -/
structure metadata_row where
  key : c_string
  value : c_string
  deriving DecidableEq, Repr

/-- Contents behind an open `sqlite3 *` handle: the three tables of
`SCHEMA_SQL`, each in rowid order. -/
structure sqlite3 where
  entities : List ha_entity_t
  favorites : List favorites_row
  metadata : List metadata_row
  deriving DecidableEq, Repr

/-- Database context of `database.h`. -/
structure database_t where
  db : Option sqlite3
  db_path : c_string
  deriving DecidableEq, Repr

/-- What the engine does with one statement: it runs, or `sqlite3_prepare_v2`
reports an error, or `sqlite3_step` reports an error before any row and
without any change. -/
inductive stmt_outcome where
  | ok
  | prepare_error
  | step_error
  deriving DecidableEq, Repr

/-- INSERT OR REPLACE INTO entities: the row with the same primary key is
deleted, the new row gets a fresh rowid. -/
def sql_replace_entity (s : sqlite3) (e : ha_entity_t) : sqlite3 :=
  { s with entities := s.entities.filter (fun r => r.entity_id ≠ e.entity_id) ++ [e] }

/-- Rows in the order of `ORDER BY friendly_name` (BINARY collation, ascending);
rows with equal names are left in rowid order. -/
def sql_order_by_friendly_name (rows : List ha_entity_t) : List ha_entity_t :=
  rows.insertionSort (fun a b => text_le a.friendly_name b.friendly_name = true)

/-- Rows in the order of `ORDER BY added_at`. -/
def sql_order_by_added_at (rows : List (ha_entity_t × favorites_row)) :
    List (ha_entity_t × favorites_row) :=
  rows.insertionSort (fun a b => text_le a.2.added_at b.2.added_at = true)

/-- Save one entity: `database_save_entity`. -/
def database_save_entity (rc : stmt_outcome) (db : Option database_t)
    (entity : Option ha_entity_t) : Option database_t × Int :=
  match db, entity with
  | some ⟨some s, path⟩, some e =>
    match rc with
    | .prepare_error => (db, 0)
    | .step_error => (db, 0)
    | .ok => (some ⟨some (sql_replace_entity s e), path⟩, 1)
  | _, _ => (db, 0)

/-- Loop of `database_save_entities`: entity `i` is saved under the outcome
`rc i`, successes are tallied. -/
def database_save_entities_loop (rc : Nat → stmt_outcome) :
    List ha_entity_t → Nat → Option database_t → Int → Option database_t × Int
  | [], _, db, saved => (db, saved)
  | e :: rest, i, db, saved =>
    let r := database_save_entity (rc i) db (some e)
    database_save_entities_loop rc rest (i + 1) r.1 (if r.2 ≠ 0 then saved + 1 else saved)

/-- Batched save: `database_save_entities`.  BEGIN and COMMIT do not change
what the connection reads back. -/
def database_save_entities (rc : Nat → stmt_outcome) (db : Option database_t)
    (entities : Option (List ha_entity_t)) (count : Int) : Option database_t × Int :=
  match db, entities with
  | some ⟨some _, _⟩, some es =>
    if count ≤ 0 then (db, 0)
    else database_save_entities_loop rc (es.take count.toNat) 0 db 0
  | _, _ => (db, 0)

/-- Record built from a row: `entity_from_row`. -/
def entity_from_row (row : ha_entity_t) : ha_entity_t :=
  { entity_id := strncpy row.entity_id 127
    state := strncpy row.state 63
    friendly_name := strncpy row.friendly_name 127
    icon := strncpy row.icon 63
    domain := strncpy row.domain 31
    area_id := strncpy row.area_id 63
    attributes_json := row.attributes_json
    supported_features := to_int32 row.supported_features
    last_changed := strncpy row.last_changed 31
    last_updated := strncpy row.last_updated 31 }

/-- Fetch loop shared by the list queries: rows are taken while `i < total`. -/
def fetch_rows (rows : List ha_entity_t) (total : Nat) : List ha_entity_t :=
  (rows.take total).map entity_from_row

/-- All entities: `database_get_all_entities`.  `q_count` is the outcome of the
COUNT statement, `q_select` of the SELECT. -/
def database_get_all_entities (q_count q_select : stmt_outcome) (db : Option database_t)
    (count : Int) : Option (List ha_entity_t) × Int :=
  match db with
  | some ⟨some s, _⟩ =>
    match q_count with
    | .prepare_error => (none, 0)
    | _ =>
      let total := if q_count = .ok then s.entities.length else 0
      if total = 0 then (none, 0)
      else
        match q_select with
        | .prepare_error => (none, 0)
        | _ =>
          let rows := if q_select = .ok then sql_order_by_friendly_name s.entities else []
          let entities := fetch_rows rows total
          (some entities, entities.length)
  | _ => (none, count)

/-- Entities of one domain: `database_get_entities_by_domain`. -/
def database_get_entities_by_domain (q_count q_select : stmt_outcome)
    (db : Option database_t) (domain : Option c_string) (count : Int) :
    Option (List ha_entity_t) × Int :=
  match db, domain with
  | some ⟨some s, _⟩, some d =>
    match q_count with
    | .prepare_error => (none, 0)
    | _ =>
      let total :=
        if q_count = .ok then (s.entities.filter (fun r => r.domain = d)).length else 0
      if total = 0 then (none, 0)
      else
        match q_select with
        | .prepare_error => (none, 0)
        | _ =>
          let rows :=
            if q_select = .ok then
              sql_order_by_friendly_name (s.entities.filter (fun r => r.domain = d))
            else []
          let entities := fetch_rows rows total
          (some entities, entities.length)
  | _, _ => (none, count)

/-- One entity by id: `database_get_entity`. -/
def database_get_entity (q : stmt_outcome) (db : Option database_t)
    (entity_id : Option c_string) : Option ha_entity_t :=
  match db, entity_id with
  | some ⟨some s, _⟩, some id =>
    match q with
    | .prepare_error => none
    | .step_error => none
    | .ok => (s.entities.find? (fun r => r.entity_id = id)).map entity_from_row
  | _, _ => none

/-- Delete one entity: `database_delete_entity`. -/
def database_delete_entity (rc : stmt_outcome) (db : Option database_t)
    (entity_id : Option c_string) : Option database_t × Int :=
  match db, entity_id with
  | some ⟨some s, path⟩, some id =>
    match rc with
    | .ok =>
      (some ⟨some { s with entities := s.entities.filter (fun r => r.entity_id ≠ id) }, path⟩, 1)
    | _ => (db, 0)
  | _, _ => (db, 0)

/-- Wipe table entities: `database_clear_entities`. -/
def database_clear_entities (rc : stmt_outcome) (db : Option database_t) :
    Option database_t × Int :=
  match db with
  | some ⟨some s, path⟩ =>
    match rc with
    | .ok => (some ⟨some { s with entities := [] }, path⟩, 1)
    | _ => (db, 0)
  | _ => (db, 0)

/-- Add a favorite: `database_add_favorite`.  INSERT OR IGNORE keeps an
existing row; a new row takes `current_timestamp` as its `added_at`. -/
def database_add_favorite (rc : stmt_outcome) (current_timestamp : c_string)
    (db : Option database_t) (entity_id : Option c_string) : Option database_t × Int :=
  match db, entity_id with
  | some ⟨some s, path⟩, some id =>
    match rc with
    | .ok =>
      if s.favorites.any (fun f => f.entity_id = id) then (db, 1)
      else (some ⟨some { s with favorites := s.favorites ++ [⟨id, current_timestamp⟩] }, path⟩, 1)
    | _ => (db, 0)
  | _, _ => (db, 0)

/-- Remove a favorite: `database_remove_favorite`. -/
def database_remove_favorite (rc : stmt_outcome) (db : Option database_t)
    (entity_id : Option c_string) : Option database_t × Int :=
  match db, entity_id with
  | some ⟨some s, path⟩, some id =>
    match rc with
    | .ok =>
      (some ⟨some { s with favorites := s.favorites.filter (fun f => f.entity_id ≠ id) }, path⟩, 1)
    | _ => (db, 0)
  | _, _ => (db, 0)

/-- Membership in favorites: `database_is_favorite`. -/
def database_is_favorite (q : stmt_outcome) (db : Option database_t)
    (entity_id : Option c_string) : Int :=
  match db, entity_id with
  | some ⟨some s, _⟩, some id =>
    match q with
    | .prepare_error => 0
    | .step_error => 0
    | .ok => if s.favorites.any (fun f => f.entity_id = id) then 1 else 0
  | _, _ => 0

/-- Rows of `entities e INNER JOIN favorites f ON e.entity_id = f.entity_id`. -/
def sql_join_favorites (s : sqlite3) : List (ha_entity_t × favorites_row) :=
  s.favorites.flatMap (fun f =>
    (s.entities.filter (fun e => e.entity_id = f.entity_id)).map (fun e => (e, f)))

/-- Favorite entities: `database_get_favorites`.  The count comes from table
favorites, the rows from the join. -/
def database_get_favorites (q_count q_select : stmt_outcome) (db : Option database_t)
    (count : Int) : Option (List ha_entity_t) × Int :=
  match db with
  | some ⟨some s, _⟩ =>
    match q_count with
    | .prepare_error => (none, 0)
    | _ =>
      let total := if q_count = .ok then s.favorites.length else 0
      if total = 0 then (none, 0)
      else
        match q_select with
        | .prepare_error => (none, 0)
        | _ =>
          let rows :=
            if q_select = .ok then (sql_order_by_added_at (sql_join_favorites s)).map (·.1)
            else []
          let entities := fetch_rows rows total
          (some entities, entities.length)
  | _ => (none, count)

/-- Write a metadata key: `database_set_metadata`. -/
def database_set_metadata (rc : stmt_outcome) (db : Option database_t)
    (key value : Option c_string) : Option database_t × Int :=
  match db, key, value with
  | some ⟨some s, path⟩, some k, some v =>
    match rc with
    | .ok =>
      (some ⟨some { s with metadata := s.metadata.filter (fun r => r.key ≠ k) ++ [⟨k, v⟩] }, path⟩, 1)
    | _ => (db, 0)
  | _, _, _ => (db, 0)

/-- Read a metadata key: `database_get_metadata`. -/
def database_get_metadata (q : stmt_outcome) (db : Option database_t)
    (key : Option c_string) : Option c_string :=
  match db, key with
  | some ⟨some s, _⟩, some k =>
    match q with
    | .ok => (s.metadata.find? (fun r => r.key = k)).map (·.value)
    | _ => none
  | _, _ => none

/-- Number of cached entities: `database_get_entity_count`. -/
def database_get_entity_count (q : stmt_outcome) (db : Option database_t) : Int :=
  match db with
  | some ⟨some s, _⟩ =>
    match q with
    | .ok => s.entities.length
    | _ => 0
  | _ => 0

/-- Set the area of one entity: `database_update_entity_area`.  A NULL
`area_id` is bound as the empty text. -/
def database_update_entity_area (rc : stmt_outcome) (db : Option database_t)
    (entity_id area_id : Option c_string) : Option database_t × Int :=
  match db, entity_id with
  | some ⟨some s, path⟩, some id =>
    match rc with
    | .ok =>
      (some ⟨some { s with entities := s.entities.map (fun r =>
          if r.entity_id = id then { r with area_id := area_id.getD [] } else r) }, path⟩, 1)
    | _ => (db, 0)
  | _, _ => (db, 0)

/-! ## cJSON values and the entity parser (`json_helpers.c`) -/

/-- Parsed JSON item of cJSON: its type tag with the payload the parser reads.
A number carries its `valueint`. -/
inductive cJSON where
  | Invalid
  | False
  | True
  | NULL
  | Number (valueint : Int)
  | String (valuestring : c_string)
  | Array (items : List cJSON)
  | Object (members : List (c_string × cJSON))
  | Raw (valuestring : c_string)

/-- The two cJSON routines that work on text. -/
structure cjson_lib where
  cJSON_Parse : c_string → Option cJSON
  cJSON_PrintUnformatted : cJSON → Option c_string

/-- C `tolower` on one char. -/
def tolower (c : Char) : Char :=
  if 65 ≤ c.toNat ∧ c.toNat ≤ 90 then Char.ofNat (c.toNat + 32) else c

/-- Name comparison of `cJSON_GetObjectItem`: equal up to letter case. -/
def case_insensitive_eq (a b : c_string) : Bool :=
  a.map tolower = b.map tolower

/-- First member whose name matches, as `cJSON_GetObjectItem` finds it. -/
def cJSON_GetObjectItem : cJSON → c_string → Option cJSON
  | .Object members, key =>
    (members.find? (fun m => case_insensitive_eq key m.1)).map (·.2)
  | _, _ => none

/-- Type test `cJSON_IsObject`. -/
def cJSON_IsObject : cJSON → Bool
  | .Object _ => true
  | _ => false

/-- Type test `cJSON_IsArray`. -/
def cJSON_IsArray : cJSON → Bool
  | .Array _ => true
  | _ => false

/-- Children of an array item, for `cJSON_GetArraySize` and `cJSON_ArrayForEach`. -/
def cJSON_children : cJSON → List cJSON
  | .Array items => items
  | .Object members => members.map (·.2)
  | _ => []

/-- Text as a cJSON value: `parse_json_response`. -/
def parse_json_response (lib : cjson_lib) (json_string : Option c_string) : Option cJSON :=
  match json_string with
  | none => none
  | some s => lib.cJSON_Parse s

/-- String member or the default: `json_get_string`. -/
def json_get_string (obj : Option cJSON) (key : c_string) (default_val : Option c_string) :
    Option c_string :=
  match obj with
  | none => default_val
  | some o =>
    match cJSON_GetObjectItem o key with
    | some (.String v) => some v
    | _ => default_val

/-- Number member or the default: `json_get_int`. -/
def json_get_int (obj : Option cJSON) (key : c_string) (default_val : Int) : Int :=
  match obj with
  | none => default_val
  | some o =>
    match cJSON_GetObjectItem o key with
    | some (.Number v) => to_int32 v
    | _ => default_val

/-- Domain of an entity id: `extract_domain`. -/
def extract_domain (entity_id : c_string) : c_string :=
  match strchr entity_id '.' with
  | some len => strncpy entity_id (if len > 31 then 31 else len)
  | none => strncpy entity_id 31

/-- Entity record of one JSON object: `parse_entity_from_json`. -/
def parse_entity_from_json (lib : cjson_lib) (json : Option cJSON) : Option ha_entity_t :=
  match json with
  | none => none
  | some j =>
    if ¬ cJSON_IsObject j then none
    else
      match json_get_string (some j) "entity_id".toList none with
      | none => none
      | some entity_id =>
        let state := (json_get_string (some j) "state".toList (some "unknown".toList)).getD []
        let last_changed := (json_get_string (some j) "last_changed".toList (some [])).getD []
        let last_updated := (json_get_string (some j) "last_updated".toList (some [])).getD []
        let entity : ha_entity_t :=
          { entity_id := strncpy entity_id 127
            state := strncpy state 63
            friendly_name := []
            icon := []
            domain := extract_domain entity_id
            area_id := []
            attributes_json := none
            supported_features := 0
            last_changed := strncpy last_changed 31
            last_updated := strncpy last_updated 31 }
        match cJSON_GetObjectItem j "attributes".toList with
        | some (.Object members) =>
          let attributes := cJSON.Object members
          let friendly_name :=
            (json_get_string (some attributes) "friendly_name".toList (some entity_id)).getD []
          let icon := (json_get_string (some attributes) "icon".toList (some [])).getD []
          let area_id := (json_get_string (some attributes) "area_id".toList (some [])).getD []
          some { entity with
            friendly_name := strncpy friendly_name 127
            icon := strncpy icon 63
            supported_features := json_get_int (some attributes) "supported_features".toList 0
            area_id := strncpy area_id 63
            attributes_json := lib.cJSON_PrintUnformatted attributes }
        | _ => some { entity with friendly_name := strncpy entity_id 127 }

/-- Entity record of a JSON text: `parse_single_entity`. -/
def parse_single_entity (lib : cjson_lib) (json_string : Option c_string) :
    Option ha_entity_t :=
  match parse_json_response lib json_string with
  | none => none
  | some json => parse_entity_from_json lib (some json)

/-- Entity records of a JSON array text: `parse_entities_array`. -/
def parse_entities_array (lib : cjson_lib) (json_string : Option c_string) (count : Int) :
    Option (List ha_entity_t) × Int :=
  match json_string with
  | none => (none, count)
  | some s =>
    match parse_json_response lib (some s) with
    | none => (none, 0)
    | some json =>
      if ¬ cJSON_IsArray json then (none, 0)
      else if (cJSON_children json).length = 0 then (none, 0)
      else
        let entities := (cJSON_children json).filterMap (fun item =>
          parse_entity_from_json lib (some item))
        if entities.length = 0 then (none, 0)
        else (some entities, entities.length)

/-! ## The remote client (`ha_client.h`) -/

/-- Client handle of `ha_client.h`. -/
structure ha_client_t where
  base_url : c_string
  token : c_string
  timeout : Int
  insecure : Int
  deriving DecidableEq, Repr

/-- HTTP response of `ha_client.h`. -/
structure ha_response_t where
  data : Option c_string
  size : Nat
  status_code : Int
  success : Int
  error_message : c_string
  deriving DecidableEq, Repr

/-! ## The cache manager (`cache_manager.c`) -/

/-- Default sync interval in seconds. -/
def DEFAULT_SYNC_INTERVAL : Int := 300

/-- Cache manager context of `cache_manager.h`.  The database the manager
points to is carried inside it. -/
structure cache_manager_t where
  db : Option database_t
  ha_client : Option ha_client_t
  last_sync : Int
  sync_interval : Int
  online : Int
  deriving DecidableEq, Repr

/-- Value of a digit char, when it is one. -/
def digit_value (c : Char) : Option Int :=
  if 48 ≤ c.toNat ∧ c.toNat ≤ 57 then some (c.toNat - 48 : Int) else none

/-- Digits read by `atol`, most significant first, onto an accumulator. -/
def atol_digits : c_string → Int → Int
  | [], acc => acc
  | c :: cs, acc =>
    match digit_value c with
    | some d => atol_digits cs (acc * 10 + d)
    | none => acc

/-- C `isspace` in the C locale. -/
def isspace (c : Char) : Bool :=
  c.toNat = 32 ∨ (9 ≤ c.toNat ∧ c.toNat ≤ 13)

/-- Integer that `atol` reads off a text: white space is skipped, then comes an
optional sign, then the digits. -/
def atol_value (s : c_string) : Int :=
  match s.dropWhile isspace with
  | '-' :: rest => - atol_digits rest 0
  | '+' :: rest => atol_digits rest 0
  | rest => atol_digits rest 0

/-- C `atol`, which converts as `strtol` does in base 10: the integer read off
the text when it fits a `long`, and `LONG_MAX` or `LONG_MIN` when it lies
beyond. -/
def atol (s : c_string) : Int :=
  max LONG_MIN (min LONG_MAX (atol_value s))

/-- Manager for a database and an optional client: `cache_manager_create`.
`q` is the outcome of reading the `last_sync` key. -/
def cache_manager_create (q : stmt_outcome) (db : Option database_t)
    (client : Option ha_client_t) : Option cache_manager_t :=
  match db with
  | none => none
  | some d =>
    let manager : cache_manager_t :=
      { db := some d
        ha_client := client
        last_sync := 0
        sync_interval := DEFAULT_SYNC_INTERVAL
        online := if client.isSome then 1 else 0 }
    match database_get_metadata q (some d) (some "last_sync".toList) with
    | some last_sync_str => some { manager with last_sync := atol last_sync_str }
    | none => some manager

/-- Change of the interval: `cache_manager_set_sync_interval`. -/
def cache_manager_set_sync_interval (manager : Option cache_manager_t) (seconds : Int) :
    Option cache_manager_t :=
  match manager with
  | some m => if seconds ≥ 60 then some { m with sync_interval := seconds } else manager
  | none => manager

/-- The marker in front of an entity id in the area payload. -/
def marker_e : c_string := [dquote, 'e', dquote, ':', dquote]

/-- The marker in front of an area id in the area payload. -/
def marker_a : c_string := [dquote, 'a', dquote, ':', dquote]

/-- Chars copied into a buffer of `n + 1` bytes up to the next double quote. -/
def scan_quoted (ptr : c_string) (n : Nat) : c_string :=
  (ptr.takeWhile (fun c => c ≠ dquote)).take n

/-- Scanning loop of `parse_and_update_areas`.  `ptr` is the text from the scan
position on, `updated` the number of updates issued so far; update number `k`
runs under the outcome `rc k`.  One unit of fuel is one iteration. -/
def parse_and_update_areas_loop (rc : Nat → stmt_outcome) :
    Nat → c_string → Option database_t → Nat → Option database_t × Nat
  | 0, _, db, updated => (db, updated)
  | fuel + 1, ptr, db, updated =>
    match strstr ptr marker_e with
    | none => (db, updated)
    | some off =>
      let ptr := ptr.drop (off + 5)
      let entity_id := scan_quoted ptr 127
      let ptr := ptr.drop entity_id.length
      if ptr.head? ≠ some dquote then parse_and_update_areas_loop rc fuel ptr db updated
      else
        let ptr := ptr.drop 1
        match strstr ptr marker_a with
        | none => parse_and_update_areas_loop rc fuel ptr db updated
        | some area_off =>
          if area_off > 20 then parse_and_update_areas_loop rc fuel ptr db updated
          else
            let area_ptr := ptr.drop (area_off + 5)
            let area_id := scan_quoted area_ptr 63
            if entity_id.length > 0 ∧ area_id.length > 0 then
              let r := database_update_entity_area (rc updated) db (some entity_id) (some area_id)
              parse_and_update_areas_loop rc fuel ptr r.1 (updated + 1)
            else parse_and_update_areas_loop rc fuel ptr db updated

/-- Merge of the area payload: `parse_and_update_areas`.  Every iteration moves
the scan position forward, so the length of the text is fuel enough. -/
def parse_and_update_areas (rc : Nat → stmt_outcome) (db : Option database_t)
    (json : Option c_string) : Option database_t × Nat :=
  match json with
  | none => (db, 0)
  | some j =>
    if j.length < 2 then (db, 0)
    else parse_and_update_areas_loop rc j.length j db 0

/-- What the outside world answers during one `cache_manager_sync`. -/
structure sync_env where
  get_states : Option ha_response_t
  get_entity_registry : Option ha_response_t
  time : Int
  save_rc : Nat → stmt_outcome
  area_rc : Nat → stmt_outcome
  metadata_rc : stmt_outcome

/-- Full sync: `cache_manager_sync`. -/
def cache_manager_sync (lib : cjson_lib) (env : sync_env) (manager : Option cache_manager_t) :
    Option cache_manager_t × Int :=
  match manager with
  | none => (none, -1)
  | some m =>
    match m.ha_client with
    | none => (manager, -1)
    | some _ =>
      match env.get_states with
      | none => (some { m with online := 0 }, -1)
      | some response =>
        if response.success = 0 then (some { m with online := 0 }, -1)
        else
          let parsed := parse_entities_array lib response.data 0
          if parsed.1.isNone ∨ parsed.2 = 0 then (manager, -1)
          else
            let saved := database_save_entities env.save_rc m.db parsed.1 parsed.2
            let merged :=
              match env.get_entity_registry with
              | some area_response =>
                if area_response.success ≠ 0 ∧ area_response.data.isSome then
                  (parse_and_update_areas env.area_rc saved.1 area_response.data).1
                else saved.1
              | none => saved.1
            let timestamp := snprintf_ld env.time
            let stored :=
              database_set_metadata env.metadata_rc merged (some "last_sync".toList)
                (some timestamp)
            (some { m with db := stored.1, last_sync := env.time, online := 1 }, saved.2)

/-- Staleness test: `cache_manager_should_sync`, with `now` the clock.  The
difference of the two `time_t` values is a `time_t`: it is the difference of
the integers when that fits 64 bits, and the low 64 bits of it otherwise. -/
def cache_manager_should_sync (now : Int) (manager : Option cache_manager_t) : Int :=
  match manager with
  | none => 0
  | some m =>
    match m.ha_client with
    | none => 0
    | some _ => if to_long (now - m.last_sync) ≥ m.sync_interval then 1 else 0

/-- Sync when stale: `cache_manager_sync_if_needed`.  `now` is the clock read
by the staleness test. -/
def cache_manager_sync_if_needed (lib : cjson_lib) (now : Int) (env : sync_env)
    (manager : Option cache_manager_t) : Option cache_manager_t × Int :=
  if cache_manager_should_sync now manager = 0 then (manager, 0)
  else cache_manager_sync lib env manager

/-- Last sync time: `cache_manager_get_last_sync`. -/
def cache_manager_get_last_sync (manager : Option cache_manager_t) : Int :=
  match manager with
  | some m => m.last_sync
  | none => 0

/-- All cached entities: `cache_manager_get_entities`. -/
def cache_manager_get_entities (q_count q_select : stmt_outcome)
    (manager : Option cache_manager_t) (count : Int) : Option (List ha_entity_t) × Int :=
  match manager with
  | none => (none, count)
  | some m => database_get_all_entities q_count q_select m.db count

/-- Cached entities of one domain: `cache_manager_get_entities_by_domain`. -/
def cache_manager_get_entities_by_domain (q_count q_select : stmt_outcome)
    (manager : Option cache_manager_t) (domain : Option c_string) (count : Int) :
    Option (List ha_entity_t) × Int :=
  match manager, domain with
  | some m, some d => database_get_entities_by_domain q_count q_select m.db (some d) count
  | _, _ => (none, count)

/-- One cached entity: `cache_manager_get_entity`. -/
def cache_manager_get_entity (q : stmt_outcome) (manager : Option cache_manager_t)
    (entity_id : Option c_string) : Option ha_entity_t :=
  match manager, entity_id with
  | some m, some id => database_get_entity q m.db (some id)
  | _, _ => none

/-- What the outside world answers during one `cache_manager_refresh_entity`. -/
structure refresh_env where
  get_state : Option ha_response_t
  get_rc : stmt_outcome
  save_rc : stmt_outcome

/-- Refresh of one entity: `cache_manager_refresh_entity`. -/
def cache_manager_refresh_entity (lib : cjson_lib) (env : refresh_env)
    (manager : Option cache_manager_t) (entity_id : Option c_string) :
    Option cache_manager_t × Option ha_entity_t :=
  match manager, entity_id with
  | some m, some id =>
    match m.ha_client with
    | none => (manager, none)
    | some _ =>
      let cached := (manager, database_get_entity env.get_rc m.db (some id))
      match env.get_state with
      | none => cached
      | some response =>
        if response.success = 0 then cached
        else
          match parse_single_entity lib response.data with
          | some entity =>
            (some { m with db := (database_save_entity env.save_rc m.db (some entity)).1 },
              some entity)
          | none => (manager, none)
  | _, _ => (manager, none)

/-- Optimistic state change: `cache_manager_update_entity_state`. -/
def cache_manager_update_entity_state (q rc : stmt_outcome) (manager : Option cache_manager_t)
    (entity_id new_state : Option c_string) : Option cache_manager_t × Int :=
  match manager, entity_id, new_state with
  | some m, some id, some st =>
    match database_get_entity q m.db (some id) with
    | none => (manager, 0)
    | some entity =>
      let r := database_save_entity rc m.db (some { entity with state := strncpy st 63 })
      (some { m with db := r.1 }, r.2)
  | _, _, _ => (manager, 0)

/-- Favorite entities: `cache_manager_get_favorites`. -/
def cache_manager_get_favorites (q_count q_select : stmt_outcome)
    (manager : Option cache_manager_t) (count : Int) : Option (List ha_entity_t) × Int :=
  match manager with
  | none => (none, count)
  | some m => database_get_favorites q_count q_select m.db count

/-- Add a favorite: `cache_manager_add_favorite`. -/
def cache_manager_add_favorite (rc : stmt_outcome) (current_timestamp : c_string)
    (manager : Option cache_manager_t) (entity_id : Option c_string) :
    Option cache_manager_t × Int :=
  match manager, entity_id with
  | some m, some id =>
    let r := database_add_favorite rc current_timestamp m.db (some id)
    (some { m with db := r.1 }, r.2)
  | _, _ => (manager, 0)

/-- Remove a favorite: `cache_manager_remove_favorite`. -/
def cache_manager_remove_favorite (rc : stmt_outcome) (manager : Option cache_manager_t)
    (entity_id : Option c_string) : Option cache_manager_t × Int :=
  match manager, entity_id with
  | some m, some id =>
    let r := database_remove_favorite rc m.db (some id)
    (some { m with db := r.1 }, r.2)
  | _, _ => (manager, 0)

/-- Flip of the favorite status: `cache_manager_toggle_favorite`.  `q` is the
outcome of the membership query, `rc` of the write that follows. -/
def cache_manager_toggle_favorite (q rc : stmt_outcome) (current_timestamp : c_string)
    (manager : Option cache_manager_t) (entity_id : Option c_string) :
    Option cache_manager_t × Int :=
  match manager, entity_id with
  | some m, some id =>
    if database_is_favorite q m.db (some id) ≠ 0 then
      (some { m with db := (database_remove_favorite rc m.db (some id)).1 }, 0)
    else
      (some { m with db := (database_add_favorite rc current_timestamp m.db (some id)).1 }, 1)
  | _, _ => (manager, -1)

/-- Favorite test: `cache_manager_is_favorite`. -/
def cache_manager_is_favorite (q : stmt_outcome) (manager : Option cache_manager_t)
    (entity_id : Option c_string) : Int :=
  match manager, entity_id with
  | some m, some id => database_is_favorite q m.db (some id)
  | _, _ => 0

/-- Last known connectivity: `cache_manager_is_online`. -/
def cache_manager_is_online (manager : Option cache_manager_t) : Int :=
  match manager with
  | some m => m.online
  | none => 0

/-- Number of cached entities: `cache_manager_get_entity_count`. -/
def cache_manager_get_entity_count (q : stmt_outcome) (manager : Option cache_manager_t) :
    Int :=
  match manager with
  | none => 0
  | some m => database_get_entity_count q m.db

/-! ## Reading the store -/

/-- Rows of table entities behind a database pointer; none behind a NULL or
closed one. -/
def entity_rows (db : Option database_t) : List ha_entity_t :=
  match db with
  | some ⟨some s, _⟩ => s.entities
  | _ => []

/-- Record with its area blanked: the part of a record the area merge leaves
alone. -/
def without_area (e : ha_entity_t) : ha_entity_t := { e with area_id := [] }

/-- Rows of table entities after each record of a batch was saved in turn. -/
def rows_after_saves (rows : List ha_entity_t) (es : List ha_entity_t) : List ha_entity_t :=
  es.foldl (fun acc e => acc.filter (fun r => r.entity_id ≠ e.entity_id) ++ [e]) rows

/-- The area-registry fetch failed: no response, `success = 0`, or no body. -/
def area_fetch_failed (env : sync_env) : Prop :=
  env.get_entity_registry = none ∨
    ∃ a, env.get_entity_registry = some a ∧ (a.success = 0 ∨ a.data = none)

/-- The id under which the parser stores a JSON item: the item's string
`entity_id` cut to the 127 chars of the buffer. -/
def stored_id (item : cJSON) : c_string :=
  strncpy ((json_get_string (some item) "entity_id".toList none).getD []) 127

/-- Entity object: a JSON object with a string `entity_id`. -/
def is_entity_object (item : cJSON) : Prop :=
  cJSON_IsObject item = true ∧
    ∃ id, json_get_string (some item) "entity_id".toList none = some id

/-- Order of `ORDER BY friendly_name` on two records. -/
def by_friendly_name (a b : ha_entity_t) : Prop :=
  text_le a.friendly_name b.friendly_name = true

instance : DecidableRel by_friendly_name := fun a b => by
  unfold by_friendly_name; infer_instance

/-- Rows of table favorites behind a database pointer. -/
def favorite_rows (db : Option database_t) : List favorites_row :=
  match db with
  | some ⟨some s, _⟩ => s.favorites
  | _ => []

/-- Rows of table metadata behind a database pointer. -/
def metadata_rows (db : Option database_t) : List metadata_row :=
  match db with
  | some ⟨some s, _⟩ => s.metadata
  | _ => []

/-- The lookup of `name` in `obj` finds no string: it finds nothing, or an item
that is not a string.  The lookup is cJSON's, which compares names without
regard to letter case. -/
def no_string_member (obj : cJSON) (name : c_string) : Prop :=
  ∀ v, cJSON_GetObjectItem obj name ≠ some (.String v)

/-- The lookup of `name` in `obj` finds no number. -/
def no_number_member (obj : cJSON) (name : c_string) : Prop :=
  ∀ v, cJSON_GetObjectItem obj name ≠ some (.Number v)

/-- The member `attributes` of an entity object when it is there and is an
object. -/
def attributes_of (j : cJSON) : Option cJSON :=
  match cJSON_GetObjectItem j "attributes".toList with
  | some (.Object members) => some (.Object members)
  | _ => none

/-- Boolean form of `is_entity_object`. -/
def entity_object_b (item : cJSON) : Bool :=
  cJSON_IsObject item && (json_get_string (some item) "entity_id".toList none).isSome

/-- The part of an entity id before its first dot; the whole id when it has no
dot. -/
def before_first_dot (entity_id : c_string) : c_string :=
  entity_id.takeWhile (fun c => c ≠ '.')

/-- Order of `ORDER BY f.added_at` on two rows of the join. -/
def by_added_at (a b : ha_entity_t × favorites_row) : Prop :=
  text_le a.2.added_at b.2.added_at = true

instance : DecidableRel by_added_at := fun a b => by
  unfold by_added_at; infer_instance

/-- The opening brace. -/
def lbrace : Char := Char.ofNat 123

/-- The closing brace. -/
def rbrace : Char := Char.ofNat 125

/-- Text of one pair of the area payload, an object with the members e and a
that hold the entity id `p.1` and the area id `p.2`, followed by `tail`. -/
def area_pair_text (p : c_string × c_string) (tail : c_string) : c_string :=
  lbrace :: (marker_e ++ (p.1 ++ dquote :: ',' :: (marker_a ++ (p.2 ++ dquote :: rbrace :: tail))))

/-- Text of the area payload after a pair: a comma and the next pair, or the
closing bracket and the text `S` that follows the array. -/
def area_rest_text : List (c_string × c_string) → c_string → c_string
  | [], S => ']' :: S
  | p :: ps, S => ',' :: area_pair_text p (area_rest_text ps S)

/-- Area payload: the text `P`, the array of the pairs, the text `S`. -/
def area_payload (P : c_string) (pairs : List (c_string × c_string)) (S : c_string) :
    c_string :=
  match pairs with
  | [] => P ++ '[' :: ']' :: S
  | p :: ps => P ++ '[' :: area_pair_text p (area_rest_text ps S)

/-- A pair the scanner reads whole: the entity id has 1 to 127 chars, the area
id 1 to 63, and neither holds a double quote. -/
def area_pair_ok (p : c_string × c_string) : Prop :=
  1 ≤ p.1.length ∧ p.1.length ≤ 127 ∧ (∀ x ∈ p.1, x ≠ dquote) ∧
  1 ≤ p.2.length ∧ p.2.length ≤ 63 ∧ (∀ x ∈ p.2, x ≠ dquote)

/-- The calls of `database_update_entity_area` for the listed pairs, in order;
call number `k` runs under the outcome `rc k`. -/
def area_updates (rc : Nat → stmt_outcome) :
    List (c_string × c_string) → Option database_t → Nat → Option database_t × Nat
  | [], db, updated => (db, updated)
  | p :: ps, db, updated =>
    area_updates rc ps
      (database_update_entity_area (rc updated) db (some p.1) (some p.2)).1 (updated + 1)

/-- A row after the listed area updates ran in order over a working store. -/
def area_after (pairs : List (c_string × c_string)) (r : ha_entity_t) : ha_entity_t :=
  pairs.foldl (fun row p => if row.entity_id = p.1 then { row with area_id := p.2 } else row) r

/-! ## The service call (`ha_client.c`) -/

/-- Text that `snprintf` leaves in a buffer of `size` bytes. -/
def snprintf_buf (size : Nat) (text : c_string) : c_string := text.take (size - 1)

/-- Request that `ha_client_call_service` hands to `ha_post`: the endpoint and
the POST body `post_data`; none when `domain` or `service` is NULL.  The body
with both an entity id and parameters is the format
`{"entity_id":"%s",%s}` filled with the id and with `params_json + 1`.  With
parameters only the body is what `strncpy` copies into `post_data`: the
parameters themselves when they have fewer than 1023 chars; for longer ones
`strncpy` writes 1023 chars and no terminating NUL, and the value here is
those 1023 chars, the bytes that follow them in the buffer being unknown. -/
def ha_client_call_service (domain service entity_id params_json : Option c_string) :
    Option (c_string × c_string) :=
  match domain, service with
  | some d, some sv =>
    let endpoint := snprintf_buf 256 ("/api/services/".toList ++ d ++ '/' :: sv)
    let post_data :=
      match entity_id, params_json with
      | some id, some params =>
        snprintf_buf 1024
          ([lbrace, dquote] ++ "entity_id".toList ++ [dquote, ':', dquote] ++ id ++
            [dquote, ','] ++ params.drop 1 ++ [rbrace])
      | some id, none =>
        snprintf_buf 1024
          ([lbrace, dquote] ++ "entity_id".toList ++ [dquote, ':', dquote] ++ id ++
            [dquote, rbrace])
      | none, some params => strncpy params 1023
      | none, none => [lbrace, rbrace]
    some (endpoint, post_data)
  | _, _ => none

/-! ## The scan of the area payload, step by step -/

/-- One iteration of the loop of `parse_and_update_areas`: none when the marker
of an entity id is not found and the loop ends, else the scan position, the
database and the update count the next iteration starts with. -/
def parse_and_update_areas_step (rc : Nat → stmt_outcome) (ptr : c_string)
    (db : Option database_t) (updated : Nat) :
    Option (c_string × Option database_t × Nat) :=
  match strstr ptr marker_e with
  | none => none
  | some off =>
    let ptr := ptr.drop (off + 5)
    let entity_id := scan_quoted ptr 127
    let ptr := ptr.drop entity_id.length
    if ptr.head? ≠ some dquote then some (ptr, db, updated)
    else
      let ptr := ptr.drop 1
      match strstr ptr marker_a with
      | none => some (ptr, db, updated)
      | some area_off =>
        if area_off > 20 then some (ptr, db, updated)
        else
          let area_ptr := ptr.drop (area_off + 5)
          let area_id := scan_quoted area_ptr 63
          if entity_id.length > 0 ∧ area_id.length > 0 then
            some (ptr,
              (database_update_entity_area (rc updated) db (some entity_id) (some area_id)).1,
              updated + 1)
          else some (ptr, db, updated)

/-- The loop of `parse_and_update_areas` run for at most `fuel` iterations:
what the loop returns, or none when it has not ended by then. -/
def parse_and_update_areas_run (rc : Nat → stmt_outcome) :
    Nat → c_string → Option database_t → Nat → Option (Option database_t × Nat)
  | 0, _, _, _ => none
  | fuel + 1, ptr, db, updated =>
    match parse_and_update_areas_step rc ptr db updated with
    | none => some (db, updated)
    | some next => parse_and_update_areas_run rc fuel next.1 next.2.1 next.2.2

/-! ## Session state and reachable managers -/

/-- Session state of a manager: `online`, `last_sync`, `sync_interval`. -/
def session_state (m : cache_manager_t) : Int × Int × Int :=
  (m.online, m.last_sync, m.sync_interval)

/-- The database a manager pointer leads to. -/
def manager_db (manager : Option cache_manager_t) : Option database_t :=
  manager.bind (fun m => m.db)

/-- Entity ids cached behind a database pointer, in rowid order. -/
def cached_ids (db : Option database_t) : List c_string :=
  (entity_rows db).map (fun e => e.entity_id)

/-- Nothing is lost from `db` to `db'`: every cached id is still cached, and the
primary key of table entities still holds if it held. -/
def keeps_entities (db db' : Option database_t) : Prop :=
  (∀ id ∈ cached_ids db, id ∈ cached_ids db') ∧
    ((cached_ids db).Nodup → (cached_ids db').Nodup)

/-- Managers reachable from `cache_manager_create` by the operations of
`cache_manager.h` that act on a manager, whatever the outside world answers. -/
inductive reachable : cache_manager_t → Prop where
  | create (q : stmt_outcome) (db : Option database_t) (client : Option ha_client_t)
      (m : cache_manager_t) : cache_manager_create q db client = some m → reachable m
  | set_sync_interval (m m' : cache_manager_t) (seconds : Int) : reachable m →
      cache_manager_set_sync_interval (some m) seconds = some m' → reachable m'
  | sync (lib : cjson_lib) (env : sync_env) (m m' : cache_manager_t) : reachable m →
      (cache_manager_sync lib env (some m)).1 = some m' → reachable m'
  | sync_if_needed (lib : cjson_lib) (now : Int) (env : sync_env) (m m' : cache_manager_t) :
      reachable m → (cache_manager_sync_if_needed lib now env (some m)).1 = some m' →
      reachable m'
  | refresh_entity (lib : cjson_lib) (env : refresh_env) (id : Option c_string)
      (m m' : cache_manager_t) : reachable m →
      (cache_manager_refresh_entity lib env (some m) id).1 = some m' → reachable m'
  | update_entity_state (q rc : stmt_outcome) (id st : Option c_string)
      (m m' : cache_manager_t) : reachable m →
      (cache_manager_update_entity_state q rc (some m) id st).1 = some m' → reachable m'
  | add_favorite (rc : stmt_outcome) (t : c_string) (id : Option c_string)
      (m m' : cache_manager_t) : reachable m →
      (cache_manager_add_favorite rc t (some m) id).1 = some m' → reachable m'
  | remove_favorite (rc : stmt_outcome) (id : Option c_string) (m m' : cache_manager_t) :
      reachable m → (cache_manager_remove_favorite rc (some m) id).1 = some m' → reachable m'
  | toggle_favorite (q rc : stmt_outcome) (t : c_string) (id : Option c_string)
      (m m' : cache_manager_t) : reachable m →
      (cache_manager_toggle_favorite q rc t (some m) id).1 = some m' → reachable m'

/-! ## The persisted time of the last sync -/

/-- The connection behind a database pointer is open. -/
def store_open (db : Option database_t) : Bool :=
  match db with
  | some ⟨some _, _⟩ => true
  | _ => false

/-- Value of the first row of table metadata under `key`, if there is one. -/
def metadata_value (db : Option database_t) (key : c_string) : Option c_string :=
  ((metadata_rows db).find? (fun r => r.key = key)).map (fun r => r.value)

/-! ## Sample data -/

/-- Sample client. -/
def sample_client : ha_client_t :=
  { base_url := "http://homeassistant.local:8123".toList
    token := "secret".toList
    timeout := 30
    insecure := 0 }

/-- Sample cached record: a light with an area. -/
def light_kitchen : ha_entity_t :=
  { entity_id := "light.kitchen".toList
    state := "off".toList
    friendly_name := "Kitchen".toList
    icon := "mdi:lightbulb".toList
    domain := "light".toList
    area_id := "kitchen".toList
    attributes_json := some "\x7b\"friendly_name\":\"Kitchen\"\x7d".toList
    supported_features := 1
    last_changed := "2024-01-01T00:00:00".toList
    last_updated := "2024-01-01T00:00:00".toList }

/-- Sample cached record: a sensor without attributes. -/
def sensor_temp : ha_entity_t :=
  { entity_id := "sensor.temp".toList
    state := "20.5".toList
    friendly_name := "sensor.temp".toList
    icon := []
    domain := "sensor".toList
    area_id := []
    attributes_json := none
    supported_features := 0
    last_changed := []
    last_updated := [] }

/-- Sample store: two entities, one favorite, a recorded sync time. -/
def sample_store : sqlite3 :=
  { entities := [sensor_temp, light_kitchen]
    favorites := [⟨"light.kitchen".toList, "2024-01-01 00:00:00".toList⟩]
    metadata := [⟨"last_sync".toList, "1000".toList⟩] }

/-- Sample open database. -/
def sample_db : database_t := { db := some sample_store, db_path := "/tmp/ha.db".toList }

/-- Sample manager with a client, last synced at 1000. -/
def sample_manager : cache_manager_t :=
  { db := some sample_db
    ha_client := some sample_client
    last_sync := 1000
    sync_interval := 300
    online := 1 }

/-- Sample manager in offline mode. -/
def sample_offline_manager : cache_manager_t :=
  { sample_manager with ha_client := none, online := 0 }

/-- Sample response of a hub that answers 500. -/
def sample_failed_response : ha_response_t :=
  { data := none, size := 0, status_code := 500, success := 0, error_message := "HTTP 500".toList }

/-- Sample cJSON stand-in that parses nothing and prints nothing. -/
def sample_null_lib : cjson_lib :=
  { cJSON_Parse := fun _ => none, cJSON_PrintUnformatted := fun _ => none }

/-- Sample world in which the hub does not answer and the store works. -/
def sample_env_unreachable : sync_env :=
  { get_states := none
    get_entity_registry := none
    time := 2000
    save_rc := fun _ => .ok
    area_rc := fun _ => .ok
    metadata_rc := .ok }

/-- Sample record with the given id and display name, its domain taken from
the id. -/
def sample_entity (id name : String) : ha_entity_t :=
  { entity_id := id.toList
    state := "on".toList
    friendly_name := name.toList
    icon := []
    domain := (id.toList.takeWhile (fun c => c ≠ '.'))
    area_id := []
    attributes_json := none
    supported_features := 0
    last_changed := []
    last_updated := [] }

/-- Sample store with the ids light.a, light.b and sensor.c. -/
def sample_store_abc : sqlite3 :=
  { entities := [sample_entity "sensor.c" "Cellar", sample_entity "light.b" "Attic",
      sample_entity "light.a" "Bedside"]
    favorites := []
    metadata := [] }

/-- Sample body of the all-states answer: a kitchen light that is on and a
temperature sensor at 21.0. -/
def sample_states_body : c_string :=
  ("[\x7b\"entity_id\":\"light.kitchen\",\"state\":\"on\"," ++
    "\"attributes\":\x7b\"friendly_name\":\"Kitchen\"\x7d\x7d," ++
    "\x7b\"entity_id\":\"sensor.temp\",\"state\":\"21.0\"\x7d]").toList

/-- Sample body as cJSON parses it. -/
def sample_states_json : cJSON :=
  .Array
    [ .Object
        [ ("entity_id".toList, .String "light.kitchen".toList),
          ("state".toList, .String "on".toList),
          ("attributes".toList, .Object [("friendly_name".toList, .String "Kitchen".toList)]) ],
      .Object
        [ ("entity_id".toList, .String "sensor.temp".toList),
          ("state".toList, .String "21.0".toList) ] ]

/-- Sample printer for an object of one string member. -/
def sample_print : cJSON → Option c_string
  | .Object [(k, .String v)] =>
    some ([Char.ofNat 123, dquote] ++ k ++ [dquote, ':', dquote] ++ v ++ [dquote, Char.ofNat 125])
  | _ => none

/-- Sample cJSON stand-in that knows the sample body. -/
def sample_lib : cjson_lib :=
  { cJSON_Parse := fun s => if s = sample_states_body then some sample_states_json else none
    cJSON_PrintUnformatted := sample_print }

/-- Sample answer 200 carrying the sample body. -/
def sample_states_response : ha_response_t :=
  { data := some sample_states_body
    size := sample_states_body.length
    status_code := 200
    success := 1
    error_message := [] }

/-- Sample world: the states fetch succeeds, the area fetch gets no answer, the
store works, the clock reads 2000. -/
def sample_env_no_areas : sync_env :=
  { get_states := some sample_states_response
    get_entity_registry := none
    time := 2000
    save_rc := fun _ => .ok
    area_rc := fun _ => .ok
    metadata_rc := .ok }

/-- Sample world like `sample_env_no_areas` over a store that rejects every
write. -/
def sample_env_store_rejects : sync_env :=
  { sample_env_no_areas with save_rc := fun _ => .step_error, metadata_rc := .step_error }

/-- Sample manager over an empty cache, never synced. -/
def sample_fresh_manager : cache_manager_t :=
  { db := some ⟨some ⟨[], [], []⟩, "/tmp/ha.db".toList⟩
    ha_client := some sample_client
    last_sync := 0
    sync_interval := 300
    online := 1 }

/-- Sample entity id of 128 chars ending in `c`. -/
def sample_long_id (c : Char) : c_string := "light.".toList ++ List.replicate 121 'x' ++ [c]

/-- Sample body with two ids of 128 chars that differ in the last char only. -/
def sample_long_body : c_string :=
  "[\x7b\"entity_id\":\"".toList ++ sample_long_id 'a' ++
    "\",\"state\":\"on\"\x7d,\x7b\"entity_id\":\"".toList ++ sample_long_id 'b' ++
    "\",\"state\":\"off\"\x7d]".toList

/-- Sample long-id body as cJSON parses it. -/
def sample_long_json : cJSON :=
  .Array
    [ .Object [("entity_id".toList, .String (sample_long_id 'a')),
        ("state".toList, .String "on".toList)],
      .Object [("entity_id".toList, .String (sample_long_id 'b')),
        ("state".toList, .String "off".toList)] ]

/-- Sample cJSON stand-in that knows the long-id body. -/
def sample_long_lib : cjson_lib :=
  { cJSON_Parse := fun s => if s = sample_long_body then some sample_long_json else none
    cJSON_PrintUnformatted := sample_print }

/-- Sample world whose states answer carries the long-id body. -/
def sample_env_long_ids : sync_env :=
  { sample_env_no_areas with
    get_states := some { sample_states_response with data := some sample_long_body } }

/-- Sample body of the area answer: light.kitchen is in area kitchen. -/
def sample_areas_body : c_string :=
  "[\x7b\"e\":\"light.kitchen\",\"a\":\"kitchen\"\x7d]".toList

/-- Sample world like `sample_env_no_areas` whose area fetch succeeds. -/
def sample_env_areas : sync_env :=
  { sample_env_no_areas with
    get_entity_registry := some
      { data := some sample_areas_body
        size := sample_areas_body.length
        status_code := 200
        success := 1
        error_message := [] } }

/-- The record the parser builds for the sample kitchen light. -/
def parsed_light_kitchen : ha_entity_t :=
  { entity_id := "light.kitchen".toList
    state := "on".toList
    friendly_name := "Kitchen".toList
    icon := []
    domain := "light".toList
    area_id := []
    attributes_json := some "\x7b\"friendly_name\":\"Kitchen\"\x7d".toList
    supported_features := 0
    last_changed := []
    last_updated := [] }

/-- The record the parser builds for the sample sensor. -/
def parsed_sensor_temp : ha_entity_t :=
  { sensor_temp with state := "21.0".toList }

/-- Sample entity object with nothing but an id. -/
def sample_bare_object : cJSON :=
  .Object [("entity_id".toList, .String "sensor.temp".toList)]

/-- Sample entity id whose part before the dot has 32 chars. -/
def sample_wide_domain_id : c_string := List.replicate 32 'a' ++ ".x".toList

/-- Sample entity object with the wide id and a member named domain. -/
def sample_wide_domain_object : cJSON :=
  .Object [("entity_id".toList, .String sample_wide_domain_id),
    ("domain".toList, .String "light".toList)]

/-- Sample world whose states answer is a 200 with a body that is no JSON. -/
def sample_env_garbage : sync_env :=
  { sample_env_no_areas with
    get_states := some { sample_states_response with data := some "<html>busy</html>".toList } }

/-- Sample store with two cached entities and three favorites, the oldest of
which is not cached. -/
def sample_store_favorites : sqlite3 :=
  { entities := [sensor_temp, light_kitchen]
    favorites :=
      [ ⟨"light.kitchen".toList, "2024-01-03 00:00:00".toList⟩,
        ⟨"switch.gone".toList, "2024-01-01 00:00:00".toList⟩,
        ⟨"sensor.temp".toList, "2024-01-02 00:00:00".toList⟩ ]
    metadata := [] }

/-- Sample pairs of an area payload. -/
def sample_area_pairs : List (c_string × c_string) :=
  [("light.kitchen".toList, "kitchen".toList), ("sensor.temp".toList, "cellar".toList)]

/-- Sample body of an array whose second element is a number. -/
def sample_mixed_body : c_string :=
  ("[\x7b\"entity_id\":\"light.kitchen\"\x7d,7," ++
    "\x7b\"entity_id\":\"sensor.temp\"\x7d]").toList

/-- Sample cJSON stand-in that knows the mixed body. -/
def sample_mixed_lib : cjson_lib :=
  { cJSON_Parse := fun s =>
      if s = sample_mixed_body then
        some (cJSON.Array
          [cJSON.Object [("entity_id".toList, .String "light.kitchen".toList)],
            cJSON.Number 7,
            cJSON.Object [("entity_id".toList, .String "sensor.temp".toList)]])
      else none
    cJSON_PrintUnformatted := sample_print }

/-- Sample world of a refresh whose fetch is answered 200 with a body that is
no JSON. -/
def sample_refresh_garbage : refresh_env :=
  { get_state := some { sample_states_response with data := some "<html>busy</html>".toList }
    get_rc := .ok
    save_rc := .ok }

/-- Entity id of the example in `ha_client.h`. -/
def sample_service_id : c_string := "light.living_room".toList

/-- Parameters of the example in `ha_client.h`. -/
def sample_params : c_string := "\x7b\"brightness\": 128\x7d".toList

/-- Members of `sample_params`, between its braces. -/
def sample_params_members : c_string := "\"brightness\": 128".toList

/-- Sample world like `sample_env_no_areas` whose write of the metadata key
fails while the entities are saved. -/
def sample_env_metadata_rejects : sync_env :=
  { sample_env_no_areas with metadata_rc := .step_error }

/-- Sample malformed area payload: the quote of the first id is not closed, no
pair has an area field, and the text ends right after a marker. -/
def sample_malformed_areas : c_string :=
  "[\x7b\"e\":\"light.kitchen\x7d,\x7b\"e\":\"x\",\"b\":1\x7d,\"e\":\"".toList

/-- Sample open database whose key last_sync holds a text one beyond the
largest `long`. -/
def sample_db_beyond_long : database_t :=
  { db := some { sample_store with
      metadata := [⟨"last_sync".toList, "9223372036854775808".toList⟩] }
    db_path := "/tmp/ha.db".toList }

/-- Sample body of one object that has a state and no entity id. -/
def sample_stateless_body : c_string := "\x7b\"state\":\"on\"\x7d".toList

/-- Sample cJSON stand-in that knows the body without an id and the body of the
bare sensor object. -/
def sample_object_lib : cjson_lib :=
  { cJSON_Parse := fun s =>
      if s = sample_stateless_body then
        some (cJSON.Object [("state".toList, .String "on".toList)])
      else if s = "\x7b\"entity_id\":\"sensor.temp\"\x7d".toList then some sample_bare_object
      else none
    cJSON_PrintUnformatted := sample_print }

/-! ## Lemmas -/

theorem text_le_total (a b : c_string) : text_le a b = true ∨ text_le b a = true := by
  induction a generalizing b with
  | nil => simp [text_le]
  | cons x xs ih =>
    cases b with
    | nil => simp [text_le]
    | cons y ys =>
      simp only [text_le]
      rcases Nat.lt_trichotomy x.toNat y.toNat with h | h | h
      · simp [h]
      · simp [h, ih ys]
      · simp [h, Nat.lt_asymm h]

theorem text_le_trans (a b c : c_string) (hab : text_le a b = true)
    (hbc : text_le b c = true) : text_le a c = true := by
  induction a generalizing b c with
  | nil => simp [text_le]
  | cons x xs ih =>
    cases b with
    | nil => simp [text_le] at hab
    | cons y ys =>
      cases c with
      | nil => simp [text_le] at hbc
      | cons z zs =>
        simp only [text_le] at hab hbc ⊢
        split_ifs at hab hbc ⊢ <;> first | rfl | omega | exact ih _ _ hab hbc

theorem text_le_take (n : Nat) (a b : c_string) (hab : text_le a b = true) :
    text_le (a.take n) (b.take n) = true := by
  induction n generalizing a b with
  | zero => simp [text_le]
  | succ k ih =>
    cases a with
    | nil => simp [text_le]
    | cons x xs =>
      cases b with
      | nil => simp [text_le] at hab
      | cons y ys =>
        simp only [text_le, List.take_succ_cons] at hab ⊢
        split_ifs at hab ⊢ <;> first | rfl | exact ih _ _ hab

instance : IsTotal ha_entity_t by_friendly_name :=
  ⟨fun a b => text_le_total a.friendly_name b.friendly_name⟩

instance : IsTrans ha_entity_t by_friendly_name :=
  ⟨fun a b c hab hbc => text_le_trans a.friendly_name b.friendly_name c.friendly_name hab hbc⟩

theorem sql_order_by_friendly_name_sorted (rows : List ha_entity_t) :
    (sql_order_by_friendly_name rows).Sorted by_friendly_name :=
  List.sorted_insertionSort by_friendly_name rows

theorem sql_order_by_friendly_name_perm (rows : List ha_entity_t) :
    (sql_order_by_friendly_name rows).Perm rows :=
  List.perm_insertionSort by_friendly_name rows

theorem to_int32_of_int (n : Int) (h1 : -2147483648 ≤ n) (h2 : n < 2147483648) :
    to_int32 n = n := by
  unfold to_int32; omega

theorem to_int32_idem (n : Int) : to_int32 (to_int32 n) = to_int32 n := by
  unfold to_int32; omega

theorem to_long_of_long (n : Int) (h1 : LONG_MIN ≤ n) (h2 : n ≤ LONG_MAX) : to_long n = n := by
  unfold LONG_MIN at h1
  unfold LONG_MAX at h2
  unfold to_long; omega

theorem entity_from_row_of_wf (e : ha_entity_t) (h : ha_entity_wf e) :
    entity_from_row e = e := by
  obtain ⟨h1, h2, h3, h4, h5, h6, h7, h8, h9, h10⟩ := h
  cases e
  simp only [entity_from_row, strncpy, ha_entity_t.mk.injEq] at *
  refine ⟨?_, ?_, ?_, ?_, ?_, ?_, trivial, ?_, ?_, ?_⟩ <;>
    first
      | exact to_int32_of_int _ h9 h10
      | exact List.take_of_length_le (by assumption)

theorem entity_from_row_sorted (l : List ha_entity_t) (h : l.Sorted by_friendly_name) :
    (l.map entity_from_row).Sorted by_friendly_name := by
  unfold List.Sorted at *
  rw [List.pairwise_map]
  exact h.imp (fun {a b} hab => text_le_take 127 a.friendly_name b.friendly_name hab)

theorem database_get_entity_ok (db : Option database_t) (id : c_string) :
    database_get_entity .ok db (some id) =
      ((entity_rows db).find? (fun r => r.entity_id = id)).map entity_from_row := by
  rcases db with _ | ⟨_ | s, path⟩ <;> simp [database_get_entity, entity_rows]

theorem find_replace_entity (rows : List ha_entity_t) (e : ha_entity_t) (id : c_string) :
    (rows.filter (fun r => r.entity_id ≠ e.entity_id) ++ [e]).find?
        (fun r => r.entity_id = id) =
      if e.entity_id = id then some e else rows.find? (fun r => r.entity_id = id) := by
  induction rows with
  | nil => by_cases h : e.entity_id = id <;> simp [h]
  | cons r rs ih =>
    by_cases hr : r.entity_id = e.entity_id <;> by_cases hid : r.entity_id = id <;>
      by_cases h : e.entity_id = id <;>
      simp_all [List.filter_cons, List.find?_cons]

theorem database_is_favorite_ok (s : sqlite3) (path x : c_string) :
    database_is_favorite .ok (some ⟨some s, path⟩) (some x) =
      if ∃ f ∈ s.favorites, f.entity_id = x then 1 else 0 := by
  simp [database_is_favorite]

theorem is_favorite_after_add (s : sqlite3) (path t id x : c_string) :
    database_is_favorite .ok
        (database_add_favorite .ok t (some ⟨some s, path⟩) (some id)).1 (some x) =
      if x = id then 1 else database_is_favorite .ok (some ⟨some s, path⟩) (some x) := by
  by_cases hany : ∃ f ∈ s.favorites, f.entity_id = id
  · have h : database_add_favorite .ok t (some ⟨some s, path⟩) (some id) =
        (some ⟨some s, path⟩, 1) := by
      simp [database_add_favorite, hany]
    rw [h, database_is_favorite_ok]
    by_cases hx : x = id
    · subst hx; simp [hany]
    · simp [hx]
  · have h : database_add_favorite .ok t (some ⟨some s, path⟩) (some id) =
        (some ⟨some { s with favorites := s.favorites ++ [⟨id, t⟩] }, path⟩, 1) := by
      simp only [database_add_favorite, List.any_eq_true, decide_eq_true_eq, hany, if_false]
    rw [h, database_is_favorite_ok, database_is_favorite_ok]
    have hiff : (∃ f ∈ s.favorites ++ [(⟨id, t⟩ : favorites_row)], f.entity_id = x) ↔
        (x = id ∨ ∃ f ∈ s.favorites, f.entity_id = x) := by
      constructor
      · rintro ⟨f, hf, hfx⟩
        rcases List.mem_append.mp hf with hf | hf
        · exact Or.inr ⟨f, hf, hfx⟩
        · rw [List.mem_singleton] at hf
          rw [hf] at hfx
          exact Or.inl hfx.symm
      · rintro (hx | ⟨f, hf, hfx⟩)
        · exact ⟨⟨id, t⟩, List.mem_append.mpr (Or.inr (List.mem_singleton.mpr rfl)), hx.symm⟩
        · exact ⟨f, List.mem_append.mpr (Or.inl hf), hfx⟩
    by_cases hx : x = id
    · rw [if_pos (hiff.mpr (Or.inl hx)), if_pos hx]
    · rw [if_neg hx]
      by_cases hex : ∃ f ∈ s.favorites, f.entity_id = x
      · rw [if_pos hex, if_pos (hiff.mpr (Or.inr hex))]
      · rw [if_neg hex, if_neg (fun h => (hiff.mp h).elim hx hex)]

theorem is_favorite_after_remove (s : sqlite3) (path id x : c_string) :
    database_is_favorite .ok
        (database_remove_favorite .ok (some ⟨some s, path⟩) (some id)).1 (some x) =
      if x = id then 0 else database_is_favorite .ok (some ⟨some s, path⟩) (some x) := by
  have h : database_remove_favorite .ok (some ⟨some s, path⟩) (some id) =
      (some ⟨some { s with favorites := s.favorites.filter (fun f => f.entity_id ≠ id) },
        path⟩, 1) := rfl
  rw [h, database_is_favorite_ok, database_is_favorite_ok]
  by_cases hx : x = id
  · subst hx; simp [List.mem_filter]
  · have : ∀ f : favorites_row, f.entity_id = x → ¬ f.entity_id = id := by
      intro f hf; rw [hf]; exact hx
    have hiff : (∃ f ∈ s.favorites.filter (fun f => f.entity_id ≠ id), f.entity_id = x) ↔
        ∃ f ∈ s.favorites, f.entity_id = x := by
      constructor
      · rintro ⟨f, hf, hfx⟩
        exact ⟨f, (List.mem_filter.mp hf).1, hfx⟩
      · rintro ⟨f, hf, hfx⟩
        exact ⟨f, List.mem_filter.mpr ⟨hf, by simpa using this f hfx⟩, hfx⟩
    simp only [hx, if_false]
    by_cases hex : ∃ f ∈ s.favorites, f.entity_id = x
    · rw [if_pos hex, if_pos (hiff.mpr hex)]
    · rw [if_neg hex, if_neg (fun h => hex (hiff.mp h))]

theorem add_favorite_db (s : sqlite3) (path t id : c_string) :
    ∃ s', (database_add_favorite .ok t (some ⟨some s, path⟩) (some id)).1 =
      some ⟨some s', path⟩ := by
  by_cases hany : s.favorites.any (fun f => f.entity_id = id) = true
  · exact ⟨s, by simp [database_add_favorite, hany]⟩
  · exact ⟨_, by simp only [database_add_favorite, hany]; rfl⟩

theorem filter_replace_entity (rows : List ha_entity_t) (e : ha_entity_t) :
    (rows.filter (fun r => r.entity_id ≠ e.entity_id) ++ [e]).filter
        (fun r => r.entity_id ≠ e.entity_id) =
      rows.filter (fun r => r.entity_id ≠ e.entity_id) := by
  simp [List.filter_append, List.filter_filter]

theorem filter_replace_entity_same (rows : List ha_entity_t) (e : ha_entity_t) :
    (rows.filter (fun r => r.entity_id ≠ e.entity_id) ++ [e]).filter
        (fun r => r.entity_id = e.entity_id) = [e] := by
  simp [List.filter_append, List.filter_filter]

theorem database_save_entity_succeeds (rc : stmt_outcome) (db : Option database_t)
    (e : ha_entity_t) (h : (database_save_entity rc db (some e)).2 = 1) :
    rc = .ok ∧ ∃ s path, db = some ⟨some s, path⟩ ∧
      (database_save_entity rc db (some e)).1 = some ⟨some (sql_replace_entity s e), path⟩ := by
  rcases db with _ | ⟨_ | s, path⟩
  · simp [database_save_entity] at h
  · simp [database_save_entity] at h
  · cases rc
    · exact ⟨rfl, s, path, rfl, rfl⟩
    · simp [database_save_entity] at h
    · simp [database_save_entity] at h

theorem to_int32_range (n : Int) : -2147483648 ≤ to_int32 n ∧ to_int32 n < 2147483648 := by
  unfold to_int32; omega

theorem extract_domain_length (id : c_string) : (extract_domain id).length ≤ 31 := by
  unfold extract_domain strncpy
  split
  · split_ifs <;> simp only [List.length_take] <;> omega
  · simp only [List.length_take]; omega

theorem json_get_int_range (obj : Option cJSON) (key : c_string) :
    -2147483648 ≤ json_get_int obj key 0 ∧ json_get_int obj key 0 < 2147483648 := by
  unfold json_get_int
  split
  · decide
  · split
    · exact to_int32_range _
    · decide

theorem strncpy_length (src : c_string) (n : Nat) : (strncpy src n).length ≤ n := by
  unfold strncpy; simp only [List.length_take]; omega

theorem parse_entity_from_json_wf (lib : cjson_lib) (json : Option cJSON) (e : ha_entity_t)
    (h : parse_entity_from_json lib json = some e) : ha_entity_wf e := by
  unfold parse_entity_from_json at h
  split at h
  · cases h
  · split at h
    · cases h
    · split at h
      · cases h
      · split at h
        · cases h
          refine ⟨strncpy_length _ _, strncpy_length _ _, strncpy_length _ _,
            strncpy_length _ _, extract_domain_length _, strncpy_length _ _,
            strncpy_length _ _, strncpy_length _ _, ?_, ?_⟩
          · dsimp only; exact (json_get_int_range _ _).1
          · dsimp only; exact (json_get_int_range _ _).2
        · cases h
          refine ⟨strncpy_length _ _, strncpy_length _ _, strncpy_length _ _,
            ?_, extract_domain_length _, ?_, strncpy_length _ _, strncpy_length _ _, ?_, ?_⟩
            <;> simp

theorem parse_entity_from_json_id (lib : cjson_lib) (j : cJSON) (id : c_string)
    (hobj : cJSON_IsObject j = true)
    (hid : json_get_string (some j) "entity_id".toList none = some id) :
    ∃ e, parse_entity_from_json lib (some j) = some e ∧ e.entity_id = strncpy id 127 := by
  unfold parse_entity_from_json
  simp only [hobj, not_true_eq_false, if_false, hid]
  split
  · exact ⟨_, rfl, rfl⟩
  · exact ⟨_, rfl, rfl⟩

theorem parse_entities_array_some (lib : cjson_lib) (data : Option c_string)
    (es : List ha_entity_t) (n : Int) (h : parse_entities_array lib data 0 = (some es, n)) :
    n = es.length ∧ es ≠ [] ∧ ∀ e ∈ es, ha_entity_wf e := by
  unfold parse_entities_array at h
  split at h
  · cases h
  · split at h
    · cases h
    · dsimp only at h
      split_ifs at h with h1 h2 h3 <;> cases h
      refine ⟨rfl, ?_, ?_⟩
      · intro hnil
        exact h3 (by rw [hnil]; rfl)
      · intro e he
        obtain ⟨item, _, hitem⟩ := List.mem_filterMap.mp he
        exact parse_entity_from_json_wf lib (some item) e hitem

theorem parse_entities_array_of_array (lib : cjson_lib) (body : c_string) (items : List cJSON)
    (hparse : lib.cJSON_Parse body = some (cJSON.Array items))
    (hne : items.filterMap (fun item => parse_entity_from_json lib (some item)) ≠ []) :
    parse_entities_array lib (some body) 0 =
      (some (items.filterMap (fun item => parse_entity_from_json lib (some item))),
        ((items.filterMap (fun item => parse_entity_from_json lib (some item))).length : Int)) := by
  have hitems : items ≠ [] := by
    intro h; rw [h] at hne; exact hne rfl
  have h1 : items.length ≠ 0 := by simpa [List.length_eq_zero] using hitems
  have h2 : (items.filterMap (fun item => parse_entity_from_json lib (some item))).length ≠ 0 := by
    simpa [List.length_eq_zero] using hne
  simp only [parse_entities_array, parse_json_response, hparse, cJSON_IsArray, cJSON_children,
    not_true_eq_false, if_false, h1, h2]

theorem entity_rows_save (rc : stmt_outcome) (db : Option database_t) (e : ha_entity_t) :
    entity_rows (database_save_entity rc db (some e)).1 = entity_rows db ∨
    entity_rows (database_save_entity rc db (some e)).1 =
      (entity_rows db).filter (fun r => r.entity_id ≠ e.entity_id) ++ [e] := by
  rcases db with _ | ⟨_ | s, path⟩
  · exact Or.inl rfl
  · exact Or.inl rfl
  · cases rc
    · exact Or.inr rfl
    · exact Or.inl rfl
    · exact Or.inl rfl

theorem find_after_save_other (rc : stmt_outcome) (db : Option database_t) (e : ha_entity_t)
    (id : c_string) (hne : e.entity_id ≠ id) :
    (entity_rows (database_save_entity rc db (some e)).1).find? (fun r => r.entity_id = id) =
      (entity_rows db).find? (fun r => r.entity_id = id) := by
  rcases entity_rows_save rc db e with h | h
  · rw [h]
  · rw [h, find_replace_entity, if_neg hne]

theorem save_entities_loop_other (rc : Nat → stmt_outcome) (es : List ha_entity_t) (id : c_string)
    (hid : id ∉ es.map (fun e => e.entity_id)) (i : Nat) (db : Option database_t) (saved : Int) :
    (entity_rows (database_save_entities_loop rc es i db saved).1).find?
        (fun r => r.entity_id = id) =
      (entity_rows db).find? (fun r => r.entity_id = id) := by
  induction es generalizing i db saved with
  | nil => rfl
  | cons e rest ih =>
    simp only [List.map_cons, List.mem_cons, not_or] at hid
    simp only [database_save_entities_loop]
    rw [ih hid.2, find_after_save_other (rc i) db e id (fun h => hid.1 h.symm)]

theorem save_entities_loop_tally (rc : Nat → stmt_outcome) (es : List ha_entity_t) (i : Nat)
    (db : Option database_t) (saved : Int) :
    saved ≤ (database_save_entities_loop rc es i db saved).2 ∧
    (database_save_entities_loop rc es i db saved).2 ≤ saved + es.length := by
  induction es generalizing i db saved with
  | nil => simp [database_save_entities_loop]
  | cons e rest ih =>
    simp only [database_save_entities_loop, List.length_cons]
    split_ifs
    · have := ih (i + 1) (database_save_entity (rc i) db (some e)).1 (saved + 1)
      push_cast
      omega
    · have := ih (i + 1) (database_save_entity (rc i) db (some e)).1 saved
      push_cast
      omega

theorem save_entities_loop_ok (rc : Nat → stmt_outcome) (hrc : ∀ i, rc i = .ok)
    (es : List ha_entity_t) (i : Nat) (s : sqlite3) (path : c_string) (saved : Int) :
    database_save_entities_loop rc es i (some ⟨some s, path⟩) saved =
      (some ⟨some { s with entities := rows_after_saves s.entities es }, path⟩,
        saved + es.length) := by
  induction es generalizing i s saved with
  | nil => simp [database_save_entities_loop, rows_after_saves]
  | cons e rest ih =>
    simp only [database_save_entities_loop, hrc, database_save_entity]
    rw [ih]
    simp only [sql_replace_entity, rows_after_saves, List.foldl_cons, List.length_cons]
    simp only [ne_eq, one_ne_zero, not_false_eq_true, if_true, Prod.mk.injEq, true_and]
    push_cast
    ring

theorem rows_after_saves_distinct (rows es : List ha_entity_t)
    (hnodup : ((rows ++ es).map (fun e => e.entity_id)).Nodup) :
    rows_after_saves rows es = rows ++ es := by
  induction es generalizing rows with
  | nil => simp [rows_after_saves]
  | cons e rest ih =>
    have hfilter : rows.filter (fun r => r.entity_id ≠ e.entity_id) = rows := by
      rw [List.filter_eq_self]
      intro r hr
      simp only [List.map_append, List.map_cons] at hnodup
      have hdis := (List.nodup_append.mp hnodup).2.2
      have : r.entity_id ≠ e.entity_id := by
        intro heq
        exact hdis (List.mem_map_of_mem (fun e => e.entity_id) hr)
          (by rw [heq]; exact List.mem_cons_self _ _)
      simpa using this
    have hstep : rows_after_saves rows (e :: rest) = rows_after_saves (rows ++ [e]) rest := by
      simp only [rows_after_saves, List.foldl_cons]
      rw [hfilter]
    rw [hstep, ih (rows ++ [e]) (by simpa using hnodup)]
    simp

theorem rows_after_saves_other (rows es : List ha_entity_t) (id : c_string)
    (hid : id ∉ es.map (fun e => e.entity_id)) :
    (rows_after_saves rows es).find? (fun r => r.entity_id = id) =
      rows.find? (fun r => r.entity_id = id) := by
  induction es generalizing rows with
  | nil => rfl
  | cons e rest ih =>
    simp only [List.map_cons, List.mem_cons, not_or] at hid
    simp only [rows_after_saves, List.foldl_cons]
    have := ih (rows.filter (fun r => r.entity_id ≠ e.entity_id) ++ [e]) hid.2
    simp only [rows_after_saves] at this
    rw [this, find_replace_entity, if_neg (fun h => hid.1 h.symm)]

theorem rows_after_saves_member (rows es : List ha_entity_t) (id : c_string)
    (hid : id ∈ es.map (fun e => e.entity_id)) :
    ∃ e ∈ es, e.entity_id = id ∧
      (rows_after_saves rows es).find? (fun r => r.entity_id = id) = some e := by
  induction es generalizing rows with
  | nil => simp at hid
  | cons e rest ih =>
    have hstep : rows_after_saves rows (e :: rest) =
        rows_after_saves (rows.filter (fun r => r.entity_id ≠ e.entity_id) ++ [e]) rest := by
      simp only [rows_after_saves, List.foldl_cons]
    by_cases hrest : id ∈ rest.map (fun e => e.entity_id)
    · obtain ⟨e', he', hid', hfind⟩ :=
        ih (rows.filter (fun r => r.entity_id ≠ e.entity_id) ++ [e]) hrest
      exact ⟨e', List.mem_cons_of_mem _ he', hid', by rw [hstep]; exact hfind⟩
    · have he : e.entity_id = id := by
        simp only [List.map_cons, List.mem_cons] at hid
        rcases hid with h | h
        · exact h.symm
        · exact absurd h hrest
      refine ⟨e, List.mem_cons_self _ _, he, ?_⟩
      rw [hstep, rows_after_saves_other _ _ _ hrest, find_replace_entity, if_pos he]

theorem entity_rows_set_metadata (rc : stmt_outcome) (db : Option database_t)
    (key value : Option c_string) :
    entity_rows (database_set_metadata rc db key value).1 = entity_rows db := by
  rcases db with _ | ⟨_ | s, path⟩ <;> rcases key with _ | k <;> rcases value with _ | v <;>
    cases rc <;> rfl

theorem entity_rows_update_area (rc : stmt_outcome) (db : Option database_t)
    (entity_id area_id : Option c_string) :
    (entity_rows (database_update_entity_area rc db entity_id area_id).1).map without_area =
      (entity_rows db).map without_area := by
  rcases db with _ | ⟨_ | s, path⟩ <;> rcases entity_id with _ | id <;> cases rc <;>
    first
      | rfl
      | (simp only [database_update_entity_area, entity_rows, List.map_map]
         apply List.map_congr_left
         intro r _
         simp only [Function.comp]
         split_ifs <;> rfl)

theorem entity_rows_areas_loop (rc : Nat → stmt_outcome) (fuel : Nat) (ptr : c_string)
    (db : Option database_t) (updated : Nat) :
    (entity_rows (parse_and_update_areas_loop rc fuel ptr db updated).1).map without_area =
      (entity_rows db).map without_area := by
  induction fuel generalizing ptr db updated with
  | zero => rfl
  | succ k ih =>
    unfold parse_and_update_areas_loop
    split
    · rfl
    · dsimp only
      split_ifs
      · exact ih _ _ _
      · split
        · exact ih _ _ _
        · split_ifs
          · exact ih _ _ _
          · rw [ih, entity_rows_update_area]
          · exact ih _ _ _

theorem entity_rows_areas (rc : Nat → stmt_outcome) (db : Option database_t)
    (json : Option c_string) :
    (entity_rows (parse_and_update_areas rc db json).1).map without_area =
      (entity_rows db).map without_area := by
  unfold parse_and_update_areas
  split
  · rfl
  · split_ifs
    · rfl
    · exact entity_rows_areas_loop _ _ _ _ _

theorem database_get_entity_failed (q : stmt_outcome) (hq : q ≠ .ok) (db : Option database_t)
    (id : Option c_string) : database_get_entity q db id = none := by
  rcases db with _ | ⟨_ | s, path⟩ <;> rcases id with _ | id <;> cases q <;>
    first | rfl | exact absurd rfl hq

theorem database_get_entity_congr (q : stmt_outcome) (db db' : Option database_t) (id : c_string)
    (h : (entity_rows db').find? (fun r => r.entity_id = id) =
      (entity_rows db).find? (fun r => r.entity_id = id)) :
    database_get_entity q db' (some id) = database_get_entity q db (some id) := by
  cases q
  · rw [database_get_entity_ok, database_get_entity_ok, h]
  · rw [database_get_entity_failed _ (by decide), database_get_entity_failed _ (by decide)]
  · rw [database_get_entity_failed _ (by decide), database_get_entity_failed _ (by decide)]

theorem save_entities_other (rc : Nat → stmt_outcome) (db : Option database_t)
    (es : List ha_entity_t) (n : Int) (id : c_string)
    (hid : id ∉ es.map (fun e => e.entity_id)) :
    (entity_rows (database_save_entities rc db (some es) n).1).find?
        (fun r => r.entity_id = id) =
      (entity_rows db).find? (fun r => r.entity_id = id) := by
  have hsub : id ∉ (es.take n.toNat).map (fun e => e.entity_id) := by
    intro h
    obtain ⟨e, he, hid'⟩ := List.mem_map.mp h
    exact hid (List.mem_map.mpr ⟨e, List.mem_of_mem_take he, hid'⟩)
  rcases db with _ | ⟨_ | s, path⟩
  · rfl
  · rfl
  · simp only [database_save_entities]
    split_ifs
    · rfl
    · exact save_entities_loop_other rc _ id hsub 0 _ 0

theorem save_entities_tally (rc : Nat → stmt_outcome) (db : Option database_t)
    (es : List ha_entity_t) (n : Int) :
    0 ≤ (database_save_entities rc db (some es) n).2 ∧
    (database_save_entities rc db (some es) n).2 ≤ es.length := by
  rcases db with _ | ⟨_ | s, path⟩
  · simp [database_save_entities]
  · simp [database_save_entities]
  · simp only [database_save_entities]
    split_ifs
    · simp
    · have h := save_entities_loop_tally rc (es.take n.toNat) 0 (some ⟨some s, path⟩) 0
      have hlen : ((es.take n.toNat).length : Int) ≤ es.length := by
        exact_mod_cast List.length_take_le' _ _
      omega

theorem save_entities_ok (rc : Nat → stmt_outcome) (hrc : ∀ i, rc i = .ok) (s : sqlite3)
    (path : c_string) (es : List ha_entity_t) (hne : es ≠ []) :
    database_save_entities rc (some ⟨some s, path⟩) (some es) es.length =
      (some ⟨some { s with entities := rows_after_saves s.entities es }, path⟩,
        (es.length : Int)) := by
  have hlen : ¬ ((es.length : Int) ≤ 0) := by
    have : es.length ≠ 0 := by simpa [List.length_eq_zero] using hne
    omega
  simp only [database_save_entities, hlen, if_false, Int.toNat_ofNat, List.take_length]
  rw [save_entities_loop_ok rc hrc]
  simp

theorem cache_manager_sync_success (lib : cjson_lib) (env : sync_env) (m : cache_manager_t)
    (c : ha_client_t) (r : ha_response_t) (es : List ha_entity_t) (n : Int)
    (hc : m.ha_client = some c) (hstates : env.get_states = some r) (hsucc : r.success ≠ 0)
    (hparse : parse_entities_array lib r.data 0 = (some es, n)) :
    ∃ merged,
      cache_manager_sync lib env (some m) =
        (some { m with
            db := (database_set_metadata env.metadata_rc merged (some "last_sync".toList)
              (some (snprintf_ld env.time))).1
            last_sync := env.time
            online := 1 },
          (database_save_entities env.save_rc m.db (some es) n).2) ∧
      (entity_rows merged).map without_area =
        (entity_rows (database_save_entities env.save_rc m.db (some es) n).1).map without_area ∧
      (area_fetch_failed env →
        merged = (database_save_entities env.save_rc m.db (some es) n).1) := by
  obtain ⟨hn, hne, _⟩ := parse_entities_array_some lib r.data es n hparse
  have hn0 : n ≠ 0 := by
    have : es.length ≠ 0 := by simpa [List.length_eq_zero] using hne
    omega
  simp only [cache_manager_sync, hc, hstates, hsucc, hparse, if_false, Option.isNone_some,
    Bool.false_eq_true, hn0, or_self]
  rcases hreg : env.get_entity_registry with _ | a
  · exact ⟨_, rfl, rfl, fun _ => rfl⟩
  · by_cases ha : a.success ≠ 0 ∧ a.data.isSome = true
    · refine ⟨(parse_and_update_areas env.area_rc
        (database_save_entities env.save_rc m.db (some es) n).1 a.data).1, ?_, ?_, ?_⟩
      · dsimp only; rw [if_pos ha]
      · exact entity_rows_areas _ _ _
      · rintro (h | ⟨a', h, h'⟩)
        · rw [hreg] at h; cases h
        · rw [hreg] at h
          cases h
          rcases h' with h' | h'
          · exact absurd h' ha.1
          · rw [h'] at ha; simp at ha
    · refine ⟨(database_save_entities env.save_rc m.db (some es) n).1, ?_, rfl, fun _ => rfl⟩
      dsimp only; rw [if_neg ha]

theorem cache_manager_sync_cases (lib : cjson_lib) (env : sync_env) (m : cache_manager_t) :
    (cache_manager_sync lib env (some m)).2 = -1 ∨
    ∃ c r es n, m.ha_client = some c ∧ env.get_states = some r ∧ r.success ≠ 0 ∧
      parse_entities_array lib r.data 0 = (some es, n) := by
  rcases hc : m.ha_client with _ | c
  · left; simp [cache_manager_sync, hc]
  · rcases hs : env.get_states with _ | r
    · left; simp [cache_manager_sync, hc, hs]
    · by_cases hsucc : r.success = 0
      · left; simp [cache_manager_sync, hc, hs, hsucc]
      · rcases hp : parse_entities_array lib r.data 0 with ⟨_ | es, n⟩
        · left; simp [cache_manager_sync, hc, hs, hsucc, hp]
        · right; exact ⟨c, r, es, n, rfl, rfl, hsucc, hp⟩

theorem parse_items_ids (lib : cjson_lib) (items : List cJSON)
    (hitems : ∀ it ∈ items, is_entity_object it) :
    (items.filterMap (fun it => parse_entity_from_json lib (some it))).map
        (fun e => e.entity_id) = items.map stored_id := by
  induction items with
  | nil => rfl
  | cons it rest ih =>
    obtain ⟨hobj, id, hid⟩ := hitems it (List.mem_cons_self _ _)
    obtain ⟨e, he, heid⟩ := parse_entity_from_json_id lib it id hobj hid
    have hrest := ih (fun x hx => hitems x (List.mem_cons_of_mem _ hx))
    simp only [List.filterMap_cons, he, List.map_cons, hrest, heid, stored_id, hid,
      Option.getD_some]

theorem database_get_entity_count_ok (db : Option database_t) :
    database_get_entity_count .ok db = (entity_rows db).length := by
  rcases db with _ | ⟨_ | s, path⟩ <;> rfl

theorem database_get_all_entities_ok (db : Option database_t) (h : entity_rows db ≠ []) :
    database_get_all_entities .ok .ok db 0 =
      (some ((sql_order_by_friendly_name (entity_rows db)).map entity_from_row),
        ((entity_rows db).length : Int)) := by
  rcases db with _ | ⟨_ | s, path⟩
  · exact absurd rfl h
  · exact absurd rfl h
  · have hlen : s.entities.length ≠ 0 := by
      simpa [List.length_eq_zero, entity_rows] using h
    have hfetch : fetch_rows (sql_order_by_friendly_name s.entities) s.entities.length =
        (sql_order_by_friendly_name s.entities).map entity_from_row := by
      unfold fetch_rows
      rw [List.take_of_length_le]
      exact le_of_eq (sql_order_by_friendly_name_perm _).length_eq
    simp only [database_get_all_entities, if_true, hlen, if_false, hfetch, entity_rows,
      List.length_map, (sql_order_by_friendly_name_perm _).length_eq]

theorem without_area_entity_from_row (r : ha_entity_t) :
    without_area (entity_from_row r) = entity_from_row (without_area r) := by
  simp [without_area, entity_from_row, strncpy]

theorem map_entity_from_row_of_wf (l : List ha_entity_t) (h : ∀ e ∈ l, ha_entity_wf e) :
    l.map entity_from_row = l := by
  conv_rhs => rw [← List.map_id l]
  exact List.map_congr_left (fun e he => entity_from_row_of_wf e (h e he))

/-! ## Theorems -/

set_option maxRecDepth 100000

/-- C1: a sync whose all-states fetch yields no response or a response with
`success = 0` returns -1, sets `online` to 0, keeps `last_sync`, and leaves the
database (entities, favorites, metadata) as it was, so that
`cache_manager_get_entities` answers as before. -/
theorem sync_fetch_failure_keeps_cache (lib : cjson_lib) (env : sync_env)
    (m : cache_manager_t) (c : ha_client_t) (hc : m.ha_client = some c)
    (hfail : env.get_states = none ∨ ∃ r, env.get_states = some r ∧ r.success = 0) :
    (cache_manager_sync lib env (some m)).2 = -1 ∧
    ∃ m', (cache_manager_sync lib env (some m)).1 = some m' ∧
      m'.online = 0 ∧ m'.last_sync = m.last_sync ∧ m'.db = m.db ∧
      m'.sync_interval = m.sync_interval ∧ m'.ha_client = m.ha_client ∧
      cache_manager_is_online (some m') = 0 ∧
      ∀ q1 q2 n, cache_manager_get_entities q1 q2 (some m') n =
        cache_manager_get_entities q1 q2 (some m) n := by
  rcases hfail with h | ⟨r, h, hr⟩
  · simp [cache_manager_sync, hc, h, cache_manager_is_online, cache_manager_get_entities]
  · simp [cache_manager_sync, hc, h, hr, cache_manager_is_online, cache_manager_get_entities]

/-- Witness of C1 on the sample manager with an unreachable hub. -/
theorem sync_fetch_failure_keeps_cache_witness :
    sample_manager.ha_client = some sample_client ∧
    (cache_manager_sync sample_null_lib sample_env_unreachable (some sample_manager)).2 = -1 :=
  ⟨rfl, (sync_fetch_failure_keeps_cache sample_null_lib sample_env_unreachable sample_manager
    sample_client rfl (Or.inl rfl)).1⟩

/-- C3: when the single-state fetch fails, `cache_manager_refresh_entity`
returns what `database_get_entity` returns for the id and leaves the manager
and its database as they were: with a working store, the record built from the
cached row when there is one, and NULL when there is none. -/
theorem refresh_entity_fetch_failure (lib : cjson_lib) (env : refresh_env)
    (m : cache_manager_t) (c : ha_client_t) (id : c_string) (hc : m.ha_client = some c)
    (hfail : env.get_state = none ∨ ∃ r, env.get_state = some r ∧ r.success = 0) :
    cache_manager_refresh_entity lib env (some m) (some id) =
      (some m, database_get_entity env.get_rc m.db (some id)) ∧
    (∀ row, (entity_rows m.db).find? (fun r => r.entity_id = id) = some row →
      env.get_rc = .ok →
      (cache_manager_refresh_entity lib env (some m) (some id)).2 =
        some (entity_from_row row)) ∧
    ((entity_rows m.db).find? (fun r => r.entity_id = id) = none →
      (cache_manager_refresh_entity lib env (some m) (some id)).2 = none) := by
  have key : cache_manager_refresh_entity lib env (some m) (some id) =
      (some m, database_get_entity env.get_rc m.db (some id)) := by
    rcases hfail with h | ⟨r, h, hr⟩
    · simp [cache_manager_refresh_entity, hc, h]
    · simp [cache_manager_refresh_entity, hc, h, hr]
  refine ⟨key, ?_, ?_⟩
  · intro row hrow hrc
    rw [key, hrc, database_get_entity_ok, hrow]
    rfl
  · intro hnone
    rw [key]
    cases hq : env.get_rc
    · rw [database_get_entity_ok, hnone]; rfl
    · rcases m.db with _ | ⟨_ | s, path⟩ <;> rfl
    · rcases m.db with _ | ⟨_ | s, path⟩ <;> rfl

/-- Witness of C3: the hub answers 500, the cached light comes back. -/
theorem refresh_entity_fetch_failure_witness :
    sample_manager.ha_client = some sample_client ∧
    (cache_manager_refresh_entity sample_null_lib
      ⟨some sample_failed_response, .ok, .ok⟩ (some sample_manager)
      (some "light.kitchen".toList)).2 = some light_kitchen ∧
    (cache_manager_refresh_entity sample_null_lib
      ⟨some sample_failed_response, .ok, .ok⟩ (some sample_manager)
      (some "light.attic".toList)).2 = none :=
  ⟨rfl,
    (refresh_entity_fetch_failure sample_null_lib ⟨some sample_failed_response, .ok, .ok⟩
      sample_manager sample_client "light.kitchen".toList rfl
      (Or.inr ⟨sample_failed_response, rfl, rfl⟩)).2.1 light_kitchen (by decide) rfl,
    (refresh_entity_fetch_failure sample_null_lib ⟨some sample_failed_response, .ok, .ok⟩
      sample_manager sample_client "light.attic".toList rfl
      (Or.inr ⟨sample_failed_response, rfl, rfl⟩)).2.2 (by decide)⟩

/-- C5: with a remote client `cache_manager_should_sync` returns 1 exactly when
the `time_t` difference `now - last_sync` is at least `sync_interval`, and 0
otherwise; that difference is the difference of the integers whenever it fits
`time_t`, so in particular for clock values `0 <= last_sync <= now`.  For an
interval of 300 it returns 0 at a difference of 299 and 1 at 300; without a
remote client it returns 0 whatever the clock, the last sync time and the
interval. -/
theorem should_sync_threshold :
    (∀ (m : cache_manager_t) (c : ha_client_t) (now : Int), m.ha_client = some c →
      LONG_MIN ≤ now - m.last_sync → now - m.last_sync ≤ LONG_MAX →
      (cache_manager_should_sync now (some m) = 1 ↔ now - m.last_sync ≥ m.sync_interval) ∧
      (cache_manager_should_sync now (some m) = 0 ↔ now - m.last_sync < m.sync_interval)) ∧
    (∀ (m : cache_manager_t) (c : ha_client_t) (now : Int), m.ha_client = some c →
      0 ≤ m.last_sync → m.last_sync ≤ now → now ≤ LONG_MAX →
      (cache_manager_should_sync now (some m) = 1 ↔ now - m.last_sync ≥ m.sync_interval) ∧
      (cache_manager_should_sync now (some m) = 0 ↔ now - m.last_sync < m.sync_interval)) ∧
    (∀ (m : cache_manager_t) (c : ha_client_t) (now : Int), m.ha_client = some c →
      m.sync_interval = 300 →
      (now - m.last_sync = 299 → cache_manager_should_sync now (some m) = 0) ∧
      (now - m.last_sync = 300 → cache_manager_should_sync now (some m) = 1)) ∧
    (∀ (m : cache_manager_t) (now : Int), m.ha_client = none →
      cache_manager_should_sync now (some m) = 0) ∧
    (∀ (m : cache_manager_t) (c : ha_client_t) (now : Int), m.ha_client = some c →
      (cache_manager_should_sync now (some m) = 1 ↔
        to_long (now - m.last_sync) ≥ m.sync_interval) ∧
      (cache_manager_should_sync now (some m) = 0 ↔
        to_long (now - m.last_sync) < m.sync_interval)) := by
  have hgen : ∀ (m : cache_manager_t) (c : ha_client_t) (now : Int), m.ha_client = some c →
      (cache_manager_should_sync now (some m) = 1 ↔
        to_long (now - m.last_sync) ≥ m.sync_interval) ∧
      (cache_manager_should_sync now (some m) = 0 ↔
        to_long (now - m.last_sync) < m.sync_interval) := by
    intro m c now hc
    simp only [cache_manager_should_sync, hc]
    constructor <;> split_ifs <;> constructor <;> intro h <;> omega
  have hfit : ∀ (m : cache_manager_t) (c : ha_client_t) (now : Int), m.ha_client = some c →
      LONG_MIN ≤ now - m.last_sync → now - m.last_sync ≤ LONG_MAX →
      (cache_manager_should_sync now (some m) = 1 ↔ now - m.last_sync ≥ m.sync_interval) ∧
      (cache_manager_should_sync now (some m) = 0 ↔ now - m.last_sync < m.sync_interval) := by
    intro m c now hc h1 h2
    have h := hgen m c now hc
    rw [to_long_of_long _ h1 h2] at h
    exact h
  refine ⟨hfit, ?_, ?_, ?_, hgen⟩
  · intro m c now hc h0 h1 h2
    refine hfit m c now hc ?_ ?_
    · unfold LONG_MIN; omega
    · omega
  · intro m c now hc hi
    constructor
    · intro h
      exact ((hfit m c now hc (by rw [h]; decide) (by rw [h]; decide)).2).mpr
        (by rw [h, hi]; decide)
    · intro h
      exact ((hfit m c now hc (by rw [h]; decide) (by rw [h]; decide)).1).mpr
        (by rw [h, hi])
  · intro m now hc
    simp [cache_manager_should_sync, hc]

/-- Witness of C5 on the sample managers (last sync at 1000, interval 300). -/
theorem should_sync_threshold_witness :
    LONG_MIN ≤ 1299 - sample_manager.last_sync ∧ 1299 - sample_manager.last_sync ≤ LONG_MAX ∧
    ¬ (1299 - sample_manager.last_sync ≥ sample_manager.sync_interval) ∧
    (cache_manager_should_sync 1299 (some sample_manager) = 1 ↔
      1299 - sample_manager.last_sync ≥ sample_manager.sync_interval) ∧
    cache_manager_should_sync 1299 (some sample_manager) = 0 ∧
    cache_manager_should_sync 1300 (some sample_manager) = 1 ∧
    cache_manager_should_sync 999999 (some sample_offline_manager) = 0 :=
  ⟨by decide, by decide, by decide,
    (should_sync_threshold.1 sample_manager sample_client 1299 rfl (by decide) (by decide)).1,
    (should_sync_threshold.2.2.1 sample_manager sample_client 1299 rfl rfl).1 (by decide),
    (should_sync_threshold.2.2.1 sample_manager sample_client 1300 rfl rfl).2 (by decide),
    should_sync_threshold.2.2.2.1 sample_offline_manager 999999 rfl⟩

/-- C7: over a working store, one `cache_manager_toggle_favorite` negates
`is_favorite` of the id and returns 1 when the id is now a favorite and 0 when
it is not; a second toggle restores the original `is_favorite`; the status of
every other id is unchanged by both calls. -/
theorem toggle_favorite_twice (m : cache_manager_t) (s : sqlite3) (path id t1 t2 : c_string)
    (hdb : m.db = some ⟨some s, path⟩) :
    cache_manager_is_favorite .ok
        (cache_manager_toggle_favorite .ok .ok t2
          (cache_manager_toggle_favorite .ok .ok t1 (some m) (some id)).1 (some id)).1
        (some id) =
      cache_manager_is_favorite .ok (some m) (some id) ∧
    cache_manager_is_favorite .ok
        (cache_manager_toggle_favorite .ok .ok t1 (some m) (some id)).1 (some id) =
      1 - cache_manager_is_favorite .ok (some m) (some id) ∧
    (cache_manager_toggle_favorite .ok .ok t1 (some m) (some id)).2 =
      cache_manager_is_favorite .ok
        (cache_manager_toggle_favorite .ok .ok t1 (some m) (some id)).1 (some id) ∧
    (cache_manager_toggle_favorite .ok .ok t2
        (cache_manager_toggle_favorite .ok .ok t1 (some m) (some id)).1 (some id)).2 =
      cache_manager_is_favorite .ok (some m) (some id) ∧
    ∀ other : c_string, other ≠ id →
      cache_manager_is_favorite .ok
          (cache_manager_toggle_favorite .ok .ok t1 (some m) (some id)).1 (some other) =
        cache_manager_is_favorite .ok (some m) (some other) ∧
      cache_manager_is_favorite .ok
          (cache_manager_toggle_favorite .ok .ok t2
            (cache_manager_toggle_favorite .ok .ok t1 (some m) (some id)).1 (some id)).1
          (some other) =
        cache_manager_is_favorite .ok (some m) (some other) := by
  have hfav01 : database_is_favorite .ok (some ⟨some s, path⟩) (some id) = 1 ∨
      database_is_favorite .ok (some ⟨some s, path⟩) (some id) = 0 := by
    rw [database_is_favorite_ok]; split_ifs <;> simp
  rcases hfav01 with hfav | hfav
  · have h1 : cache_manager_toggle_favorite .ok .ok t1 (some m) (some id) =
        (some { m with db :=
          (database_remove_favorite .ok (some ⟨some s, path⟩) (some id)).1 }, 0) := by
      simp [cache_manager_toggle_favorite, hdb, hfav]
    have hrm : (database_remove_favorite .ok (some ⟨some s, path⟩) (some id)).1 =
        some ⟨some { s with favorites := s.favorites.filter (fun f => f.entity_id ≠ id) },
          path⟩ := rfl
    have hnow : database_is_favorite .ok
        (database_remove_favorite .ok (some ⟨some s, path⟩) (some id)).1 (some id) = 0 := by
      rw [is_favorite_after_remove]; simp
    have h2 : cache_manager_toggle_favorite .ok .ok t2
        (some { m with db :=
          (database_remove_favorite .ok (some ⟨some s, path⟩) (some id)).1 }) (some id) =
        (some { m with db := (database_add_favorite .ok t2
          (database_remove_favorite .ok (some ⟨some s, path⟩) (some id)).1 (some id)).1 },
          1) := by
      simp [cache_manager_toggle_favorite, hnow]
    rw [h1, h2]
    simp only [cache_manager_is_favorite, hdb, hfav, hnow]
    rw [hrm]
    refine ⟨by rw [is_favorite_after_add]; simp, by simp, trivial, trivial, ?_⟩
    intro other hne
    rw [← hrm, is_favorite_after_remove, hrm, is_favorite_after_add, ← hrm,
      is_favorite_after_remove]
    simp [hne]
  · have h1 : cache_manager_toggle_favorite .ok .ok t1 (some m) (some id) =
        (some { m with db :=
          (database_add_favorite .ok t1 (some ⟨some s, path⟩) (some id)).1 }, 1) := by
      simp [cache_manager_toggle_favorite, hdb, hfav]
    obtain ⟨s', hadd⟩ := add_favorite_db s path t1 id
    have hnow : database_is_favorite .ok
        (database_add_favorite .ok t1 (some ⟨some s, path⟩) (some id)).1 (some id) = 1 := by
      rw [is_favorite_after_add]; simp
    have h2 : cache_manager_toggle_favorite .ok .ok t2
        (some { m with db :=
          (database_add_favorite .ok t1 (some ⟨some s, path⟩) (some id)).1 }) (some id) =
        (some { m with db := (database_remove_favorite .ok
          (database_add_favorite .ok t1 (some ⟨some s, path⟩) (some id)).1 (some id)).1 },
          0) := by
      simp [cache_manager_toggle_favorite, hnow]
    rw [h1, h2]
    simp only [cache_manager_is_favorite, hdb, hfav, hnow]
    refine ⟨by rw [hadd, is_favorite_after_remove]; simp, by simp, trivial, trivial, ?_⟩
    intro other hne
    constructor
    · rw [is_favorite_after_add]; simp [hne]
    · rw [hadd, is_favorite_after_remove, ← hadd, is_favorite_after_add]; simp [hne]

/-- Witness of C7: the favorite light is toggled off and on again. -/
theorem toggle_favorite_twice_witness :
    sample_manager.db = some ⟨some sample_store, "/tmp/ha.db".toList⟩ ∧
    cache_manager_is_favorite .ok (some sample_manager) (some "light.kitchen".toList) = 1 ∧
    cache_manager_is_favorite .ok
        (cache_manager_toggle_favorite .ok .ok "2024-02-02 10:00:00".toList
          (some sample_manager) (some "light.kitchen".toList)).1
        (some "light.kitchen".toList) =
      1 - cache_manager_is_favorite .ok (some sample_manager) (some "light.kitchen".toList) :=
  ⟨rfl, by decide,
    (toggle_favorite_twice sample_manager sample_store "/tmp/ha.db".toList
      "light.kitchen".toList "2024-02-02 10:00:00".toList "2024-02-02 10:00:05".toList rfl).2.1⟩

/-- C8: `database_save_entity` is idempotent.  After a save of `e` that
succeeded, a second save of `e`, whether it succeeds or not, leaves the
database as the first left it: exactly one row carries `e.entity_id`, the
entity count does not change, and `database_get_all_entities` answers the
same. -/
theorem save_entity_idempotent (rc rc2 : stmt_outcome) (db : Option database_t)
    (e : ha_entity_t) (h : (database_save_entity rc db (some e)).2 = 1) :
    (database_save_entity rc2 (database_save_entity rc db (some e)).1 (some e)).1 =
      (database_save_entity rc db (some e)).1 ∧
    (database_save_entity .ok (database_save_entity rc db (some e)).1 (some e)).2 = 1 ∧
    (entity_rows (database_save_entity rc db (some e)).1).filter
      (fun r => r.entity_id = e.entity_id) = [e] ∧
    database_get_entity_count .ok
        (database_save_entity rc2 (database_save_entity rc db (some e)).1 (some e)).1 =
      database_get_entity_count .ok (database_save_entity rc db (some e)).1 ∧
    ∀ q1 q2 n, database_get_all_entities q1 q2
        (database_save_entity rc2 (database_save_entity rc db (some e)).1 (some e)).1 n =
      database_get_all_entities q1 q2 (database_save_entity rc db (some e)).1 n := by
  obtain ⟨_, s, path, _, hsaved⟩ := database_save_entity_succeeds rc db e h
  have hsame : (database_save_entity rc2 (database_save_entity rc db (some e)).1 (some e)).1 =
      (database_save_entity rc db (some e)).1 := by
    rw [hsaved]
    cases rc2 <;> simp [database_save_entity, sql_replace_entity, filter_replace_entity]
  refine ⟨hsame, ?_, ?_, by rw [hsame], fun q1 q2 n => by rw [hsame]⟩
  · rw [hsaved]; rfl
  · rw [hsaved]
    exact filter_replace_entity_same s.entities e

/-- Witness of C8: the kitchen light saved into the sample database. -/
theorem save_entity_idempotent_witness :
    (database_save_entity .ok (some sample_db) (some light_kitchen)).2 = 1 ∧
    (database_save_entity .ok
        (database_save_entity .ok (some sample_db) (some light_kitchen)).1
        (some light_kitchen)).1 =
      (database_save_entity .ok (some sample_db) (some light_kitchen)).1 :=
  ⟨rfl, (save_entity_idempotent .ok .ok (some sample_db) light_kitchen rfl).1⟩

/-- C9: after a `database_save_entity` of a record `e` that succeeded,
`database_get_entity` for `e.entity_id` returns `e` itself, all ten fields, with
nothing of the row stored under that id before; `database_get_entity` for any
other id answers as before the save. -/
theorem save_entity_then_get (rc : stmt_outcome) (db : Option database_t) (e : ha_entity_t)
    (hwf : ha_entity_wf e) (h : (database_save_entity rc db (some e)).2 = 1) :
    database_get_entity .ok (database_save_entity rc db (some e)).1 (some e.entity_id) =
      some e ∧
    ∀ id : c_string, id ≠ e.entity_id → ∀ q,
      database_get_entity q (database_save_entity rc db (some e)).1 (some id) =
        database_get_entity q db (some id) := by
  obtain ⟨_, s, path, hdb, hsaved⟩ := database_save_entity_succeeds rc db e h
  rw [hsaved, hdb]
  constructor
  · rw [database_get_entity_ok]
    simp only [entity_rows, sql_replace_entity, find_replace_entity, if_true, Option.map_some']
    rw [entity_from_row_of_wf e hwf]
  · intro id hne q
    cases q
    · rw [database_get_entity_ok, database_get_entity_ok]
      simp only [entity_rows, sql_replace_entity, find_replace_entity]
      rw [if_neg (fun h => hne h.symm)]
    · rfl
    · rfl

/-- Witness of C9: the sensor is saved over the sample database and read back. -/
theorem save_entity_then_get_witness :
    ha_entity_wf { sensor_temp with state := "21.0".toList } ∧
    database_get_entity .ok
        (database_save_entity .ok (some sample_db)
          (some { sensor_temp with state := "21.0".toList })).1
        (some "sensor.temp".toList) =
      some { sensor_temp with state := "21.0".toList } :=
  ⟨by decide,
    (save_entity_then_get .ok (some sample_db) { sensor_temp with state := "21.0".toList }
      (by decide) rfl).1⟩

/-- C10: over a working store `database_get_entities_by_domain` returns the
records of exactly the rows whose domain equals `d`, each once, in ascending
byte order of `friendly_name`, with their number as count; when no row has
domain `d` the result is empty (NULL) with count 0. -/
theorem get_entities_by_domain_spec (s : sqlite3) (path d : c_string) (n : Int) :
    (s.entities.filter (fun r => r.domain = d) = [] →
      database_get_entities_by_domain .ok .ok (some ⟨some s, path⟩) (some d) n = (none, 0)) ∧
    (s.entities.filter (fun r => r.domain = d) ≠ [] →
      ∃ l, database_get_entities_by_domain .ok .ok (some ⟨some s, path⟩) (some d) n =
          (some l, ((s.entities.filter (fun r => r.domain = d)).length : Int)) ∧
        l.Perm ((s.entities.filter (fun r => r.domain = d)).map entity_from_row) ∧
        l.Sorted by_friendly_name ∧
        ((∀ r ∈ s.entities, ha_entity_wf r) →
          l.Perm (s.entities.filter (fun r => r.domain = d)) ∧ ∀ r ∈ l, r.domain = d)) := by
  constructor
  · intro hnone
    simp [database_get_entities_by_domain, hnone]
  · intro hsome
    have hlen : (s.entities.filter (fun r => r.domain = d)).length ≠ 0 := by
      simpa [List.length_eq_zero] using hsome
    have hfetch : fetch_rows
        (sql_order_by_friendly_name (s.entities.filter (fun r => r.domain = d)))
        (s.entities.filter (fun r => r.domain = d)).length =
        (sql_order_by_friendly_name (s.entities.filter (fun r => r.domain = d))).map
          entity_from_row := by
      unfold fetch_rows
      rw [List.take_of_length_le]
      exact le_of_eq (sql_order_by_friendly_name_perm _).length_eq
    refine ⟨(sql_order_by_friendly_name (s.entities.filter (fun r => r.domain = d))).map
      entity_from_row, ?_, ?_, ?_, ?_⟩
    · simp only [database_get_entities_by_domain, if_true, hlen, if_false, hfetch,
        List.length_map, (sql_order_by_friendly_name_perm _).length_eq]
    · exact (sql_order_by_friendly_name_perm _).map _
    · exact entity_from_row_sorted _ (sql_order_by_friendly_name_sorted _)
    · intro hwf
      have hid : (sql_order_by_friendly_name (s.entities.filter (fun r => r.domain = d))).map
          entity_from_row =
          sql_order_by_friendly_name (s.entities.filter (fun r => r.domain = d)) := by
        conv_rhs => rw [← List.map_id (sql_order_by_friendly_name _)]
        apply List.map_congr_left
        intro r hr
        have hr' := (sql_order_by_friendly_name_perm _).mem_iff.mp hr
        exact entity_from_row_of_wf r (hwf r (List.mem_filter.mp hr').1)
      rw [hid]
      refine ⟨sql_order_by_friendly_name_perm _, ?_⟩
      intro r hr
      have hr' := (sql_order_by_friendly_name_perm _).mem_iff.mp hr
      simpa using (List.mem_filter.mp hr').2

/-- Witness of C10: ids light.a, light.b and sensor.c; domain fan gives the
empty result, domain light gives light.b (Attic) before light.a (Bedside). -/
theorem get_entities_by_domain_spec_witness :
    database_get_entities_by_domain .ok .ok (some ⟨some sample_store_abc, []⟩)
      (some "fan".toList) 0 = (none, 0) ∧
    database_get_entities_by_domain .ok .ok (some ⟨some sample_store_abc, []⟩)
      (some "light".toList) 0 =
      (some [sample_entity "light.b" "Attic", sample_entity "light.a" "Bedside"], 2) :=
  ⟨(get_entities_by_domain_spec sample_store_abc [] "fan".toList 0).1 (by decide), by decide⟩


/-- C2 as stated fails: the sample manager caches light.kitchen with area
"kitchen"; the states fetch succeeds with two parseable entities, the area
fetch gets no response; the sync returns 2 and light.kitchen is left with an
empty `area_id`. -/
theorem sync_area_downgrade_counterexample :
    sample_manager.ha_client = some sample_client ∧
    sample_env_no_areas.get_states = some sample_states_response ∧
    sample_states_response.success = 1 ∧
    (parse_entities_array sample_lib sample_states_response.data 0).2 = 2 ∧
    sample_env_no_areas.get_entity_registry = none ∧
    (cache_manager_sync sample_lib sample_env_no_areas (some sample_manager)).2 = 2 ∧
    (database_get_entity .ok sample_manager.db (some "light.kitchen".toList)).map
      (fun e => e.area_id) = some "kitchen".toList ∧
    (database_get_entity .ok
      ((cache_manager_sync sample_lib sample_env_no_areas (some sample_manager)).1.bind
        (fun m => m.db))
      (some "light.kitchen".toList)).map (fun e => e.area_id) = some [] := by
  decide

/-- C2, amended: when the states fetch succeeds with at least one parseable
entity and the area fetch fails, the sync returns the number of entities saved
(between 0 and the number parsed, never -1); every id that is not in the
payload reads back as before, its `area_id` included; over a working store the
sync returns the number parsed and every id of the payload reads back as a
record parsed from the payload, so with the payload's `area_id`. -/
theorem sync_area_fetch_failure (lib : cjson_lib) (env : sync_env) (m : cache_manager_t)
    (c : ha_client_t) (r : ha_response_t) (es : List ha_entity_t) (n : Int)
    (hc : m.ha_client = some c) (hstates : env.get_states = some r) (hsucc : r.success ≠ 0)
    (hparse : parse_entities_array lib r.data 0 = (some es, n))
    (harea : area_fetch_failed env) :
    (cache_manager_sync lib env (some m)).2 =
      (database_save_entities env.save_rc m.db (some es) n).2 ∧
    0 ≤ (cache_manager_sync lib env (some m)).2 ∧
    (cache_manager_sync lib env (some m)).2 ≤ es.length ∧
    ∃ m', (cache_manager_sync lib env (some m)).1 = some m' ∧
      (∀ id : c_string, id ∉ es.map (fun e => e.entity_id) → ∀ q,
        database_get_entity q m'.db (some id) = database_get_entity q m.db (some id)) ∧
      (∀ s path, m.db = some ⟨some s, path⟩ → (∀ i, env.save_rc i = .ok) →
        (cache_manager_sync lib env (some m)).2 = es.length ∧
        ∀ id ∈ es.map (fun e => e.entity_id), ∃ e ∈ es, e.entity_id = id ∧
          database_get_entity .ok m'.db (some id) = some e) := by
  obtain ⟨merged, hsync, _, hmerged⟩ :=
    cache_manager_sync_success lib env m c r es n hc hstates hsucc hparse
  obtain ⟨hn, hne, hwf⟩ := parse_entities_array_some lib r.data es n hparse
  have hm := hmerged harea
  subst hm
  rw [hsync]
  refine ⟨rfl, (save_entities_tally _ _ _ _).1, (save_entities_tally _ _ _ _).2, _, rfl, ?_, ?_⟩
  · intro id hid q
    apply database_get_entity_congr
    dsimp only
    rw [entity_rows_set_metadata, save_entities_other _ _ _ _ _ hid]
  · intro s path hdb hrc
    have hsaved := save_entities_ok env.save_rc hrc s path es hne
    rw [hdb, hn, hsaved]
    refine ⟨rfl, ?_⟩
    intro id hid
    obtain ⟨e, he, heid, hfind⟩ := rows_after_saves_member s.entities es id hid
    refine ⟨e, he, heid, ?_⟩
    rw [database_get_entity_ok]
    dsimp only
    rw [entity_rows_set_metadata]
    simp only [entity_rows, hfind, Option.map_some']
    rw [entity_from_row_of_wf e (hwf e he)]

/-- Witness of amended C2 on the sample manager: the sensor is in the payload
and reads back as parsed. -/
theorem sync_area_fetch_failure_witness :
    parse_entities_array sample_lib sample_states_response.data 0 =
      (some [parsed_light_kitchen, parsed_sensor_temp], 2) ∧
    area_fetch_failed sample_env_no_areas ∧
    0 ≤ (cache_manager_sync sample_lib sample_env_no_areas (some sample_manager)).2 :=
  ⟨by decide, Or.inl rfl,
    (sync_area_fetch_failure sample_lib sample_env_no_areas sample_manager sample_client
      sample_states_response [parsed_light_kitchen, parsed_sensor_temp] 2 rfl rfl (by decide)
      (by decide) (Or.inl rfl)).2.1⟩

/-- C4 as stated fails: on the sample manager a skipped call (clock 1100) returns
0, and a call that ran the sync (clock 2000) over a store that rejects every
write, so that zero of the two parsed entities were saved, returns 0 too. -/
theorem sync_if_needed_zero_counterexample :
    cache_manager_should_sync 1100 (some sample_manager) = 0 ∧
    (cache_manager_sync_if_needed sample_lib 1100 sample_env_store_rejects
      (some sample_manager)).2 = 0 ∧
    cache_manager_should_sync 2000 (some sample_manager) = 1 ∧
    (parse_entities_array sample_lib sample_states_response.data 0).2 = 2 ∧
    (cache_manager_sync_if_needed sample_lib 2000 sample_env_store_rejects
      (some sample_manager)).2 = 0 ∧
    (cache_manager_sync_if_needed sample_lib 2000 sample_env_store_rejects
      (some sample_manager)).1.map (fun m => m.last_sync) = some 2000 := by
  decide

/-- C4, amended: `cache_manager_sync_if_needed` returns 0 and changes nothing
when it skips; when the sync ran it returns what `cache_manager_sync` returns,
-1 or the number of entities saved, and over a working store that number is
at least 1, so different from the value of a skip. -/
theorem sync_if_needed_result (lib : cjson_lib) (now : Int) (env : sync_env)
    (m : cache_manager_t) :
    (cache_manager_should_sync now (some m) = 0 →
      cache_manager_sync_if_needed lib now env (some m) = (some m, 0)) ∧
    (cache_manager_should_sync now (some m) ≠ 0 →
      cache_manager_sync_if_needed lib now env (some m) =
        cache_manager_sync lib env (some m) ∧
      ((cache_manager_sync lib env (some m)).2 = -1 ∨
        0 ≤ (cache_manager_sync lib env (some m)).2) ∧
      (∀ s path, m.db = some ⟨some s, path⟩ → (∀ i, env.save_rc i = .ok) →
        (cache_manager_sync lib env (some m)).2 = -1 ∨
          1 ≤ (cache_manager_sync lib env (some m)).2)) := by
  constructor
  · intro h
    simp [cache_manager_sync_if_needed, h]
  · intro h
    refine ⟨by simp [cache_manager_sync_if_needed, h], ?_, ?_⟩
    · rcases cache_manager_sync_cases lib env m with h1 | ⟨c, r, es, n, hc, hs, hsucc, hp⟩
      · exact Or.inl h1
      · obtain ⟨merged, hsync, _, _⟩ :=
          cache_manager_sync_success lib env m c r es n hc hs hsucc hp
        rw [hsync]
        exact Or.inr (save_entities_tally _ _ _ _).1
    · intro s path hdb hrc
      rcases cache_manager_sync_cases lib env m with h1 | ⟨c, r, es, n, hc, hs, hsucc, hp⟩
      · exact Or.inl h1
      · obtain ⟨merged, hsync, _, _⟩ :=
          cache_manager_sync_success lib env m c r es n hc hs hsucc hp
        obtain ⟨hn, hne, _⟩ := parse_entities_array_some lib r.data es n hp
        rw [hsync, hdb, hn, save_entities_ok env.save_rc hrc s path es hne]
        right
        have : es.length ≠ 0 := by simpa [List.length_eq_zero] using hne
        dsimp only
        omega

/-- Witness of amended C4: on the sample manager a skip at clock 1100 returns 0,
the sync that runs at clock 2000 over the working store returns 2. -/
theorem sync_if_needed_result_witness :
    cache_manager_should_sync 1100 (some sample_manager) = 0 ∧
    cache_manager_sync_if_needed sample_lib 1100 sample_env_no_areas (some sample_manager) =
      (some sample_manager, 0) ∧
    cache_manager_should_sync 2000 (some sample_manager) ≠ 0 ∧
    (cache_manager_sync sample_lib sample_env_no_areas (some sample_manager)).2 = 2 ∧
    ((cache_manager_sync sample_lib sample_env_no_areas (some sample_manager)).2 = -1 ∨
      1 ≤ (cache_manager_sync sample_lib sample_env_no_areas (some sample_manager)).2) :=
  ⟨by decide,
    (sync_if_needed_result sample_lib 1100 sample_env_no_areas sample_manager).1 (by decide),
    by decide, by decide,
    ((sync_if_needed_result sample_lib 2000 sample_env_no_areas sample_manager).2
      (by decide)).2.2 sample_store "/tmp/ha.db".toList rfl (fun _ => rfl)⟩

/-! ### The parser -/

theorem json_get_string_default (o : cJSON) (name : c_string) (d : Option c_string)
    (h : no_string_member o name) : json_get_string (some o) name d = d := by
  unfold json_get_string
  dsimp only
  split
  · rename_i v hv
    exact absurd hv (h v)
  · rfl

theorem json_get_int_default (o : cJSON) (name : c_string) (d : Int)
    (h : no_number_member o name) : json_get_int (some o) name d = d := by
  unfold json_get_int
  dsimp only
  split
  · rename_i v hv
    exact absurd hv (h v)
  · rfl

theorem is_entity_object_iff (item : cJSON) :
    is_entity_object item ↔ entity_object_b item = true := by
  unfold is_entity_object entity_object_b
  rw [Bool.and_eq_true, Option.isSome_iff_exists]

instance (item : cJSON) : Decidable (is_entity_object item) :=
  decidable_of_iff _ (is_entity_object_iff item).symm

theorem parse_entity_from_json_none (lib : cjson_lib) (j : cJSON) (h : ¬ is_entity_object j) :
    parse_entity_from_json lib (some j) = none := by
  unfold parse_entity_from_json
  dsimp only
  by_cases hobj : cJSON_IsObject j = true
  · have hid : json_get_string (some j) "entity_id".toList none = none := by
      rcases hq : json_get_string (some j) "entity_id".toList none with _ | id
      · rfl
      · exact absurd ⟨hobj, id, hq⟩ h
    simp only [hobj, not_true_eq_false, if_false, hid]
  · have hobj' : cJSON_IsObject j = false := by simpa using hobj
    simp [hobj']

theorem parse_entity_from_json_some (lib : cjson_lib) (j : cJSON) (h : is_entity_object j) :
    ∃ e, parse_entity_from_json lib (some j) = some e := by
  obtain ⟨hobj, id, hid⟩ := h
  obtain ⟨e, he, _⟩ := parse_entity_from_json_id lib j id hobj hid
  exact ⟨e, he⟩

theorem filterMap_parse_eq (lib : cjson_lib) (items : List cJSON) :
    (items.filterMap (fun it => parse_entity_from_json lib (some it))).map some =
      (items.filter (fun it => is_entity_object it)).map
        (fun it => parse_entity_from_json lib (some it)) := by
  induction items with
  | nil => rfl
  | cons it rest ih =>
    by_cases h : is_entity_object it
    · obtain ⟨e, he⟩ := parse_entity_from_json_some lib it h
      simp only [List.filterMap_cons, he, List.map_cons, ih, List.filter_cons, h, decide_True,
        if_true]
    · have he := parse_entity_from_json_none lib it h
      simp only [List.filterMap_cons, he, ih, List.filter_cons, h, decide_False]
      rfl

theorem strchr_takeWhile (id : c_string) (c : Char) :
    match strchr id c with
    | some n => id.take n = id.takeWhile (fun x => x ≠ c)
    | none => id = id.takeWhile (fun x => x ≠ c) := by
  induction id with
  | nil => simp [strchr]
  | cons x xs ih =>
    by_cases hx : x = c
    · simp [strchr, hx]
    · simp only [strchr, hx, if_false]
      rcases h : strchr xs c with _ | n
      · rw [h] at ih
        simp only [Option.map_none']
        rw [List.takeWhile_cons]
        simp only [ne_eq, hx, not_false_eq_true, decide_True, if_true]
        exact congrArg _ ih
      · rw [h] at ih
        simp only [Option.map_some', List.take_succ_cons]
        rw [List.takeWhile_cons]
        simp only [ne_eq, hx, not_false_eq_true, decide_True, if_true]
        exact congrArg _ ih

theorem extract_domain_eq (id : c_string) :
    extract_domain id = (before_first_dot id).take 31 := by
  have h := strchr_takeWhile id '.'
  unfold extract_domain strncpy before_first_dot
  rcases hs : strchr id '.' with _ | n
  · rw [hs] at h
    dsimp only at h ⊢
    rw [← h]
  · rw [hs] at h
    dsimp only at h ⊢
    rw [← h, List.take_take]
    congr 1
    split_ifs <;> omega

/-- C11: for a JSON object with a string `entity_id`, `parse_entity_from_json`
yields a record whose `friendly_name` is the parsed `entity_id` when
`attributes` is absent, is not an object, or holds no string `friendly_name`;
whose `state` is "unknown" when `state` is absent or not a string; whose
`icon`, `area_id`, `last_changed` and `last_updated` are empty when absent; and
whose `supported_features` is 0 when absent. -/
theorem parse_entity_defaults (lib : cjson_lib) (j : cJSON) (id : c_string)
    (hobj : cJSON_IsObject j = true)
    (hid : json_get_string (some j) "entity_id".toList none = some id) :
    ∃ e, parse_entity_from_json lib (some j) = some e ∧ e.entity_id = strncpy id 127 ∧
      ((∀ a, attributes_of j = some a → no_string_member a "friendly_name".toList) →
        e.friendly_name = e.entity_id) ∧
      (no_string_member j "state".toList → e.state = "unknown".toList) ∧
      ((∀ a, attributes_of j = some a → no_string_member a "icon".toList) → e.icon = []) ∧
      ((∀ a, attributes_of j = some a → no_string_member a "area_id".toList) →
        e.area_id = []) ∧
      (no_string_member j "last_changed".toList → e.last_changed = []) ∧
      (no_string_member j "last_updated".toList → e.last_updated = []) ∧
      ((∀ a, attributes_of j = some a → no_number_member a "supported_features".toList) →
        e.supported_features = 0) := by
  unfold parse_entity_from_json
  simp only [hobj, not_true_eq_false, if_false, hid]
  split
  · rename_i members hattr
    have ha : attributes_of j = some (.Object members) := by
      unfold attributes_of; rw [hattr]
    refine ⟨_, rfl, rfl, ?_, ?_, ?_, ?_, ?_, ?_, ?_⟩
    · intro h
      dsimp only
      rw [json_get_string_default _ _ _ (h _ ha)]
      rfl
    · intro h
      dsimp only
      rw [json_get_string_default _ _ _ h]
      rfl
    · intro h
      dsimp only
      rw [json_get_string_default _ _ _ (h _ ha)]
      rfl
    · intro h
      dsimp only
      rw [json_get_string_default _ _ _ (h _ ha)]
      rfl
    · intro h
      dsimp only
      rw [json_get_string_default _ _ _ h]
      rfl
    · intro h
      dsimp only
      rw [json_get_string_default _ _ _ h]
      rfl
    · intro h
      dsimp only
      rw [json_get_int_default _ _ _ (h _ ha)]
  · refine ⟨_, rfl, rfl, fun _ => rfl, ?_, fun _ => rfl, fun _ => rfl, ?_, ?_, fun _ => rfl⟩
    · intro h
      dsimp only
      rw [json_get_string_default _ _ _ h]
      rfl
    · intro h
      dsimp only
      rw [json_get_string_default _ _ _ h]
      rfl
    · intro h
      dsimp only
      rw [json_get_string_default _ _ _ h]
      rfl

/-- Witness of C11: an object with nothing but the id sensor.temp. -/
theorem parse_entity_defaults_witness :
    cJSON_IsObject sample_bare_object = true ∧
    json_get_string (some sample_bare_object) "entity_id".toList none =
      some "sensor.temp".toList ∧
    parse_entity_from_json sample_lib (some sample_bare_object) =
      some { sensor_temp with state := "unknown".toList } ∧
    ∃ e, parse_entity_from_json sample_lib (some sample_bare_object) = some e ∧
      e.entity_id = strncpy "sensor.temp".toList 127 :=
  ⟨rfl, rfl, by decide,
    (parse_entity_defaults sample_lib sample_bare_object "sensor.temp".toList rfl rfl).imp
      (fun _ h => ⟨h.1, h.2.1⟩)⟩

/-- C12 as stated fails: the id has 32 chars before its first dot, and the
parsed domain is their first 31 (the member named domain of the payload is not
read). -/
theorem parse_domain_cut_counterexample :
    cJSON_IsObject sample_wide_domain_object = true ∧
    json_get_string (some sample_wide_domain_object) "entity_id".toList none =
      some sample_wide_domain_id ∧
    before_first_dot sample_wide_domain_id = List.replicate 32 'a' ∧
    (parse_entity_from_json sample_lib (some sample_wide_domain_object)).map
      (fun e => e.domain) = some (List.replicate 31 'a') ∧
    List.replicate 31 'a' ≠ before_first_dot sample_wide_domain_id := by
  decide

/-- C12, amended: for every entity payload with a string `entity_id`, whatever
other members it carries, the domain of the parsed entity is the part of
`entity_id` before its first dot (the whole id when it has no dot) cut to 31
chars; it is that part itself when the part has at most 31 chars. -/
theorem parse_domain_from_id (lib : cjson_lib) (j : cJSON) (id : c_string)
    (hobj : cJSON_IsObject j = true)
    (hid : json_get_string (some j) "entity_id".toList none = some id) :
    ∃ e, parse_entity_from_json lib (some j) = some e ∧
      e.domain = (before_first_dot id).take 31 ∧
      ((before_first_dot id).length ≤ 31 → e.domain = before_first_dot id) := by
  have hdom : ∃ e, parse_entity_from_json lib (some j) = some e ∧
      e.domain = extract_domain id := by
    unfold parse_entity_from_json
    simp only [hobj, not_true_eq_false, if_false, hid]
    split
    · exact ⟨_, rfl, rfl⟩
    · exact ⟨_, rfl, rfl⟩
  obtain ⟨e, he, hd⟩ := hdom
  refine ⟨e, he, by rw [hd, extract_domain_eq], ?_⟩
  intro hlen
  rw [hd, extract_domain_eq, List.take_of_length_le hlen]

/-- Witness of amended C12: the payload of light.kitchen carries a member named
domain that says sensor; the parsed domain is light. -/
theorem parse_domain_from_id_witness :
    (parse_entity_from_json sample_lib
      (some (cJSON.Object [("entity_id".toList, .String "light.kitchen".toList),
        ("domain".toList, .String "sensor".toList)]))).map (fun e => e.domain) =
      some "light".toList ∧
    ∃ e, parse_entity_from_json sample_lib
        (some (cJSON.Object [("entity_id".toList, .String "light.kitchen".toList),
          ("domain".toList, .String "sensor".toList)])) = some e ∧
      e.domain = (before_first_dot "light.kitchen".toList).take 31 :=
  ⟨by decide,
    (parse_domain_from_id sample_lib
      (cJSON.Object [("entity_id".toList, .String "light.kitchen".toList),
        ("domain".toList, .String "sensor".toList)]) "light.kitchen".toList rfl rfl).imp
      (fun _ h => ⟨h.1, h.2.1⟩)⟩

/-- C13: for a payload that parses as a JSON array, `parse_entities_array`
returns, in the order of the array, the parse of exactly those elements that
are objects with a string `entity_id`, with their number as count (NULL with
count 0 when there is none); the other elements are dropped.
`parse_single_entity` returns NULL on every payload that parses to something
other than an object with a string `entity_id`, an object without the id
included, and on a payload that does not parse; on a payload that parses to
such an object it returns the record of the object. -/
theorem parse_entities_array_spec (lib : cjson_lib) :
    (∀ (body : c_string) (items : List cJSON) (count : Int),
      lib.cJSON_Parse body = some (cJSON.Array items) →
      (items.filterMap (fun it => parse_entity_from_json lib (some it))).map some =
        (items.filter (fun it => is_entity_object it)).map
          (fun it => parse_entity_from_json lib (some it)) ∧
      (items.filterMap (fun it => parse_entity_from_json lib (some it))).length =
        (items.filter (fun it => is_entity_object it)).length ∧
      (items.filter (fun it => is_entity_object it) = [] →
        parse_entities_array lib (some body) count = (none, 0)) ∧
      (items.filter (fun it => is_entity_object it) ≠ [] →
        parse_entities_array lib (some body) count =
          (some (items.filterMap (fun it => parse_entity_from_json lib (some it))),
            ((items.filter (fun it => is_entity_object it)).length : Int)))) ∧
    (∀ (body : c_string) (j : cJSON), lib.cJSON_Parse body = some j → ¬ is_entity_object j →
      parse_single_entity lib (some body) = none) ∧
    (∀ (body : c_string) (members : List (c_string × cJSON)),
      lib.cJSON_Parse body = some (cJSON.Object members) →
      json_get_string (some (cJSON.Object members)) "entity_id".toList none = none →
      parse_single_entity lib (some body) = none) ∧
    (∀ body : c_string, lib.cJSON_Parse body = none →
      parse_single_entity lib (some body) = none) ∧
    parse_single_entity lib none = none ∧
    (∀ (body : c_string) (j : cJSON), lib.cJSON_Parse body = some j → is_entity_object j →
      parse_single_entity lib (some body) = parse_entity_from_json lib (some j) ∧
      ∃ e, parse_single_entity lib (some body) = some e ∧ e.entity_id = stored_id j) := by
  have hsingle : ∀ (body : c_string) (j : cJSON), lib.cJSON_Parse body = some j →
      ¬ is_entity_object j → parse_single_entity lib (some body) = none := by
    intro body j hj hnot
    simp only [parse_single_entity, parse_json_response, hj]
    exact parse_entity_from_json_none lib j hnot
  refine ⟨?_, hsingle, ?_, ?_, rfl, ?_⟩
  · intro body items count hparse
    have hmap := filterMap_parse_eq lib items
    have hlen : (items.filterMap (fun it => parse_entity_from_json lib (some it))).length =
        (items.filter (fun it => is_entity_object it)).length := by
      have := congrArg List.length hmap
      simpa using this
    refine ⟨hmap, hlen, ?_, ?_⟩
    · intro hnone
      have h0 : (items.filterMap (fun it => parse_entity_from_json lib (some it))).length
          = 0 := by
        rw [hlen, hnone]; rfl
      simp only [parse_entities_array, parse_json_response, hparse, cJSON_IsArray,
        cJSON_children, not_true_eq_false, if_false, h0, if_true]
      split_ifs <;> rfl
    · intro hsome
      have h1 : (items.filter (fun it => is_entity_object it)).length ≠ 0 := by
        simpa [List.length_eq_zero] using hsome
      have h0 : (items.filterMap (fun it => parse_entity_from_json lib (some it))).length
          ≠ 0 := by
        rw [hlen]; exact h1
      have hitems : items.length ≠ 0 := by
        intro h
        rw [List.length_eq_zero] at h
        rw [h] at h1
        exact h1 rfl
      simp only [parse_entities_array, parse_json_response, hparse, cJSON_IsArray,
        cJSON_children, not_true_eq_false, if_false, h0, hitems, hlen]
      rw [if_neg h1]
  · intro body members hj hid
    refine hsingle body _ hj ?_
    rintro ⟨_, id, hsome⟩
    rw [hid] at hsome
    cases hsome
  · intro body hj
    simp only [parse_single_entity, parse_json_response, hj]
  · intro body j hj hobj
    have heq : parse_single_entity lib (some body) = parse_entity_from_json lib (some j) := by
      simp only [parse_single_entity, parse_json_response, hj]
    obtain ⟨hisobj, id, hid⟩ := hobj
    obtain ⟨e, he, heid⟩ := parse_entity_from_json_id lib j id hisobj hid
    refine ⟨heq, e, heq.trans he, ?_⟩
    rw [heid, stored_id, hid]
    rfl

/-- Witness of C13: an array of the kitchen light, a number and the sensor; the
number is dropped.  A single payload that is an object with a state and no
entity id is no entity, nor is one that is an array; the bare sensor object
is. -/
theorem parse_entities_array_spec_witness :
    sample_mixed_lib.cJSON_Parse sample_mixed_body =
      some (cJSON.Array
        [cJSON.Object [("entity_id".toList, .String "light.kitchen".toList)],
          cJSON.Number 7,
          cJSON.Object [("entity_id".toList, .String "sensor.temp".toList)]]) ∧
    parse_entities_array sample_mixed_lib (some sample_mixed_body) 0 =
      (some [{ parsed_light_kitchen with
          state := "unknown".toList
          friendly_name := "light.kitchen".toList
          attributes_json := none },
        { sensor_temp with state := "unknown".toList }], 2) ∧
    sample_object_lib.cJSON_Parse sample_stateless_body =
      some (cJSON.Object [("state".toList, .String "on".toList)]) ∧
    parse_single_entity sample_object_lib (some sample_stateless_body) = none ∧
    parse_single_entity sample_lib (some sample_states_body) = none ∧
    (parse_single_entity sample_object_lib
      (some "\x7b\"entity_id\":\"sensor.temp\"\x7d".toList)).map (fun e => e.entity_id) =
      some "sensor.temp".toList :=
  ⟨rfl, by decide, rfl,
    (parse_entities_array_spec sample_object_lib).2.2.1 sample_stateless_body
      [("state".toList, .String "on".toList)] rfl (by decide),
    (parse_entities_array_spec sample_lib).2.1 sample_states_body sample_states_json rfl
      (by decide),
    by decide⟩

/-! ### The store and the coordinator -/

theorem find_some_entity_id (rows : List ha_entity_t) (id : c_string) (row : ha_entity_t)
    (h : rows.find? (fun r => r.entity_id = id) = some row) : row.entity_id = id := by
  have := List.find?_some h
  simpa using this

/-- C15: over a working store, for a new state of at most 63 bytes,
`cache_manager_update_entity_state` returns 1 when the id is cached, and then
the record stored under the id is the previous record with `state` replaced
and every other field as it was, the records of other ids being untouched; it
returns 0 and changes nothing when the id is not cached. -/
theorem update_entity_state_spec (m : cache_manager_t) (s : sqlite3) (path id st : c_string)
    (hdb : m.db = some ⟨some s, path⟩) (hst : st.length ≤ 63) :
    (∀ row, s.entities.find? (fun r => r.entity_id = id) = some row → ha_entity_wf row →
      (cache_manager_update_entity_state .ok .ok (some m) (some id) (some st)).2 = 1 ∧
      ∃ m', (cache_manager_update_entity_state .ok .ok (some m) (some id) (some st)).1 =
          some m' ∧
        database_get_entity .ok m'.db (some id) = some { row with state := st } ∧
        ∀ id' : c_string, id' ≠ id → ∀ q,
          database_get_entity q m'.db (some id') = database_get_entity q m.db (some id')) ∧
    (s.entities.find? (fun r => r.entity_id = id) = none →
      cache_manager_update_entity_state .ok .ok (some m) (some id) (some st) =
        (some m, 0)) := by
  constructor
  · intro row hrow hwf
    have hid := find_some_entity_id _ _ _ hrow
    have hget : database_get_entity .ok (some ⟨some s, path⟩) (some id) = some row := by
      rw [database_get_entity_ok]
      simp only [entity_rows, hrow, Option.map_some']
      rw [entity_from_row_of_wf row hwf]
    have hst' : strncpy st 63 = st := List.take_of_length_le hst
    have hwf' : ha_entity_wf { row with state := st } := by
      obtain ⟨h1, _, h3, h4, h5, h6, h7, h8, h9, h10⟩ := hwf
      exact ⟨h1, hst, h3, h4, h5, h6, h7, h8, h9, h10⟩
    have hrun : cache_manager_update_entity_state .ok .ok (some m) (some id) (some st) =
        (some { m with db := some ⟨some (sql_replace_entity s { row with state := st }), path⟩ },
          1) := by
      simp only [cache_manager_update_entity_state, hdb, hget, hst']
      rfl
    rw [hrun]
    refine ⟨rfl, _, rfl, ?_, ?_⟩
    · rw [database_get_entity_ok]
      have hfind := find_replace_entity s.entities { row with state := st } id
      rw [if_pos hid] at hfind
      simp only [entity_rows, sql_replace_entity]
      rw [hfind, Option.map_some', entity_from_row_of_wf _ hwf']
    · intro id' hne q
      rw [hdb]
      apply database_get_entity_congr
      have hfind := find_replace_entity s.entities { row with state := st } id'
      rw [if_neg (fun h => hne (h.symm.trans hid))] at hfind
      simp only [entity_rows, sql_replace_entity]
      exact hfind
  · intro hnone
    have hget : database_get_entity .ok (some ⟨some s, path⟩) (some id) = none := by
      rw [database_get_entity_ok]
      simp only [entity_rows, hnone, Option.map_none']
    simp only [cache_manager_update_entity_state, hdb, hget]

/-- Witness of C15: the cached sensor goes to 22.0, the id sensor.attic is not
cached. -/
theorem update_entity_state_spec_witness :
    sample_manager.db = some ⟨some sample_store, "/tmp/ha.db".toList⟩ ∧
    ha_entity_wf sensor_temp ∧
    (cache_manager_update_entity_state .ok .ok (some sample_manager)
      (some "sensor.temp".toList) (some "22.0".toList)).2 = 1 ∧
    cache_manager_update_entity_state .ok .ok (some sample_manager)
      (some "sensor.attic".toList) (some "22.0".toList) = (some sample_manager, 0) :=
  ⟨rfl, by decide,
    ((update_entity_state_spec sample_manager sample_store "/tmp/ha.db".toList
      "sensor.temp".toList "22.0".toList rfl (by decide)).1 sensor_temp (by decide)
      (by decide)).1,
    (update_entity_state_spec sample_manager sample_store "/tmp/ha.db".toList
      "sensor.attic".toList "22.0".toList rfl (by decide)).2 (by decide)⟩

/-- C17: over a working store, adding an id that is a favorite returns 1 and
leaves the database as it was (the `added_at` of the id included), and removing
an id that is no favorite returns 1 and leaves the database as it was; whatever
the store does, neither call changes table entities or table metadata. -/
theorem favorites_idempotent (s : sqlite3) (path id t : c_string) :
    ((∃ f ∈ s.favorites, f.entity_id = id) →
      database_add_favorite .ok t (some ⟨some s, path⟩) (some id) =
        (some ⟨some s, path⟩, 1)) ∧
    ((¬ ∃ f ∈ s.favorites, f.entity_id = id) →
      database_remove_favorite .ok (some ⟨some s, path⟩) (some id) =
        (some ⟨some s, path⟩, 1)) ∧
    (∀ (rc : stmt_outcome) (db : Option database_t) (oid : Option c_string),
      entity_rows (database_add_favorite rc t db oid).1 = entity_rows db ∧
      metadata_rows (database_add_favorite rc t db oid).1 = metadata_rows db ∧
      entity_rows (database_remove_favorite rc db oid).1 = entity_rows db ∧
      metadata_rows (database_remove_favorite rc db oid).1 = metadata_rows db) := by
  refine ⟨?_, ?_, ?_⟩
  · intro h
    simp [database_add_favorite, h]
  · intro h
    have hfilter : s.favorites.filter (fun f => f.entity_id ≠ id) = s.favorites := by
      rw [List.filter_eq_self]
      intro f hf
      have : f.entity_id ≠ id := fun e => h ⟨f, hf, e⟩
      simpa using this
    simp only [database_remove_favorite, hfilter]
  · intro rc db oid
    rcases db with _ | ⟨_ | s', path'⟩ <;> rcases oid with _ | x <;> cases rc <;>
      first
        | exact ⟨rfl, rfl, rfl, rfl⟩
        | (refine ⟨?_, ?_, rfl, rfl⟩ <;>
            (simp only [database_add_favorite]; split_ifs <;> rfl))

/-- Witness of C17 on the sample store, where light.kitchen is a favorite and
sensor.temp is not. -/
theorem favorites_idempotent_witness :
    database_add_favorite .ok "2024-03-03 08:00:00".toList (some sample_db)
      (some "light.kitchen".toList) = (some sample_db, 1) ∧
    database_remove_favorite .ok (some sample_db) (some "sensor.temp".toList) =
      (some sample_db, 1) :=
  ⟨(favorites_idempotent sample_store "/tmp/ha.db".toList "light.kitchen".toList
      "2024-03-03 08:00:00".toList).1 (by decide),
    (favorites_idempotent sample_store "/tmp/ha.db".toList "sensor.temp".toList []).2.1
      (by decide)⟩

/-- C18: after a `database_clear_entities` that succeeded the entity count is
0 and `database_get_entity` finds no id, while table favorites and table
metadata, and so `database_is_favorite` and `database_get_metadata`, are as
before. -/
theorem clear_entities_spec (rc : stmt_outcome) (db : Option database_t)
    (h : (database_clear_entities rc db).2 = 1) :
    database_get_entity_count .ok (database_clear_entities rc db).1 = 0 ∧
    (∀ q id, database_get_entity q (database_clear_entities rc db).1 id = none) ∧
    favorite_rows (database_clear_entities rc db).1 = favorite_rows db ∧
    metadata_rows (database_clear_entities rc db).1 = metadata_rows db ∧
    (∀ q id, database_is_favorite q (database_clear_entities rc db).1 id =
      database_is_favorite q db id) ∧
    (∀ q key, database_get_metadata q (database_clear_entities rc db).1 key =
      database_get_metadata q db key) := by
  rcases db with _ | ⟨_ | s, path⟩
  · simp [database_clear_entities] at h
  · simp [database_clear_entities] at h
  · cases rc
    · refine ⟨rfl, ?_, rfl, rfl, ?_, ?_⟩
      · intro q id
        rcases id with _ | id <;> cases q <;> rfl
      · intro q id
        rcases id with _ | id <;> cases q <;> rfl
      · intro q key
        rcases key with _ | key <;> cases q <;> rfl
    · simp [database_clear_entities] at h
    · simp [database_clear_entities] at h

/-- Witness of C18 on the sample database. -/
theorem clear_entities_spec_witness :
    (database_clear_entities .ok (some sample_db)).2 = 1 ∧
    database_get_entity_count .ok (database_clear_entities .ok (some sample_db)).1 = 0 ∧
    favorite_rows (database_clear_entities .ok (some sample_db)).1 =
      [⟨"light.kitchen".toList, "2024-01-01 00:00:00".toList⟩] :=
  ⟨rfl, (clear_entities_spec .ok (some sample_db) rfl).1,
    (clear_entities_spec .ok (some sample_db) rfl).2.2.1⟩

/-- C19 as stated fails: on the sample database the lookup of the cached
light.kitchen under a failing `sqlite3_prepare_v2` and the lookup of the absent
light.attic over the working store give the same result, NULL, from
`database_get_entity` and from `cache_manager_get_entity`. -/
theorem get_entity_failure_counterexample :
    database_get_entity .ok (some sample_db) (some "light.kitchen".toList) =
      some light_kitchen ∧
    database_get_entity .prepare_error (some sample_db) (some "light.kitchen".toList) = none ∧
    database_get_entity .ok (some sample_db) (some "light.attic".toList) = none ∧
    cache_manager_get_entity .prepare_error (some sample_manager)
      (some "light.kitchen".toList) =
      cache_manager_get_entity .ok (some sample_manager) (some "light.attic".toList) := by
  decide

/-- C19, amended: `database_get_entity` and `cache_manager_get_entity` return
NULL when statement preparation fails and NULL when the store works and the id
is absent, one and the same result; a record is returned only when the store
works and a row carries the id. -/
theorem get_entity_null_cases (m : cache_manager_t) (id : c_string) :
    database_get_entity .prepare_error m.db (some id) = none ∧
    ((entity_rows m.db).find? (fun r => r.entity_id = id) = none →
      database_get_entity .ok m.db (some id) = none ∧
      database_get_entity .ok m.db (some id) =
        database_get_entity .prepare_error m.db (some id)) ∧
    (∀ q e, database_get_entity q m.db (some id) = some e →
      q = .ok ∧ ∃ row, (entity_rows m.db).find? (fun r => r.entity_id = id) = some row ∧
        e = entity_from_row row) ∧
    (∀ q, cache_manager_get_entity q (some m) (some id) =
      database_get_entity q m.db (some id)) := by
  have hfail := database_get_entity_failed .prepare_error (by decide) m.db (some id)
  refine ⟨hfail, ?_, ?_, fun _ => rfl⟩
  · intro hnone
    rw [hfail, database_get_entity_ok, hnone]
    exact ⟨rfl, rfl⟩
  · intro q e he
    cases q
    · refine ⟨rfl, ?_⟩
      rw [database_get_entity_ok] at he
      rcases hf : (entity_rows m.db).find? (fun r => r.entity_id = id) with _ | row
      · rw [hf] at he; cases he
      · rw [hf] at he
        simp only [Option.map_some', Option.some.injEq] at he
        exact ⟨row, hf, he.symm⟩
    · rw [database_get_entity_failed _ (by decide)] at he; cases he
    · rw [database_get_entity_failed _ (by decide)] at he; cases he

/-- Witness of amended C19: light.attic is absent from the sample store. -/
theorem get_entity_null_cases_witness :
    (entity_rows sample_manager.db).find? (fun r => r.entity_id = "light.attic".toList) =
      none ∧
    database_get_entity .ok sample_manager.db (some "light.attic".toList) =
      database_get_entity .prepare_error sample_manager.db (some "light.attic".toList) :=
  ⟨by decide,
    ((get_entity_null_cases sample_manager "light.attic".toList).2.1 (by decide)).2⟩

/-- C20 as stated fails: the sample manager is online; the hub answers 200 with
a body that is no JSON, so no entity is parsed; the sync returns -1 and leaves
`online` at 1. -/
theorem sync_parse_failure_online_counterexample :
    sample_manager.ha_client = some sample_client ∧
    sample_manager.online = 1 ∧
    parse_entities_array sample_lib (some "<html>busy</html>".toList) 0 = (none, 0) ∧
    (cache_manager_sync sample_lib sample_env_garbage (some sample_manager)).2 = -1 ∧
    (cache_manager_sync sample_lib sample_env_garbage (some sample_manager)).1.map
      (fun m => m.online) = some 1 := by
  decide

/-- C20, amended: for a manager with a remote client, a sync that returns -1
because the states fetch failed (no response or a response with `success = 0`)
leaves `online` at 0; a sync that returns -1 because no entity could be parsed
from a successful response leaves `online` as it was; a sync that returns a
count sets `online` to 1, and `online` goes from another value to 1 only
through a sync that returns a count of 0 or more. -/
theorem sync_online_transitions (lib : cjson_lib) (env : sync_env) (m : cache_manager_t)
    (c : ha_client_t) (hc : m.ha_client = some c) :
    ∃ m', (cache_manager_sync lib env (some m)).1 = some m' ∧
      ((env.get_states = none ∨ ∃ r, env.get_states = some r ∧ r.success = 0) →
        (cache_manager_sync lib env (some m)).2 = -1 ∧ m'.online = 0) ∧
      ((∃ r, env.get_states = some r ∧ r.success ≠ 0 ∧
          ((parse_entities_array lib r.data 0).1 = none ∨
            (parse_entities_array lib r.data 0).2 = 0)) →
        (cache_manager_sync lib env (some m)).2 = -1 ∧ m'.online = m.online) ∧
      (0 ≤ (cache_manager_sync lib env (some m)).2 → m'.online = 1) ∧
      (m'.online = 1 → m.online ≠ 1 → 0 ≤ (cache_manager_sync lib env (some m)).2) := by
  rcases hs : env.get_states with _ | r
  · refine ⟨{ m with online := 0 }, ?_, ?_, ?_, ?_, ?_⟩ <;>
      simp [cache_manager_sync, hc, hs]
  · by_cases hsucc : r.success = 0
    · refine ⟨{ m with online := 0 }, ?_, ?_, ?_, ?_, ?_⟩ <;>
        simp [cache_manager_sync, hc, hs, hsucc]
    · rcases hp : parse_entities_array lib r.data 0 with ⟨_ | es, n⟩
      · refine ⟨m, ?_, ?_, ?_, ?_, ?_⟩ <;>
          simp [cache_manager_sync, hc, hs, hsucc, hp]
      · obtain ⟨merged, hsync, _, _⟩ :=
          cache_manager_sync_success lib env m c r es n hc hs hsucc hp
        obtain ⟨hn, hne, _⟩ := parse_entities_array_some lib r.data es n hp
        have hn0 : n ≠ 0 := by
          have : es.length ≠ 0 := by simpa [List.length_eq_zero] using hne
          omega
        rw [hsync]
        refine ⟨_, rfl, ?_, ?_, fun _ => rfl, fun _ _ => (save_entities_tally _ _ _ _).1⟩
        · rintro (h | ⟨r', h, h'⟩)
          · cases h
          · cases h; exact absurd h' hsucc
        · rintro ⟨r', h, _, h'⟩
          cases h
          rw [hp] at h'
          rcases h' with h' | h'
          · cases h'
          · exact absurd h' hn0

/-- Witness of amended C20: the sample manager against an unreachable hub. -/
theorem sync_online_transitions_witness :
    sample_manager.ha_client = some sample_client ∧
    ∃ m', (cache_manager_sync sample_null_lib sample_env_unreachable
        (some sample_manager)).1 = some m' ∧ m'.online = 0 :=
  ⟨rfl,
    (sync_online_transitions sample_null_lib sample_env_unreachable sample_manager
      sample_client rfl).imp (fun _ h => ⟨h.1, (h.2.1 (Or.inl rfl)).2⟩)⟩

/-! ### Favorites -/

instance : IsTotal (ha_entity_t × favorites_row) by_added_at :=
  ⟨fun a b => text_le_total a.2.added_at b.2.added_at⟩

instance : IsTrans (ha_entity_t × favorites_row) by_added_at :=
  ⟨fun a b c hab hbc => text_le_trans a.2.added_at b.2.added_at c.2.added_at hab hbc⟩

theorem filter_key_length (es : List ha_entity_t) (k : c_string)
    (hn : (es.map (fun e => e.entity_id)).Nodup) :
    (es.filter (fun e => e.entity_id = k)).length ≤ 1 := by
  induction es with
  | nil => simp
  | cons x xs ih =>
    rw [List.map_cons, List.nodup_cons] at hn
    by_cases hx : x.entity_id = k
    · have hnil : xs.filter (fun e => e.entity_id = k) = [] := by
        rw [List.filter_eq_nil_iff]
        intro a ha hak
        have hak' : a.entity_id = k := by simpa using hak
        exact hn.1 (List.mem_map.mpr ⟨a, ha, hak'.trans hx.symm⟩)
      simp [List.filter_cons, hx, hnil]
    · simpa [List.filter_cons, hx] using ih hn.2

theorem join_favorites_length (es : List ha_entity_t) (fs : List favorites_row)
    (md : List metadata_row) (hn : (es.map (fun e => e.entity_id)).Nodup) :
    (sql_join_favorites ⟨es, fs, md⟩).length ≤ fs.length := by
  induction fs with
  | nil => simp [sql_join_favorites]
  | cons f rest ih =>
    have h1 := filter_key_length es f.entity_id hn
    simp only [sql_join_favorites, List.flatMap_cons, List.length_append, List.length_map,
      List.length_cons] at ih ⊢
    omega

theorem filter_or_disjoint {α : Type} (p q : α → Bool) (l : List α)
    (hdis : ∀ x ∈ l, p x = true → q x = true → False) :
    (l.filter (fun x => p x || q x)).Perm (l.filter p ++ l.filter q) := by
  induction l with
  | nil => simp
  | cons x xs ih =>
    have ih' := ih (fun y hy => hdis y (List.mem_cons_of_mem _ hy))
    rcases hp : p x with _ | _ <;> rcases hq : q x with _ | _
    · simpa [List.filter_cons, hp, hq] using ih'
    · simp only [List.filter_cons, hp, hq, Bool.or_true, if_true, Bool.false_eq_true, if_false]
      exact (ih'.cons x).trans List.perm_middle.symm
    · simp only [List.filter_cons, hp, hq, Bool.or_false, if_true, Bool.false_eq_true, if_false,
        List.cons_append]
      exact ih'.cons x
    · exact absurd hq (fun h => hdis x (List.mem_cons_self _ _) hp h)

theorem join_favorites_entities (es : List ha_entity_t) (fs : List favorites_row)
    (md : List metadata_row) (hn : (fs.map (fun f => f.entity_id)).Nodup) :
    ((sql_join_favorites ⟨es, fs, md⟩).map (fun p => p.1)).Perm
      (es.filter (fun e => decide (e.entity_id ∈ fs.map (fun f => f.entity_id)))) := by
  induction fs with
  | nil => simp [sql_join_favorites]
  | cons f rest ih =>
    rw [List.map_cons, List.nodup_cons] at hn
    have hstep : (sql_join_favorites ⟨es, f :: rest, md⟩).map (fun p => p.1) =
        es.filter (fun e => decide (e.entity_id = f.entity_id)) ++
          (sql_join_favorites ⟨es, rest, md⟩).map (fun p => p.1) := by
      simp only [sql_join_favorites, List.flatMap_cons, List.map_append, List.map_map]
      congr 1
      exact List.map_id'' (fun _ => rfl) _
    have hfilter : es.filter
        (fun e => decide (e.entity_id ∈ (f :: rest).map (fun f => f.entity_id))) =
        es.filter (fun e => decide (e.entity_id = f.entity_id) ||
          decide (e.entity_id ∈ rest.map (fun f => f.entity_id))) := by
      apply List.filter_congr
      intro e _
      simp only [List.map_cons, List.mem_cons, Bool.decide_or]
    rw [hstep, hfilter]
    have h1 := filter_or_disjoint (fun e : ha_entity_t => decide (e.entity_id = f.entity_id))
      (fun e => decide (e.entity_id ∈ rest.map (fun f => f.entity_id))) es
      (by
        intro e _ h1 h2
        have h1' : e.entity_id = f.entity_id := by simpa using h1
        have h2' : e.entity_id ∈ rest.map (fun f => f.entity_id) := by simpa using h2
        exact hn.1 (h1' ▸ h2'))
    exact ((ih hn.2).append_left _).trans h1.symm

/-- C16: over a working store whose two tables keep their primary keys,
`database_get_favorites` returns the records of exactly the cached entities
whose `entity_id` is in table favorites, each once, in ascending order of the
`added_at` of their favorite, with their number as count; a favorite without a
cached entity contributes nothing, and with no favorite at all the result is
NULL with count 0. -/
theorem get_favorites_spec (s : sqlite3) (path : c_string) (n : Int)
    (hent : (s.entities.map (fun e => e.entity_id)).Nodup)
    (hfav : (s.favorites.map (fun f => f.entity_id)).Nodup) :
    (s.favorites = [] →
      database_get_favorites .ok .ok (some ⟨some s, path⟩) n = (none, 0)) ∧
    (s.favorites ≠ [] → ∃ pairs : List (ha_entity_t × favorites_row),
      database_get_favorites .ok .ok (some ⟨some s, path⟩) n =
        (some (pairs.map (fun p => entity_from_row p.1)), (pairs.length : Int)) ∧
      pairs.Sorted by_added_at ∧
      (∀ p ∈ pairs, p.1 ∈ s.entities ∧ p.2 ∈ s.favorites ∧ p.1.entity_id = p.2.entity_id) ∧
      (pairs.map (fun p => p.1)).Perm
        (s.entities.filter
          (fun e => decide (e.entity_id ∈ s.favorites.map (fun f => f.entity_id))))) := by
  obtain ⟨es, fs, md⟩ := s
  dsimp only at hent hfav ⊢
  constructor
  · intro hnone
    simp [database_get_favorites, hnone]
  · intro hsome
    have hlen : fs.length ≠ 0 := by simpa [List.length_eq_zero] using hsome
    have hperm : (sql_order_by_added_at (sql_join_favorites ⟨es, fs, md⟩)).Perm
        (sql_join_favorites ⟨es, fs, md⟩) := List.perm_insertionSort by_added_at _
    have hshort : ((sql_order_by_added_at (sql_join_favorites ⟨es, fs, md⟩)).map
        (fun p => p.1)).length ≤ fs.length := by
      rw [List.length_map, hperm.length_eq]
      exact join_favorites_length es fs md hent
    refine ⟨sql_order_by_added_at (sql_join_favorites ⟨es, fs, md⟩), ?_, ?_, ?_, ?_⟩
    · simp only [database_get_favorites, if_true, hlen, if_false, fetch_rows,
        List.take_of_length_le hshort, List.map_map, List.length_map]
      rfl
    · exact List.sorted_insertionSort by_added_at _
    · intro p hp
      have hp' := hperm.mem_iff.mp hp
      simp only [sql_join_favorites, List.mem_flatMap, List.mem_map, List.mem_filter,
        decide_eq_true_eq] at hp'
      obtain ⟨f, hf, e, ⟨he, hef⟩, hpe⟩ := hp'
      subst hpe
      exact ⟨he, hf, hef⟩
    · exact (hperm.map _).trans (join_favorites_entities es fs md hfav)

/-- Witness of C16: of three favorites the oldest is not cached; the sensor,
added second, comes before the light, added last. -/
theorem get_favorites_spec_witness :
    (sample_store_favorites.entities.map (fun e => e.entity_id)).Nodup ∧
    (sample_store_favorites.favorites.map (fun f => f.entity_id)).Nodup ∧
    database_get_favorites .ok .ok (some ⟨some sample_store_favorites, []⟩) 0 =
      (some [sensor_temp, light_kitchen], 2) ∧
    ∃ pairs : List (ha_entity_t × favorites_row),
      database_get_favorites .ok .ok (some ⟨some sample_store_favorites, []⟩) 0 =
        (some (pairs.map (fun p => entity_from_row p.1)), (pairs.length : Int)) ∧
      pairs.Sorted by_added_at :=
  ⟨by decide, by decide, by decide,
    ((get_favorites_spec sample_store_favorites [] 0 (by decide) (by decide)).2
      (by decide)).imp (fun _ h => ⟨h.1, h.2.1⟩)⟩

/-! ### The area payload -/

theorem isPrefixOf_append_cases (m A : c_string) (c : Char) (rest : c_string)
    (h : m.isPrefixOf (A ++ c :: rest) = true) : m.isPrefixOf A = true ∨ c ∈ m := by
  induction m generalizing A with
  | nil => left; simp
  | cons a m' ih =>
    cases A with
    | nil =>
      simp only [List.nil_append, List.isPrefixOf, Bool.and_eq_true, beq_iff_eq] at h
      right; rw [h.1]; exact List.mem_cons_self _ _
    | cons b A' =>
      simp only [List.cons_append, List.isPrefixOf, Bool.and_eq_true, beq_iff_eq] at h ⊢
      rcases ih A' h.2 with h' | h'
      · left; exact ⟨h.1, h'⟩
      · right; exact List.mem_cons_of_mem _ h'

theorem strstr_cons_skip (c : Char) (rest m : c_string)
    (h : m.isPrefixOf (c :: rest) = false) :
    strstr (c :: rest) m = (strstr rest m).map (· + 1) := by
  simp [strstr, h]

theorem strstr_none_cons (x : Char) (xs m : c_string) (h : strstr (x :: xs) m = none) :
    m.isPrefixOf (x :: xs) = false ∧ strstr xs m = none := by
  unfold strstr at h
  split_ifs at h with hp
  constructor
  · exact Bool.eq_false_iff.mpr hp
  · simpa using h

theorem strstr_pass (J m : c_string) (c : Char) (rest : c_string) (hJ : strstr J m = none)
    (hc : c ∉ m) :
    strstr (J ++ c :: rest) m = (strstr (c :: rest) m).map (· + J.length) := by
  induction J with
  | nil => simp
  | cons x xs ih =>
    obtain ⟨hp, hxs⟩ := strstr_none_cons x xs m hJ
    have hnot : m.isPrefixOf (x :: (xs ++ c :: rest)) = false := by
      by_contra hcon
      have hcon' : m.isPrefixOf ((x :: xs) ++ c :: rest) = true := by simpa using hcon
      rcases isPrefixOf_append_cases m (x :: xs) c rest hcon' with h | h
      · rw [hp] at h; cases h
      · exact hc h
    rw [List.cons_append, strstr_cons_skip _ _ _ hnot, ih hxs, Option.map_map]
    rfl

theorem marker_e_mismatch (c : Char) (rest : c_string) (hc : c ≠ dquote) :
    marker_e.isPrefixOf (c :: rest) = false := by
  have : (dquote == c) = false := by simpa using Ne.symm hc
  simp [marker_e, List.isPrefixOf, this]

theorem strstr_run (A rest : c_string) (hA : ∀ x ∈ A, x ≠ dquote) :
    strstr (A ++ rest) marker_e = (strstr rest marker_e).map (· + A.length) := by
  induction A with
  | nil => simp
  | cons x xs ih =>
    rw [List.cons_append,
      strstr_cons_skip _ _ _ (marker_e_mismatch x _ (hA x (List.mem_cons_self _ _))),
      ih (fun y hy => hA y (List.mem_cons_of_mem _ hy)), Option.map_map]
    rfl

theorem scan_quoted_run (A rest : c_string) (n : Nat) (hA : ∀ x ∈ A, x ≠ dquote)
    (hn : A.length ≤ n) : scan_quoted (A ++ dquote :: rest) n = A := by
  unfold scan_quoted
  have : (A ++ dquote :: rest).takeWhile (fun c => c ≠ dquote) = A := by
    clear hn
    induction A with
    | nil => simp
    | cons x xs ih =>
      have hx := hA x (List.mem_cons_self _ _)
      simp only [List.cons_append, List.takeWhile_cons, ne_eq, hx, not_false_eq_true,
        decide_True, if_true]
      rw [ih (fun y hy => hA y (List.mem_cons_of_mem _ hy))]
  rw [this, List.take_of_length_le hn]

theorem strstr_junk (A : c_string) (hA : ∀ x ∈ A, x ≠ dquote) :
    strstr (',' :: (marker_a ++ (A ++ [dquote, rbrace]))) marker_e = none := by
  have hrun := strstr_run A [dquote, rbrace] hA
  have hend : strstr [dquote, rbrace] marker_e = none := by decide
  rw [hend] at hrun
  have h5 : marker_e.isPrefixOf (dquote :: (A ++ [dquote, rbrace])) = false := by
    cases A with
    | nil => decide
    | cons a A' =>
      cases A' with
      | nil =>
        by_cases ha : a = 'e'
        · subst ha; decide
        · have : ('e' == a) = false := by simpa using Ne.symm ha
          simp [marker_e, List.isPrefixOf, this]
      | cons a2 A'' =>
        have h2 : a2 ≠ dquote := hA a2 (by simp)
        have : (dquote == a2) = false := by simpa using Ne.symm h2
        simp [marker_e, List.isPrefixOf, this]
  have s5 := strstr_cons_skip dquote (A ++ [dquote, rbrace]) marker_e h5
  rw [hrun] at s5
  simp only [Option.map_none'] at s5
  have s4 := strstr_cons_skip ':' (dquote :: (A ++ [dquote, rbrace])) marker_e
    (marker_e_mismatch _ _ (by decide))
  rw [s5] at s4
  have h3 : marker_e.isPrefixOf (dquote :: ':' :: dquote :: (A ++ [dquote, rbrace])) =
      false := by
    have : ('e' == ':') = false := by decide
    simp [marker_e, List.isPrefixOf, this]
  have s3 := strstr_cons_skip dquote (':' :: dquote :: (A ++ [dquote, rbrace])) marker_e h3
  rw [s4] at s3
  have s2 := strstr_cons_skip 'a' (dquote :: ':' :: dquote :: (A ++ [dquote, rbrace]))
    marker_e (marker_e_mismatch _ _ (by decide))
  rw [s3] at s2
  have h1 : marker_e.isPrefixOf
      (dquote :: 'a' :: dquote :: ':' :: dquote :: (A ++ [dquote, rbrace])) = false := by
    have : ('e' == 'a') = false := by decide
    simp [marker_e, List.isPrefixOf, this]
  have s1 := strstr_cons_skip dquote
    ('a' :: dquote :: ':' :: dquote :: (A ++ [dquote, rbrace])) marker_e h1
  rw [s2] at s1
  have s0 := strstr_cons_skip ','
    (dquote :: 'a' :: dquote :: ':' :: dquote :: (A ++ [dquote, rbrace])) marker_e
    (marker_e_mismatch _ _ (by decide))
  rw [s1] at s0
  simpa [marker_a] using s0

theorem strstr_pair_text (J : c_string) (sep : Char) (p : c_string × c_string)
    (tail : c_string) (hJ : strstr J marker_e = none) (hsep : sep ∉ marker_e) :
    strstr (J ++ sep :: area_pair_text p tail) marker_e = some (2 + J.length) := by
  have hsep' : sep ≠ dquote := by
    intro h; apply hsep; rw [h]; decide
  rw [strstr_pass J marker_e sep _ hJ hsep,
    strstr_cons_skip _ _ _ (marker_e_mismatch sep _ hsep')]
  unfold area_pair_text
  rw [strstr_cons_skip _ _ _ (marker_e_mismatch lbrace _ (by decide))]
  have hpre : marker_e.isPrefixOf
      (marker_e ++ (p.1 ++ dquote :: ',' :: (marker_a ++ (p.2 ++ dquote :: rbrace :: tail)))) =
      true := by
    simp [marker_e, List.isPrefixOf]
  have h0 : strstr
      (marker_e ++ (p.1 ++ dquote :: ',' :: (marker_a ++ (p.2 ++ dquote :: rbrace :: tail))))
      marker_e = some 0 := by
    have hcons : marker_e ++
        (p.1 ++ dquote :: ',' :: (marker_a ++ (p.2 ++ dquote :: rbrace :: tail))) =
        dquote :: ([ 'e', dquote, ':', dquote] ++
          (p.1 ++ dquote :: ',' :: (marker_a ++ (p.2 ++ dquote :: rbrace :: tail)))) := rfl
    rw [hcons] at hpre ⊢
    rw [strstr, if_pos hpre]
  rw [h0]
  rfl

theorem strstr_marker_a (X : c_string) : strstr (',' :: (marker_a ++ X)) marker_a = some 1 := by
  have h1 : marker_a.isPrefixOf (',' :: (marker_a ++ X)) = false := by
    have : (dquote == ',') = false := by decide
    simp [marker_a, List.isPrefixOf, this]
  have h2 : marker_a.isPrefixOf (marker_a ++ X) = true := by
    simp [marker_a, List.isPrefixOf]
  have hcons : marker_a ++ X = dquote :: (['a', dquote, ':', dquote] ++ X) := rfl
  rw [strstr_cons_skip _ _ _ h1]
  rw [hcons] at h2 ⊢
  rw [strstr, if_pos h2]
  rfl

theorem areas_loop_step (rc : Nat → stmt_outcome) (k : Nat) (p : c_string × c_string)
    (J : c_string) (sep : Char) (tail : c_string) (db : Option database_t) (u : Nat)
    (hp : area_pair_ok p) (hJ : strstr J marker_e = none) (hsep : sep ∉ marker_e) :
    parse_and_update_areas_loop rc (k + 1) (J ++ sep :: area_pair_text p tail) db u =
      parse_and_update_areas_loop rc k
        (',' :: (marker_a ++ (p.2 ++ dquote :: rbrace :: tail)))
        (database_update_entity_area (rc u) db (some p.1) (some p.2)).1 (u + 1) := by
  obtain ⟨h1a, h1b, h1c, h2a, h2b, h2c⟩ := hp
  have hfind := strstr_pair_text J sep p tail hJ hsep
  have hdrop : (J ++ sep :: area_pair_text p tail).drop (2 + J.length + 5) =
      p.1 ++ dquote :: ',' :: (marker_a ++ (p.2 ++ dquote :: rbrace :: tail)) := by
    have : 2 + J.length + 5 = J.length + 7 := by omega
    rw [this, List.drop_append]
    rfl
  have hscan := scan_quoted_run p.1 (',' :: (marker_a ++ (p.2 ++ dquote :: rbrace :: tail)))
    127 h1c h1b
  have hdrop2 : (p.1 ++ dquote :: ',' :: (marker_a ++ (p.2 ++ dquote :: rbrace :: tail))).drop
      p.1.length = dquote :: ',' :: (marker_a ++ (p.2 ++ dquote :: rbrace :: tail)) :=
    List.drop_left _ _
  have hfind_a := strstr_marker_a (p.2 ++ dquote :: rbrace :: tail)
  have hdrop3 : (',' :: (marker_a ++ (p.2 ++ dquote :: rbrace :: tail))).drop (1 + 5) =
      p.2 ++ dquote :: rbrace :: tail := rfl
  have hscan_a := scan_quoted_run p.2 (rbrace :: tail) 63 h2c h2b
  have hlen : p.1.length > 0 ∧ p.2.length > 0 := ⟨h1a, h2a⟩
  rw [parse_and_update_areas_loop]
  simp only [hfind, hdrop, hscan, hdrop2, List.head?_cons, ne_eq, not_true_eq_false, if_false,
    List.drop_succ_cons, List.drop_zero, hfind_a, hdrop3, hscan_a, hlen, and_self, if_true]
  rfl

theorem areas_loop_end (rc : Nat → stmt_outcome) (fuel : Nat) (J S : c_string)
    (db : Option database_t) (u : Nat) (hJ : strstr J marker_e = none)
    (hS : strstr S marker_e = none) :
    parse_and_update_areas_loop rc fuel (J ++ ']' :: S) db u = (db, u) := by
  cases fuel with
  | zero => rfl
  | succ k =>
    have h : strstr (J ++ ']' :: S) marker_e = none := by
      rw [strstr_pass J marker_e ']' S hJ (by decide),
        strstr_cons_skip _ _ _ (marker_e_mismatch ']' _ (by decide)), hS]
      rfl
    rw [parse_and_update_areas_loop]
    simp only [h]

theorem areas_loop_pairs (rc : Nat → stmt_outcome) (S : c_string)
    (hS : strstr S marker_e = none) (ps : List (c_string × c_string)) :
    ∀ (p : c_string × c_string) (J : c_string) (sep : Char) (fuel : Nat)
      (db : Option database_t) (u : Nat),
      (∀ q ∈ p :: ps, area_pair_ok q) → strstr J marker_e = none → sep ∉ marker_e →
      ps.length + 2 ≤ fuel →
      parse_and_update_areas_loop rc fuel (J ++ sep :: area_pair_text p (area_rest_text ps S))
        db u = area_updates rc (p :: ps) db u := by
  induction ps with
  | nil =>
    intro p J sep fuel db u hok hJ hsep hfuel
    obtain ⟨k, rfl⟩ : ∃ k, fuel = k + 1 := ⟨fuel - 1, by simp at hfuel; omega⟩
    have hp := hok p (List.mem_cons_self _ _)
    rw [areas_loop_step rc k p J sep _ db u hp hJ hsep]
    have hjunk := strstr_junk p.2 hp.2.2.2.2.2
    have htext : ',' :: (marker_a ++ (p.2 ++ dquote :: rbrace :: area_rest_text [] S)) =
        (',' :: (marker_a ++ (p.2 ++ [dquote, rbrace]))) ++ ']' :: S := by
      simp [area_rest_text, marker_a]
    rw [htext, areas_loop_end rc k _ S _ _ hjunk hS]
    rfl
  | cons q qs ih =>
    intro p J sep fuel db u hok hJ hsep hfuel
    obtain ⟨k, rfl⟩ : ∃ k, fuel = k + 1 := ⟨fuel - 1, by simp at hfuel; omega⟩
    have hp := hok p (List.mem_cons_self _ _)
    rw [areas_loop_step rc k p J sep _ db u hp hJ hsep]
    have hjunk := strstr_junk p.2 hp.2.2.2.2.2
    have htext : ',' :: (marker_a ++ (p.2 ++ dquote :: rbrace :: area_rest_text (q :: qs) S)) =
        (',' :: (marker_a ++ (p.2 ++ [dquote, rbrace]))) ++
          ',' :: area_pair_text q (area_rest_text qs S) := by
      simp [area_rest_text, marker_a]
    rw [htext, ih q _ ',' k _ (u + 1) (fun x hx => hok x (List.mem_cons_of_mem _ hx)) hjunk
      (by decide) (by simp at hfuel ⊢; omega)]
    rfl

theorem area_rest_text_length (ps : List (c_string × c_string)) (S : c_string) :
    ps.length + 1 ≤ (area_rest_text ps S).length := by
  induction ps with
  | nil => simp [area_rest_text]
  | cons p rest ih =>
    simp only [area_rest_text, area_pair_text, List.length_cons, List.length_append]
    omega

theorem area_updates_count (rc : Nat → stmt_outcome) (ps : List (c_string × c_string))
    (db : Option database_t) (u : Nat) : (area_updates rc ps db u).2 = u + ps.length := by
  induction ps generalizing db u with
  | nil => rfl
  | cons p rest ih =>
    simp only [area_updates, ih, List.length_cons]
    omega

theorem area_updates_ok (rc : Nat → stmt_outcome) (hrc : ∀ k, rc k = .ok)
    (ps : List (c_string × c_string)) (s : sqlite3) (path : c_string) (u : Nat) :
    (area_updates rc ps (some ⟨some s, path⟩) u).1 =
      some ⟨some { s with entities := s.entities.map (area_after ps) }, path⟩ := by
  induction ps generalizing s u with
  | nil =>
    have hmap : s.entities.map (area_after []) = s.entities :=
      (List.map_congr_left (fun _ _ => rfl)).trans (List.map_id _)
    rw [hmap]
    rfl
  | cons p rest ih =>
    simp only [area_updates, hrc, database_update_entity_area, Option.getD_some]
    rw [ih]
    simp only [List.map_map, area_after, List.foldl_cons]
    rfl

theorem area_after_frame (ps : List (c_string × c_string)) (r : ha_entity_t) :
    without_area (area_after ps r) = without_area r ∧
    (area_after ps r).entity_id = r.entity_id := by
  induction ps generalizing r with
  | nil => exact ⟨rfl, rfl⟩
  | cons p rest ih =>
    simp only [area_after, List.foldl_cons]
    split_ifs
    · have := ih { r with area_id := p.2 }
      simp only [area_after] at this
      exact ⟨this.1, this.2⟩
    · have := ih r
      simp only [area_after] at this
      exact this

theorem area_after_untouched (ps : List (c_string × c_string)) (r : ha_entity_t)
    (h : ∀ q ∈ ps, q.1 ≠ r.entity_id) : area_after ps r = r := by
  induction ps generalizing r with
  | nil => rfl
  | cons p rest ih =>
    have hp : ¬ r.entity_id = p.1 := fun e => h p (List.mem_cons_self _ _) e.symm
    simp only [area_after, List.foldl_cons, hp, if_false]
    exact ih r (fun q hq => h q (List.mem_cons_of_mem _ hq))

theorem area_after_last (pre post : List (c_string × c_string)) (p : c_string × c_string)
    (r : ha_entity_t) (hp : p.1 = r.entity_id) (hpost : ∀ q ∈ post, q.1 ≠ r.entity_id) :
    (area_after (pre ++ p :: post) r).area_id = p.2 := by
  have hpre : (area_after pre r).entity_id = r.entity_id := (area_after_frame pre r).2
  have hsplit : area_after (pre ++ p :: post) r =
      area_after post { area_after pre r with area_id := p.2 } := by
    simp only [area_after, List.foldl_append, List.foldl_cons]
    simp only [area_after] at hpre
    rw [if_pos (hpre.trans hp.symm)]
  rw [hsplit, area_after_untouched post _ (fun q hq => by
    show q.1 ≠ (area_after pre r).entity_id
    rw [hpre]; exact hpost q hq)]

/-- C14: for a text made of `P`, the array of the pairs and `S`, where neither
`P` nor `S` holds the marker of an entity id and every entity id (1 to 127
chars) and area id (1 to 63 chars) is free of double quotes,
`parse_and_update_areas` issues exactly the updates of the listed pairs, in
order, and counts them.  Over a working store every row then carries the area
of the last pair that names its id, rows that no pair names are as before, no
other field of any row changes, and no row is created or removed; tables
favorites and metadata are as before. -/
theorem parse_and_update_areas_spec (rc : Nat → stmt_outcome) (db : Option database_t)
    (P S : c_string) (pairs : List (c_string × c_string))
    (hP : strstr P marker_e = none) (hS : strstr S marker_e = none)
    (hpairs : ∀ p ∈ pairs, area_pair_ok p) :
    parse_and_update_areas rc db (some (area_payload P pairs S)) =
      area_updates rc pairs db 0 ∧
    (parse_and_update_areas rc db (some (area_payload P pairs S))).2 = pairs.length ∧
    (∀ s path, db = some ⟨some s, path⟩ → (∀ k, rc k = .ok) →
      (parse_and_update_areas rc db (some (area_payload P pairs S))).1 =
        some ⟨some { s with entities := s.entities.map (area_after pairs) }, path⟩) ∧
    (∀ r, without_area (area_after pairs r) = without_area r ∧
      (area_after pairs r).entity_id = r.entity_id) ∧
    (∀ r pre p post, pairs = pre ++ p :: post → p.1 = r.entity_id →
      (∀ q ∈ post, q.1 ≠ r.entity_id) → (area_after pairs r).area_id = p.2) ∧
    (∀ r, (∀ q ∈ pairs, q.1 ≠ r.entity_id) → area_after pairs r = r) := by
  have hrun : parse_and_update_areas rc db (some (area_payload P pairs S)) =
      area_updates rc pairs db 0 := by
    cases pairs with
    | nil =>
      have hlen : ¬ (P ++ '[' :: ']' :: S).length < 2 := by
        simp only [List.length_append, List.length_cons]; omega
      have hJ : strstr (P ++ ['[']) marker_e = none := by
        rw [strstr_pass P marker_e '[' [] hP (by decide)]
        rfl
      have htext : P ++ '[' :: ']' :: S = (P ++ ['[']) ++ ']' :: S := by simp
      simp only [parse_and_update_areas, area_payload, hlen, if_false]
      rw [htext, areas_loop_end rc _ _ S db 0 hJ hS]
      rfl
    | cons p ps =>
      have hrest := area_rest_text_length ps S
      have hlen : ¬ (P ++ '[' :: area_pair_text p (area_rest_text ps S)).length < 2 := by
        simp only [List.length_append, List.length_cons, area_pair_text]; omega
      have hfuel : ps.length + 2 ≤ (P ++ '[' :: area_pair_text p (area_rest_text ps S)).length := by
        simp only [List.length_append, List.length_cons, area_pair_text]; omega
      simp only [parse_and_update_areas, area_payload, hlen, if_false]
      exact areas_loop_pairs rc S hS ps p P '[' _ db 0 hpairs hP (by decide) hfuel
  refine ⟨hrun, ?_, ?_, area_after_frame pairs, ?_, area_after_untouched pairs⟩
  · rw [hrun, area_updates_count]
    simp
  · intro s path hdb hrc
    rw [hrun, hdb, area_updates_ok rc hrc]
  · intro r pre p post hsplit hp hpost
    rw [hsplit]
    exact area_after_last pre post p r hp hpost

/-- Witness of C14: the sample pairs between the texts "result: " and " done"
over the sample store. -/
theorem parse_and_update_areas_spec_witness :
    area_payload "result: ".toList sample_area_pairs " done".toList =
      ("result: [\x7b\"e\":\"light.kitchen\",\"a\":\"kitchen\"\x7d," ++
        "\x7b\"e\":\"sensor.temp\",\"a\":\"cellar\"\x7d] done").toList ∧
    strstr "result: ".toList marker_e = none ∧
    strstr " done".toList marker_e = none ∧
    (∀ p ∈ sample_area_pairs, area_pair_ok p) ∧
    parse_and_update_areas (fun _ => .ok) (some sample_db)
        (some (area_payload "result: ".toList sample_area_pairs " done".toList)) =
      area_updates (fun _ => .ok) sample_area_pairs (some sample_db) 0 ∧
    entity_rows (parse_and_update_areas (fun _ => .ok) (some sample_db)
        (some (area_payload "result: ".toList sample_area_pairs " done".toList))).1 =
      [{ sensor_temp with area_id := "cellar".toList }, light_kitchen] :=
  have hok : ∀ p ∈ sample_area_pairs, area_pair_ok p := by
    intro p hp
    simp only [sample_area_pairs, List.mem_cons, List.mem_singleton, List.not_mem_nil,
      or_false] at hp
    rcases hp with h | h <;> subst h <;>
      exact ⟨by decide, by decide, by decide, by decide, by decide, by decide⟩
  ⟨by decide, by decide, by decide, hok,
    (parse_and_update_areas_spec (fun _ => .ok) (some sample_db) "result: ".toList
      " done".toList sample_area_pairs (by decide) (by decide) hok).1,
    by decide⟩

/-! ### Session state, refresh and toggle -/

/-- C21: `cache_manager_refresh_entity`, whether its fetch succeeds or fails,
`cache_manager_update_entity_state` and the favorite operations leave `online`,
`last_sync` and `sync_interval` of the manager as they were, whatever the
outside world answers. -/
theorem session_state_frame (lib : cjson_lib) (env : refresh_env) (q rc : stmt_outcome)
    (t : c_string) (manager : Option cache_manager_t) (id st : Option c_string) :
    (cache_manager_refresh_entity lib env manager id).1.map session_state =
      manager.map session_state ∧
    (cache_manager_update_entity_state q rc manager id st).1.map session_state =
      manager.map session_state ∧
    (cache_manager_add_favorite rc t manager id).1.map session_state =
      manager.map session_state ∧
    (cache_manager_remove_favorite rc manager id).1.map session_state =
      manager.map session_state ∧
    (cache_manager_toggle_favorite q rc t manager id).1.map session_state =
      manager.map session_state := by
  refine ⟨?_, ?_, ?_, ?_, ?_⟩
  · rcases manager with _ | m <;> rcases id with _ | x <;> try rfl
    simp only [cache_manager_refresh_entity]
    split
    · rfl
    · split
      · rfl
      · split
        · rfl
        · split <;> rfl
  · rcases manager with _ | m <;> rcases id with _ | x <;> rcases st with _ | y <;> try rfl
    simp only [cache_manager_update_entity_state]
    split <;> rfl
  · rcases manager with _ | m <;> rcases id with _ | x <;> rfl
  · rcases manager with _ | m <;> rcases id with _ | x <;> rfl
  · rcases manager with _ | m <;> rcases id with _ | x <;> try rfl
    simp only [cache_manager_toggle_favorite]
    split <;> rfl

/-- C22 as stated fails: the sample manager caches light.kitchen; the fetch is
answered 200 with a body that is no JSON; `cache_manager_refresh_entity`
returns NULL, not the cached record. -/
theorem refresh_parse_failure_counterexample :
    sample_manager.ha_client = some sample_client ∧
    database_get_entity .ok sample_manager.db (some "light.kitchen".toList) =
      some light_kitchen ∧
    parse_single_entity sample_lib (some "<html>busy</html>".toList) = none ∧
    cache_manager_refresh_entity sample_lib sample_refresh_garbage (some sample_manager)
      (some "light.kitchen".toList) = (some sample_manager, none) := by
  decide

/-- C22, amended: when the single-state fetch succeeds but its body does not
parse as an entity, `cache_manager_refresh_entity` returns NULL, whether or not
the id is cached, and leaves the manager and its database as they were. -/
theorem refresh_entity_parse_failure (lib : cjson_lib) (env : refresh_env)
    (m : cache_manager_t) (c : ha_client_t) (r : ha_response_t) (id : c_string)
    (hc : m.ha_client = some c) (hstate : env.get_state = some r) (hsucc : r.success ≠ 0)
    (hparse : parse_single_entity lib r.data = none) :
    cache_manager_refresh_entity lib env (some m) (some id) = (some m, none) := by
  simp only [cache_manager_refresh_entity, hc, hstate, hsucc, if_false, hparse]

/-- Witness of amended C22 on the sample manager. -/
theorem refresh_entity_parse_failure_witness :
    parse_single_entity sample_lib (some "<html>busy</html>".toList) = none ∧
    cache_manager_refresh_entity sample_lib sample_refresh_garbage (some sample_manager)
      (some "light.kitchen".toList) = (some sample_manager, none) :=
  ⟨by decide,
    refresh_entity_parse_failure sample_lib sample_refresh_garbage sample_manager sample_client
      { sample_states_response with data := some "<html>busy</html>".toList }
      "light.kitchen".toList rfl rfl (by decide) (by decide)⟩

/-- C23 as stated fails: the sample manager without a client caches
light.kitchen, and `cache_manager_refresh_entity` returns NULL for it. -/
theorem refresh_offline_counterexample :
    sample_offline_manager.ha_client = none ∧
    cache_manager_get_entity .ok (some sample_offline_manager)
      (some "light.kitchen".toList) = some light_kitchen ∧
    (cache_manager_refresh_entity sample_null_lib ⟨none, .ok, .ok⟩
      (some sample_offline_manager) (some "light.kitchen".toList)).2 = none := by
  decide

/-- C23, amended: for a manager without a remote client
`cache_manager_refresh_entity` returns NULL for every id, cached or not, and
changes nothing; the cached record is what `cache_manager_get_entity` returns,
which does not look at the client. -/
theorem refresh_entity_offline (lib : cjson_lib) (env : refresh_env) (m : cache_manager_t)
    (id : Option c_string) (hc : m.ha_client = none) :
    cache_manager_refresh_entity lib env (some m) id = (some m, none) ∧
    ∀ q, cache_manager_get_entity q (some m) id = database_get_entity q m.db id := by
  constructor
  · rcases id with _ | x
    · rfl
    · simp only [cache_manager_refresh_entity, hc]
  · intro q
    rcases id with _ | x
    · rcases hdb : m.db with _ | ⟨_ | s, path⟩ <;> rfl
    · rfl

/-- Witness of amended C23 on the sample offline manager. -/
theorem refresh_entity_offline_witness :
    sample_offline_manager.ha_client = none ∧
    cache_manager_refresh_entity sample_null_lib ⟨none, .ok, .ok⟩
      (some sample_offline_manager) (some "light.kitchen".toList) =
      (some sample_offline_manager, none) :=
  ⟨rfl,
    (refresh_entity_offline sample_null_lib ⟨none, .ok, .ok⟩ sample_offline_manager
      (some "light.kitchen".toList) rfl).1⟩

/-- C24 as stated fails: on the sample manager the empty id and the id
kitchen, which has no dot, are toggled like any other; the call returns 1 and
the id is a favorite afterwards. -/
theorem toggle_malformed_id_counterexample :
    (cache_manager_toggle_favorite .ok .ok "2024-05-05 12:00:00".toList (some sample_manager)
      (some [])).2 = 1 ∧
    cache_manager_is_favorite .ok
      (cache_manager_toggle_favorite .ok .ok "2024-05-05 12:00:00".toList (some sample_manager)
        (some [])).1 (some []) = 1 ∧
    (cache_manager_toggle_favorite .ok .ok "2024-05-05 12:00:00".toList (some sample_manager)
      (some "kitchen".toList)).2 = 1 ∧
    cache_manager_is_favorite .ok
      (cache_manager_toggle_favorite .ok .ok "2024-05-05 12:00:00".toList (some sample_manager)
        (some "kitchen".toList)).1 (some "kitchen".toList) = 1 := by
  decide

/-- C24, amended: `cache_manager_toggle_favorite` returns -1 and changes
nothing exactly when the manager or the id is NULL; every id that is a string,
the empty one and one without a dot included, is toggled, the call returning 0
or 1. -/
theorem toggle_favorite_error_value (q rc : stmt_outcome) (t : c_string)
    (m : cache_manager_t) :
    cache_manager_toggle_favorite q rc t (some m) none = (some m, -1) ∧
    (∀ id : Option c_string, cache_manager_toggle_favorite q rc t none id = (none, -1)) ∧
    (∀ id : c_string,
      (cache_manager_toggle_favorite q rc t (some m) (some id)).2 = 0 ∨
      (cache_manager_toggle_favorite q rc t (some m) (some id)).2 = 1) ∧
    (∀ id : Option c_string,
      (cache_manager_toggle_favorite q rc t (some m) id).2 = -1 ↔ id = none) := by
  have h01 : ∀ id : c_string,
      (cache_manager_toggle_favorite q rc t (some m) (some id)).2 = 0 ∨
      (cache_manager_toggle_favorite q rc t (some m) (some id)).2 = 1 := by
    intro id
    simp only [cache_manager_toggle_favorite]
    split
    · exact Or.inl rfl
    · exact Or.inr rfl
  refine ⟨rfl, ?_, h01, ?_⟩
  · intro id
    rcases id with _ | x <;> rfl
  · intro id
    rcases id with _ | x
    · exact ⟨fun _ => rfl, fun _ => rfl⟩
    · constructor
      · intro h
        rcases h01 x with h' | h' <;> rw [h'] at h <;> exact absurd h (by decide)
      · intro h
        cases h

/-- C25 fails on the code.  On the sample manager sensor.temp is no favorite;
the membership query runs and the INSERT fails: the call returns 1, not -1, and
sensor.temp is no favorite afterwards.  light.kitchen is a favorite; the DELETE
fails: the call returns 0, not -1, and light.kitchen is a favorite
afterwards. -/
theorem toggle_favorite_untruthful :
    cache_manager_is_favorite .ok (some sample_manager) (some "sensor.temp".toList) = 0 ∧
    (database_add_favorite .step_error "2024-05-05 12:00:00".toList sample_manager.db
      (some "sensor.temp".toList)).2 = 0 ∧
    (cache_manager_toggle_favorite .ok .step_error "2024-05-05 12:00:00".toList
      (some sample_manager) (some "sensor.temp".toList)).2 = 1 ∧
    cache_manager_is_favorite .ok
      (cache_manager_toggle_favorite .ok .step_error "2024-05-05 12:00:00".toList
        (some sample_manager) (some "sensor.temp".toList)).1
      (some "sensor.temp".toList) = 0 ∧
    cache_manager_is_favorite .ok (some sample_manager) (some "light.kitchen".toList) = 1 ∧
    (database_remove_favorite .step_error sample_manager.db
      (some "light.kitchen".toList)).2 = 0 ∧
    (cache_manager_toggle_favorite .ok .step_error "2024-05-05 12:00:00".toList
      (some sample_manager) (some "light.kitchen".toList)).2 = 0 ∧
    cache_manager_is_favorite .ok
      (cache_manager_toggle_favorite .ok .step_error "2024-05-05 12:00:00".toList
        (some sample_manager) (some "light.kitchen".toList)).1
      (some "light.kitchen".toList) = 1 := by
  decide

/-! ### Nothing is lost from the cache -/

theorem keeps_entities_refl (db : Option database_t) : keeps_entities db db :=
  ⟨fun _ h => h, fun h => h⟩

theorem keeps_entities_trans {a b c : Option database_t} (h1 : keeps_entities a b)
    (h2 : keeps_entities b c) : keeps_entities a c :=
  ⟨fun id h => h2.1 id (h1.1 id h), fun h => h2.2 (h1.2 h)⟩

theorem keeps_entities_of_ids {db db' : Option database_t}
    (h : cached_ids db' = cached_ids db) : keeps_entities db db' := by
  unfold keeps_entities
  rw [h]
  exact ⟨fun _ h => h, fun h => h⟩

theorem cached_ids_of_without_area {db db' : Option database_t}
    (h : (entity_rows db').map without_area = (entity_rows db).map without_area) :
    cached_ids db' = cached_ids db := by
  have h' := congrArg (List.map (fun e : ha_entity_t => e.entity_id)) h
  simpa [cached_ids, List.map_map, Function.comp, without_area] using h'

theorem keeps_entities_save (rc : stmt_outcome) (db : Option database_t)
    (entity : Option ha_entity_t) :
    keeps_entities db (database_save_entity rc db entity).1 := by
  rcases entity with _ | e
  · have : (database_save_entity rc db none).1 = db := by
      rcases db with _ | ⟨_ | s, path⟩ <;> rfl
    rw [this]
    exact keeps_entities_refl db
  · rcases entity_rows_save rc db e with h | h
    · exact keeps_entities_of_ids (by unfold cached_ids; rw [h])
    · unfold keeps_entities cached_ids
      rw [h]
      constructor
      · intro id hid
        obtain ⟨r, hr, hrid⟩ := List.mem_map.mp hid
        by_cases heq : r.entity_id = e.entity_id
        · rw [← hrid, heq]
          exact List.mem_map.mpr ⟨e, by simp, rfl⟩
        · exact List.mem_map.mpr ⟨r, by simp [hr, heq], hrid⟩
      · intro hn
        rw [List.map_append, List.nodup_append]
        refine ⟨(((List.filter_sublist _).map _).nodup hn), by simp, ?_⟩
        intro x hx hx'
        simp only [List.map_cons, List.map_nil, List.mem_singleton] at hx'
        obtain ⟨r, hr, hrid⟩ := List.mem_map.mp hx
        have hne : r.entity_id ≠ e.entity_id := by
          have := (List.mem_filter.mp hr).2
          simpa using this
        exact hne (hrid.trans hx')

theorem keeps_entities_save_loop (rc : Nat → stmt_outcome) (es : List ha_entity_t) (i : Nat)
    (db : Option database_t) (saved : Int) :
    keeps_entities db (database_save_entities_loop rc es i db saved).1 := by
  induction es generalizing i db saved with
  | nil => exact keeps_entities_refl db
  | cons e rest ih =>
    simp only [database_save_entities_loop]
    exact keeps_entities_trans (keeps_entities_save (rc i) db (some e)) (ih _ _ _)

theorem keeps_entities_save_entities (rc : Nat → stmt_outcome) (db : Option database_t)
    (es : Option (List ha_entity_t)) (n : Int) :
    keeps_entities db (database_save_entities rc db es n).1 := by
  rcases db with _ | ⟨_ | s, path⟩ <;> rcases es with _ | l <;>
    try exact keeps_entities_refl _
  simp only [database_save_entities]
  split_ifs
  · exact keeps_entities_refl _
  · exact keeps_entities_save_loop rc _ 0 _ 0

theorem entity_rows_favorites (rc : stmt_outcome) (t : c_string) (db : Option database_t)
    (id : Option c_string) :
    entity_rows (database_add_favorite rc t db id).1 = entity_rows db ∧
    entity_rows (database_remove_favorite rc db id).1 = entity_rows db := by
  rcases db with _ | ⟨_ | s, path⟩ <;> rcases id with _ | x <;> cases rc <;>
    first
      | exact ⟨rfl, rfl⟩
      | (refine ⟨?_, rfl⟩
         simp only [database_add_favorite]
         split_ifs <;> rfl)

theorem keeps_entities_sync (lib : cjson_lib) (env : sync_env) (m : cache_manager_t) :
    keeps_entities m.db (manager_db (cache_manager_sync lib env (some m)).1) := by
  rcases hc : m.ha_client with _ | c
  · have : cache_manager_sync lib env (some m) = (some m, -1) := by
      simp [cache_manager_sync, hc]
    rw [this]
    exact keeps_entities_refl _
  · rcases hs : env.get_states with _ | r
    · have : cache_manager_sync lib env (some m) = (some { m with online := 0 }, -1) := by
        simp [cache_manager_sync, hc, hs]
      rw [this]
      exact keeps_entities_refl _
    · by_cases hsucc : r.success = 0
      · have : cache_manager_sync lib env (some m) = (some { m with online := 0 }, -1) := by
          simp [cache_manager_sync, hc, hs, hsucc]
        rw [this]
        exact keeps_entities_refl _
      · rcases hp : parse_entities_array lib r.data 0 with ⟨_ | es, n⟩
        · have : cache_manager_sync lib env (some m) = (some m, -1) := by
            simp [cache_manager_sync, hc, hs, hsucc, hp]
          rw [this]
          exact keeps_entities_refl _
        · obtain ⟨merged, hsync, hrows, _⟩ :=
            cache_manager_sync_success lib env m c r es n hc hs hsucc hp
          rw [hsync]
          refine keeps_entities_trans (keeps_entities_save_entities env.save_rc m.db (some es) n)
            (keeps_entities_trans (keeps_entities_of_ids (cached_ids_of_without_area hrows))
              (keeps_entities_of_ids ?_))
          simp only [manager_db, Option.bind, cached_ids]
          rw [entity_rows_set_metadata]

/-- C26: whatever the hub and the engine answer, every `entity_id` cached
before `cache_manager_sync`, `cache_manager_sync_if_needed`,
`cache_manager_refresh_entity`, `cache_manager_update_entity_state` or a
favorite operation is cached afterwards, and the primary key of table entities
is kept; so the entity count of a table that keeps its primary key does not
decrease. -/
theorem coordinator_keeps_entities (lib : cjson_lib) (senv : sync_env) (renv : refresh_env)
    (now : Int) (q rc : stmt_outcome) (t : c_string) (m : cache_manager_t)
    (id st : Option c_string) :
    keeps_entities m.db (manager_db (cache_manager_sync lib senv (some m)).1) ∧
    keeps_entities m.db (manager_db (cache_manager_sync_if_needed lib now senv (some m)).1) ∧
    keeps_entities m.db (manager_db (cache_manager_refresh_entity lib renv (some m) id).1) ∧
    keeps_entities m.db
      (manager_db (cache_manager_update_entity_state q rc (some m) id st).1) ∧
    keeps_entities m.db (manager_db (cache_manager_add_favorite rc t (some m) id).1) ∧
    keeps_entities m.db (manager_db (cache_manager_remove_favorite rc (some m) id).1) ∧
    keeps_entities m.db (manager_db (cache_manager_toggle_favorite q rc t (some m) id).1) ∧
    (∀ db db' : Option database_t, keeps_entities db db' → (cached_ids db).Nodup →
      database_get_entity_count .ok db ≤ database_get_entity_count .ok db') := by
  have hfav := fun (x : Option c_string) => entity_rows_favorites rc t m.db x
  refine ⟨keeps_entities_sync lib senv m, ?_, ?_, ?_, ?_, ?_, ?_, ?_⟩
  · simp only [cache_manager_sync_if_needed]
    split_ifs
    · exact keeps_entities_refl _
    · exact keeps_entities_sync lib senv m
  · rcases id with _ | x
    · exact keeps_entities_refl _
    · simp only [cache_manager_refresh_entity]
      split
      · exact keeps_entities_refl _
      · split
        · exact keeps_entities_refl _
        · split
          · exact keeps_entities_refl _
          · split
            · exact keeps_entities_save _ _ _
            · exact keeps_entities_refl _
  · rcases id with _ | x <;> rcases st with _ | y <;> try exact keeps_entities_refl _
    simp only [cache_manager_update_entity_state]
    split
    · exact keeps_entities_refl _
    · exact keeps_entities_save _ _ _
  · rcases id with _ | x
    · exact keeps_entities_refl _
    · exact keeps_entities_of_ids (by
        simp only [cache_manager_add_favorite, manager_db, Option.bind, cached_ids]
        rw [(hfav (some x)).1])
  · rcases id with _ | x
    · exact keeps_entities_refl _
    · exact keeps_entities_of_ids (by
        simp only [cache_manager_remove_favorite, manager_db, Option.bind, cached_ids]
        rw [(hfav (some x)).2])
  · rcases id with _ | x
    · exact keeps_entities_refl _
    · simp only [cache_manager_toggle_favorite]
      split
      · exact keeps_entities_of_ids (by
          simp only [manager_db, Option.bind, cached_ids]
          rw [(hfav (some x)).2])
      · exact keeps_entities_of_ids (by
          simp only [manager_db, Option.bind, cached_ids]
          rw [(hfav (some x)).1])
  · intro db db' hk hn
    rw [database_get_entity_count_ok, database_get_entity_count_ok]
    have hsub : cached_ids db ⊆ cached_ids db' := fun x hx => hk.1 x hx
    have hle := (List.subperm_of_subset hn hsub).length_le
    simp only [cached_ids, List.length_map] at hle
    exact_mod_cast hle

/-- Witness of C26: the sample manager is synced against the sample hub over a
store that rejects every write; both cached ids are still cached. -/
theorem coordinator_keeps_entities_witness :
    cached_ids sample_manager.db = ["sensor.temp".toList, "light.kitchen".toList] ∧
    (cached_ids sample_manager.db).Nodup ∧
    database_get_entity_count .ok sample_manager.db ≤
      database_get_entity_count .ok
        (manager_db (cache_manager_sync sample_lib sample_env_store_rejects
          (some sample_manager)).1) :=
  ⟨by decide, by decide,
    (coordinator_keeps_entities sample_lib sample_env_store_rejects ⟨none, .ok, .ok⟩ 0 .ok .ok
      [] sample_manager none none).2.2.2.2.2.2.2 _ _
      (coordinator_keeps_entities sample_lib sample_env_store_rejects ⟨none, .ok, .ok⟩ 0 .ok .ok
        [] sample_manager none none).1 (by decide)⟩

/-! ### The sync interval -/

theorem sync_interval_sync (lib : cjson_lib) (env : sync_env) (m m' : cache_manager_t)
    (h : (cache_manager_sync lib env (some m)).1 = some m') :
    m'.sync_interval = m.sync_interval := by
  rcases hc : m.ha_client with _ | c
  · simp [cache_manager_sync, hc] at h
    rw [← h]
  · rcases hs : env.get_states with _ | r
    · simp [cache_manager_sync, hc, hs] at h
      rw [← h]
    · by_cases hsucc : r.success = 0
      · simp [cache_manager_sync, hc, hs, hsucc] at h
        rw [← h]
      · rcases hp : parse_entities_array lib r.data 0 with ⟨_ | es, n⟩
        · simp [cache_manager_sync, hc, hs, hsucc, hp] at h
          rw [← h]
        · obtain ⟨merged, hsync, _, _⟩ :=
            cache_manager_sync_success lib env m c r es n hc hs hsucc hp
          rw [hsync] at h
          simp only [Option.some.injEq] at h
          rw [← h]

theorem sync_interval_of_session {manager : Option cache_manager_t} {m m' : cache_manager_t}
    (hm : manager = some m')
    (h : manager.map session_state = (some m).map session_state) :
    m'.sync_interval = m.sync_interval := by
  rw [hm] at h
  simp only [Option.map_some', Option.some.injEq, session_state, Prod.mk.injEq] at h
  exact h.2.2

theorem session_state_refresh (lib : cjson_lib) (env : refresh_env) (m : cache_manager_t)
    (id : Option c_string) :
    (cache_manager_refresh_entity lib env (some m) id).1.map session_state =
      (some m).map session_state := by
  rcases id with _ | x
  · rfl
  · simp only [cache_manager_refresh_entity]
    split
    · rfl
    · split
      · rfl
      · split
        · rfl
        · split <;> rfl

theorem session_state_update (q rc : stmt_outcome) (m : cache_manager_t)
    (id st : Option c_string) :
    (cache_manager_update_entity_state q rc (some m) id st).1.map session_state =
      (some m).map session_state := by
  rcases id with _ | x <;> rcases st with _ | y <;> try rfl
  simp only [cache_manager_update_entity_state]
  split <;> rfl

theorem session_state_toggle (q rc : stmt_outcome) (t : c_string) (m : cache_manager_t)
    (id : Option c_string) :
    (cache_manager_toggle_favorite q rc t (some m) id).1.map session_state =
      (some m).map session_state := by
  rcases id with _ | x
  · rfl
  · simp only [cache_manager_toggle_favorite]
    split <;> rfl

/-- C27: every manager reachable from `cache_manager_create` by any sequence
of operations has `sync_interval >= 60`.  The interval starts at 300;
`cache_manager_set_sync_interval` sets it to `s` when `s >= 60` and leaves the
manager as it is when `s < 60`; a sync, a conditional sync, a refresh, a state
update and the favorite operations do not modify it. -/
theorem sync_interval_floor :
    (∀ m, reachable m → 60 ≤ m.sync_interval) ∧
    (∀ q db client m, cache_manager_create q db client = some m → m.sync_interval = 300) ∧
    (∀ (m : cache_manager_t) (s : Int), 60 ≤ s →
      cache_manager_set_sync_interval (some m) s = some { m with sync_interval := s }) ∧
    (∀ (m : cache_manager_t) (s : Int), s < 60 →
      cache_manager_set_sync_interval (some m) s = some m) ∧
    (∀ lib env now m m', ((cache_manager_sync lib env (some m)).1 = some m' ∨
        (cache_manager_sync_if_needed lib now env (some m)).1 = some m') →
      m'.sync_interval = m.sync_interval) ∧
    (∀ lib (renv : refresh_env) q rc t id st (m m' : cache_manager_t),
      ((cache_manager_refresh_entity lib renv (some m) id).1 = some m' ∨
        (cache_manager_update_entity_state q rc (some m) id st).1 = some m' ∨
        (cache_manager_add_favorite rc t (some m) id).1 = some m' ∨
        (cache_manager_remove_favorite rc (some m) id).1 = some m' ∨
        (cache_manager_toggle_favorite q rc t (some m) id).1 = some m') →
      m'.sync_interval = m.sync_interval) := by
  have hcreate : ∀ q db client m, cache_manager_create q db client = some m →
      m.sync_interval = 300 := by
    intro q db client m h
    rcases db with _ | d
    · simp [cache_manager_create] at h
    · simp only [cache_manager_create] at h
      split at h <;> (simp only [Option.some.injEq] at h; rw [← h]; rfl)
  have hset1 : ∀ (m : cache_manager_t) (s : Int), 60 ≤ s →
      cache_manager_set_sync_interval (some m) s = some { m with sync_interval := s } := by
    intro m s hs
    simp [cache_manager_set_sync_interval, hs]
  have hset2 : ∀ (m : cache_manager_t) (s : Int), s < 60 →
      cache_manager_set_sync_interval (some m) s = some m := by
    intro m s hs
    have : ¬ s ≥ 60 := by omega
    simp [cache_manager_set_sync_interval, this]
  have hsync : ∀ lib env now m m', ((cache_manager_sync lib env (some m)).1 = some m' ∨
      (cache_manager_sync_if_needed lib now env (some m)).1 = some m') →
      m'.sync_interval = m.sync_interval := by
    intro lib env now m m' h
    rcases h with h | h
    · exact sync_interval_sync lib env m m' h
    · simp only [cache_manager_sync_if_needed] at h
      split_ifs at h
      · simp only [Option.some.injEq] at h
        rw [← h]
      · exact sync_interval_sync lib env m m' h
  have hother : ∀ lib (renv : refresh_env) q rc t id st (m m' : cache_manager_t),
      ((cache_manager_refresh_entity lib renv (some m) id).1 = some m' ∨
        (cache_manager_update_entity_state q rc (some m) id st).1 = some m' ∨
        (cache_manager_add_favorite rc t (some m) id).1 = some m' ∨
        (cache_manager_remove_favorite rc (some m) id).1 = some m' ∨
        (cache_manager_toggle_favorite q rc t (some m) id).1 = some m') →
      m'.sync_interval = m.sync_interval := by
    intro lib renv q rc t id st m m' h
    rcases h with h | h | h | h | h
    · exact sync_interval_of_session h (session_state_refresh lib renv m id)
    · exact sync_interval_of_session h (session_state_update q rc m id st)
    · rcases id with _ | x
      · simp only [cache_manager_add_favorite, Option.some.injEq] at h; rw [← h]
      · simp only [cache_manager_add_favorite, Option.some.injEq] at h; rw [← h]
    · rcases id with _ | x
      · simp only [cache_manager_remove_favorite, Option.some.injEq] at h; rw [← h]
      · simp only [cache_manager_remove_favorite, Option.some.injEq] at h; rw [← h]
    · exact sync_interval_of_session h (session_state_toggle q rc t m id)
  refine ⟨?_, hcreate, hset1, hset2, hsync, hother⟩
  intro m hm
  induction hm with
  | create q db client m h => rw [hcreate q db client m h]; decide
  | set_sync_interval m m' s _ h ih =>
    by_cases hs : 60 ≤ s
    · rw [hset1 m s hs] at h
      simp only [Option.some.injEq] at h
      rw [← h]
      exact hs
    · rw [hset2 m s (by omega)] at h
      simp only [Option.some.injEq] at h
      rw [← h]
      exact ih
  | sync lib env m m' _ h ih => rw [hsync lib env 0 m m' (Or.inl h)]; exact ih
  | sync_if_needed lib now env m m' _ h ih => rw [hsync lib env now m m' (Or.inr h)]; exact ih
  | refresh_entity lib env id m m' _ h ih =>
    rw [hother lib env .ok .ok [] id none m m' (Or.inl h)]; exact ih
  | update_entity_state q rc id st m m' _ h ih =>
    rw [hother sample_lib sample_refresh_garbage q rc [] id st m m' (Or.inr (Or.inl h))]
    exact ih
  | add_favorite rc t id m m' _ h ih =>
    rw [hother sample_lib sample_refresh_garbage .ok rc t id none m m'
      (Or.inr (Or.inr (Or.inl h)))]
    exact ih
  | remove_favorite rc id m m' _ h ih =>
    rw [hother sample_lib sample_refresh_garbage .ok rc [] id none m m'
      (Or.inr (Or.inr (Or.inr (Or.inl h))))]
    exact ih
  | toggle_favorite q rc t id m m' _ h ih =>
    rw [hother sample_lib sample_refresh_garbage q rc t id none m m'
      (Or.inr (Or.inr (Or.inr (Or.inr h))))]
    exact ih

/-- Witness of C27: a manager is created over the sample database, its
interval is set to 120, and a request for 30 is then turned down. -/
theorem sync_interval_floor_witness :
    cache_manager_create .ok (some sample_db) (some sample_client) =
      some { sample_manager with last_sync := 1000 } ∧
    cache_manager_set_sync_interval
      (cache_manager_set_sync_interval (some sample_manager) 120) 30 =
      some { sample_manager with sync_interval := 120 } ∧
    60 ≤ ({ sample_manager with sync_interval := 120 } : cache_manager_t).sync_interval :=
  ⟨by decide, by decide,
    sync_interval_floor.1 _
      (reachable.set_sync_interval sample_manager _ 120
        (reachable.create .ok (some sample_db) (some sample_client) sample_manager
          (by decide)) (by decide))⟩

/-- Witness of amended C24: the NULL id on the sample manager. -/
theorem toggle_favorite_error_value_witness :
    cache_manager_toggle_favorite .ok .ok [] (some sample_manager) none =
      (some sample_manager, -1) ∧
    ((cache_manager_toggle_favorite .ok .ok [] (some sample_manager)
      (some "kitchen".toList)).2 = -1 ↔ (some "kitchen".toList : Option c_string) = none) :=
  ⟨(toggle_favorite_error_value .ok .ok [] sample_manager).1,
    (toggle_favorite_error_value .ok .ok [] sample_manager).2.2.2 (some "kitchen".toList)⟩

/-! ### The body of a service call -/

/-- C28, as the code has it: for parameters that are an object text, an opening
brace, `members` and a closing brace, the POST body that
`ha_client_call_service` builds with an entity id is the text
`{"entity_id":"<id>",<members>}}`: it ends in two closing braces, because only
the opening brace of the parameters is skipped and the format closes the object
once more.  With an entity id only the body is `{"entity_id":"<id>"}`, with
parameters only it is the parameters, with neither it is `{}` (each when the
text fits the buffer of 1024 bytes). -/
theorem call_service_body_double_brace (d sv id members : c_string) :
    (id.length + members.length + 18 ≤ 1023 →
      (ha_client_call_service (some d) (some sv) (some id)
          (some (lbrace :: members ++ [rbrace]))).map Prod.snd =
        some ([lbrace, dquote] ++ "entity_id".toList ++ [dquote, ':', dquote] ++ id ++
          [dquote, ','] ++ members ++ [rbrace, rbrace])) ∧
    (id.length + 16 ≤ 1023 →
      (ha_client_call_service (some d) (some sv) (some id) none).map Prod.snd =
        some ([lbrace, dquote] ++ "entity_id".toList ++ [dquote, ':', dquote] ++ id ++
          [dquote, rbrace])) ∧
    (members.length < 1023 →
      (ha_client_call_service (some d) (some sv) none (some members)).map Prod.snd =
        some members) ∧
    (ha_client_call_service (some d) (some sv) none none).map Prod.snd =
      some [lbrace, rbrace] := by
  refine ⟨?_, ?_, ?_, rfl⟩
  · intro h
    have h9 : "entity_id".toList.length = 9 := by decide
    have hd : List.drop 1 (lbrace :: members ++ [rbrace]) = members ++ [rbrace] := rfl
    simp only [ha_client_call_service, Option.map_some', Option.some.injEq, snprintf_buf, hd]
    rw [List.take_of_length_le]
    · simp
    · simp only [List.length_append, List.length_cons, List.length_nil, h9]
      omega
  · intro h
    simp only [ha_client_call_service, Option.map_some', Option.some.injEq, snprintf_buf]
    have h9 : "entity_id".toList.length = 9 := by decide
    rw [List.take_of_length_le]
    simp only [List.length_append, List.length_cons, List.length_nil, h9]
    omega
  · intro h
    simp only [ha_client_call_service, Option.map_some', Option.some.injEq, strncpy]
    exact List.take_of_length_le (by omega)

/-- The example of `ha_client.h` for C28: entity light.living_room with the
parameters `{"brightness": 128}` gives a body that ends in two closing braces,
not the object `{"entity_id":"light.living_room","brightness": 128}`. -/
theorem call_service_body_double_brace_witness :
    sample_service_id.length + sample_params_members.length + 18 ≤ 1023 ∧
    sample_params = lbrace :: sample_params_members ++ [rbrace] ∧
    (ha_client_call_service (some "light".toList) (some "turn_on".toList)
        (some sample_service_id) (some (lbrace :: sample_params_members ++ [rbrace]))).map
        Prod.snd =
      some ([lbrace, dquote] ++ "entity_id".toList ++ [dquote, ':', dquote] ++
        sample_service_id ++ [dquote, ','] ++ sample_params_members ++ [rbrace, rbrace]) ∧
    ha_client_call_service (some "light".toList) (some "turn_on".toList)
        (some sample_service_id) (some sample_params) =
      some ("/api/services/light/turn_on".toList,
        "\x7b\"entity_id\":\"light.living_room\",\"brightness\": 128\x7d\x7d".toList) ∧
    (ha_client_call_service (some "light".toList) (some "turn_on".toList)
        (some sample_service_id) (some sample_params)).map Prod.snd ≠
      some "\x7b\"entity_id\":\"light.living_room\",\"brightness\": 128\x7d".toList :=
  ⟨by decide, by decide,
    (call_service_body_double_brace "light".toList "turn_on".toList sample_service_id
      sample_params_members).1 (by decide),
    by decide, by decide⟩

/-! ### The persisted time of the last sync -/

theorem digit_value_digitChar (k : Nat) (hk : k < 10) :
    digit_value (Nat.digitChar k) = some (k : Int) ∧ isspace (Nat.digitChar k) = false ∧
      Nat.digitChar k ≠ '-' ∧ Nat.digitChar k ≠ '+' := by
  interval_cases k <;> decide

theorem atol_digits_cons (c : Char) (d : Int) (rest : c_string) (acc : Int)
    (h : digit_value c = some d) :
    atol_digits (c :: rest) acc = atol_digits rest (acc * 10 + d) := by
  rw [atol_digits, h]

theorem atol_digits_toDigitsCore (fuel : Nat) : ∀ (n : Nat) (ds : List Char), n < fuel →
    ∃ c l, Nat.toDigitsCore 10 fuel n ds = c :: (l ++ ds) ∧ isspace c = false ∧ c ≠ '-' ∧
      c ≠ '+' ∧
      ∀ rest acc, atol_digits (c :: (l ++ rest)) acc =
        atol_digits rest (acc * 10 ^ (l.length + 1) + n) := by
  induction fuel with
  | zero => intro n ds h; omega
  | succ fuel ih =>
    intro n ds h
    have hd := digit_value_digitChar (n % 10) (Nat.mod_lt _ (by decide))
    by_cases h0 : n / 10 = 0
    · refine ⟨Nat.digitChar (n % 10), [], ?_, hd.2.1, hd.2.2.1, hd.2.2.2, ?_⟩
      · simp [Nat.toDigitsCore, h0]
      · intro rest acc
        have hn : n % 10 = n := Nat.mod_eq_of_lt (by omega)
        rw [List.nil_append, atol_digits_cons _ _ _ _ hd.1, hn]
        simp
    · obtain ⟨c, l, hl, h1, h2, h3, h4⟩ := ih (n / 10) (Nat.digitChar (n % 10) :: ds) (by omega)
      refine ⟨c, l ++ [Nat.digitChar (n % 10)], ?_, h1, h2, h3, ?_⟩
      · simp [Nat.toDigitsCore, h0, hl]
      · intro rest acc
        have := h4 (Nat.digitChar (n % 10) :: rest) acc
        rw [List.append_assoc, List.singleton_append, this, atol_digits_cons _ _ _ _ hd.1]
        congr 1
        have h10 : (n : Int) = 10 * ((n / 10 : Nat) : Int) + ((n % 10 : Nat) : Int) := by
          exact_mod_cast (Nat.div_add_mod n 10).symm
        rw [List.length_append, List.length_singleton, pow_succ (10 : Int) (l.length + 1)]
        linarith

theorem atol_value_snprintf_ld (n : Int) : atol_value (snprintf_ld n) = n := by
  rcases n with m | m
  · obtain ⟨c, l, hl, h1, h2, h3, h4⟩ := atol_digits_toDigitsCore (m + 1) m [] (by omega)
    have hs : snprintf_ld (Int.ofNat m) = c :: l := by
      rw [← List.append_nil l, ← hl]
      rfl
    have h5 := h4 [] 0
    rw [List.append_nil] at h5
    rw [hs, atol_value]
    simp only [List.dropWhile, h1]
    split
    · rename_i heq; exact absurd (List.cons.inj heq).1 h2
    · rename_i heq; exact absurd (List.cons.inj heq).1 h3
    · rw [h5]; simp [atol_digits]
  · obtain ⟨c, l, hl, h1, h2, h3, h4⟩ := atol_digits_toDigitsCore (m + 2) (m + 1) [] (by omega)
    have hs : snprintf_ld (Int.negSucc m) = '-' :: c :: l := by
      rw [← List.append_nil l, ← hl]
      rfl
    have h5 := h4 [] 0
    rw [List.append_nil] at h5
    have hsp : isspace '-' = false := by decide
    rw [hs, atol_value]
    simp only [List.dropWhile, hsp]
    rw [h5]
    simp [atol_digits, Int.negSucc_eq]

/-- What `snprintf` writes with `%ld` for a `long`, `atol` reads back. -/
theorem atol_snprintf_ld (n : Int) (h1 : LONG_MIN ≤ n) (h2 : n ≤ LONG_MAX) :
    atol (snprintf_ld n) = n := by
  rw [atol, atol_value_snprintf_ld, min_eq_right h2, max_eq_right h1]

theorem atol_range (s : c_string) : LONG_MIN ≤ atol s ∧ atol s ≤ LONG_MAX := by
  unfold atol
  refine ⟨le_max_left _ _, max_le (by decide) (min_le_left _ _)⟩

theorem store_frame_save_entity (rc : stmt_outcome) (db : Option database_t)
    (e : Option ha_entity_t) :
    store_open (database_save_entity rc db e).1 = store_open db ∧
    metadata_rows (database_save_entity rc db e).1 = metadata_rows db := by
  rcases db with _ | ⟨_ | s, path⟩ <;> rcases e with _ | e <;> cases rc <;> exact ⟨rfl, rfl⟩

theorem store_frame_save_loop (rc : Nat → stmt_outcome) (es : List ha_entity_t) (i : Nat)
    (db : Option database_t) (saved : Int) :
    store_open (database_save_entities_loop rc es i db saved).1 = store_open db ∧
    metadata_rows (database_save_entities_loop rc es i db saved).1 = metadata_rows db := by
  induction es generalizing i db saved with
  | nil => exact ⟨rfl, rfl⟩
  | cons e rest ih =>
    simp only [database_save_entities_loop]
    have h := store_frame_save_entity (rc i) db (some e)
    exact ⟨(ih _ _ _).1.trans h.1, (ih _ _ _).2.trans h.2⟩

theorem store_frame_save_entities (rc : Nat → stmt_outcome) (db : Option database_t)
    (es : Option (List ha_entity_t)) (n : Int) :
    store_open (database_save_entities rc db es n).1 = store_open db ∧
    metadata_rows (database_save_entities rc db es n).1 = metadata_rows db := by
  unfold database_save_entities
  split
  · split_ifs
    · exact ⟨rfl, rfl⟩
    · exact store_frame_save_loop _ _ _ _ _
  · exact ⟨rfl, rfl⟩

theorem store_frame_update_area (rc : stmt_outcome) (db : Option database_t)
    (entity_id area_id : Option c_string) :
    store_open (database_update_entity_area rc db entity_id area_id).1 = store_open db ∧
    metadata_rows (database_update_entity_area rc db entity_id area_id).1 =
      metadata_rows db := by
  rcases db with _ | ⟨_ | s, path⟩ <;> rcases entity_id with _ | id <;> cases rc <;>
    exact ⟨rfl, rfl⟩

theorem store_frame_areas_loop (rc : Nat → stmt_outcome) (fuel : Nat) (ptr : c_string)
    (db : Option database_t) (updated : Nat) :
    store_open (parse_and_update_areas_loop rc fuel ptr db updated).1 = store_open db ∧
    metadata_rows (parse_and_update_areas_loop rc fuel ptr db updated).1 =
      metadata_rows db := by
  induction fuel generalizing ptr db updated with
  | zero => exact ⟨rfl, rfl⟩
  | succ k ih =>
    unfold parse_and_update_areas_loop
    split
    · exact ⟨rfl, rfl⟩
    · dsimp only
      split_ifs
      · exact ih _ _ _
      · split
        · exact ih _ _ _
        · split_ifs
          · exact ih _ _ _
          · exact ⟨(ih _ _ _).1.trans (store_frame_update_area _ _ _ _).1,
              (ih _ _ _).2.trans (store_frame_update_area _ _ _ _).2⟩
          · exact ih _ _ _

theorem store_frame_areas (rc : Nat → stmt_outcome) (db : Option database_t)
    (json : Option c_string) :
    store_open (parse_and_update_areas rc db json).1 = store_open db ∧
    metadata_rows (parse_and_update_areas rc db json).1 = metadata_rows db := by
  unfold parse_and_update_areas
  split
  · exact ⟨rfl, rfl⟩
  · split_ifs
    · exact ⟨rfl, rfl⟩
    · exact store_frame_areas_loop _ _ _ _ _

theorem get_metadata_value (db : Option database_t) (key : c_string) :
    database_get_metadata .ok db (some key) = metadata_value db key := by
  rcases db with _ | ⟨_ | s, path⟩ <;> rfl

theorem metadata_after_set (db : Option database_t) (k v : c_string)
    (h : store_open db = true) :
    store_open (database_set_metadata .ok db (some k) (some v)).1 = true ∧
    metadata_value (database_set_metadata .ok db (some k) (some v)).1 k = some v := by
  rcases db with _ | ⟨_ | s, path⟩
  · exact absurd h (by decide)
  · exact absurd h (by simp [store_open])
  · refine ⟨rfl, ?_⟩
    simp only [database_set_metadata, metadata_value, metadata_rows, List.find?_append]
    have hnone : (s.metadata.filter (fun r => r.key ≠ k)).find? (fun r => r.key = k) = none := by
      rw [List.find?_eq_none]
      intro r hr
      simpa using (List.mem_filter.mp hr).2
    rw [hnone]
    simp

theorem metadata_after_failed_set (rc : stmt_outcome) (hrc : rc ≠ .ok) (db : Option database_t)
    (k v : Option c_string) : (database_set_metadata rc db k v).1 = db := by
  rcases db with _ | ⟨_ | s, path⟩ <;> rcases k with _ | k <;> rcases v with _ | v <;>
    cases rc <;> first | rfl | exact absurd rfl hrc

theorem cache_manager_sync_store (lib : cjson_lib) (env : sync_env) (m : cache_manager_t)
    (h : 0 ≤ (cache_manager_sync lib env (some m)).2) :
    ∃ merged, store_open merged = store_open m.db ∧ metadata_rows merged = metadata_rows m.db ∧
      (cache_manager_sync lib env (some m)).1 =
        some { m with
          db := (database_set_metadata env.metadata_rc merged (some "last_sync".toList)
            (some (snprintf_ld env.time))).1
          last_sync := env.time
          online := 1 } := by
  rcases hc : m.ha_client with _ | c
  · simp [cache_manager_sync, hc] at h
  · rcases hs : env.get_states with _ | r
    · simp [cache_manager_sync, hc, hs] at h
    · by_cases hsucc : r.success = 0
      · simp [cache_manager_sync, hc, hs, hsucc] at h
      · rcases hp : parse_entities_array lib r.data 0 with ⟨_ | es, n⟩
        · simp [cache_manager_sync, hc, hs, hsucc, hp] at h
        · obtain ⟨hn, hne, _⟩ := parse_entities_array_some lib r.data es n hp
          have hn0 : n ≠ 0 := by
            have : es.length ≠ 0 := by simpa [List.length_eq_zero] using hne
            omega
          have hsave := store_frame_save_entities env.save_rc m.db (some es) n
          simp only [cache_manager_sync, hc, hs, hsucc, hp, if_false, Option.isNone_some,
            Bool.false_eq_true, hn0, or_self]
          rcases hreg : env.get_entity_registry with _ | a
          · exact ⟨_, hsave.1, hsave.2, rfl⟩
          · by_cases ha : a.success ≠ 0 ∧ a.data.isSome = true
            · have hareas := store_frame_areas env.area_rc
                (database_save_entities env.save_rc m.db (some es) n).1 a.data
              refine ⟨_, hareas.1.trans hsave.1, hareas.2.trans hsave.2, ?_⟩
              dsimp only; rw [if_pos ha]
            · refine ⟨_, hsave.1, hsave.2, ?_⟩
              dsimp only; rw [if_neg ha]

/-- C29 as stated fails: the sample manager is synced at clock 2000 against the
sample hub over a store that saves both entities and then fails the write of
the metadata key.  The sync returns 2 and the manager holds last_sync = 2000,
while the metadata value is still the text 1000, and a manager created
afterwards on that store starts at 1000.  And over a store whose key holds
the text 9223372036854775808, a new manager starts at `LONG_MAX`, one less
than the integer the text denotes. -/
theorem last_sync_stale_counterexample :
    (cache_manager_sync sample_lib sample_env_metadata_rejects (some sample_manager)).2 = 2 ∧
    (cache_manager_sync sample_lib sample_env_metadata_rejects (some sample_manager)).1.map
      (fun m => m.last_sync) = some 2000 ∧
    snprintf_ld 2000 = "2000".toList ∧
    database_get_metadata .ok
      (manager_db (cache_manager_sync sample_lib sample_env_metadata_rejects
        (some sample_manager)).1) (some "last_sync".toList) = some "1000".toList ∧
    (cache_manager_create .ok
      (manager_db (cache_manager_sync sample_lib sample_env_metadata_rejects
        (some sample_manager)).1) (some sample_client)).map (fun m => m.last_sync) =
      some 1000 ∧
    database_get_metadata .ok (some sample_db_beyond_long) (some "last_sync".toList) =
      some "9223372036854775808".toList ∧
    atol_value "9223372036854775808".toList = 9223372036854775808 ∧
    (cache_manager_create .ok (some sample_db_beyond_long) (some sample_client)).map
      (fun m => m.last_sync) = some 9223372036854775807 := by
  decide

/-- C29, amended: right after `cache_manager_create`, `last_sync` is what `atol`
reads from the value `database_get_metadata` returns for the key last_sync, and
0 when it returns NULL (key absent, or the read fails); `atol` gives the
integer the text denotes when that fits a `long`, and `LONG_MAX` or `LONG_MIN`
when it lies beyond; `online` is 1 exactly when a client was supplied, else 0.
A `cache_manager_sync` over an open store that returns a count sets `last_sync`
to the clock; when the write of the metadata key succeeds, the value of the
key is the decimal text of that `last_sync` and, the clock being a `time_t`, a
manager created afterwards on the store starts with the same `last_sync`; when
the write fails, whose result the sync does not look at, table metadata stays
as it was. -/
theorem last_sync_mirrors_metadata :
    (∀ q d client, ∃ m0, cache_manager_create q (some d) client = some m0 ∧
      m0.last_sync =
        ((database_get_metadata q (some d) (some "last_sync".toList)).map atol).getD 0 ∧
      (m0.online = 1 ↔ client.isSome = true) ∧ (m0.online = 0 ↔ client = none)) ∧
    (∀ db key, database_get_metadata .ok db (some key) = metadata_value db key) ∧
    (∀ s : c_string,
      (LONG_MIN ≤ atol_value s → atol_value s ≤ LONG_MAX → atol s = atol_value s) ∧
      (LONG_MAX < atol_value s → atol s = LONG_MAX) ∧
      (atol_value s < LONG_MIN → atol s = LONG_MIN)) ∧
    (∀ n : Int, atol_value (snprintf_ld n) = n) ∧
    (∀ n : Int, LONG_MIN ≤ n → n ≤ LONG_MAX → atol (snprintf_ld n) = n) ∧
    (∀ lib env m, store_open m.db = true → 0 ≤ (cache_manager_sync lib env (some m)).2 →
      (cache_manager_sync lib env (some m)).1.map (fun m' => m'.last_sync) = some env.time ∧
      (env.metadata_rc = .ok →
        metadata_value (manager_db (cache_manager_sync lib env (some m)).1)
          "last_sync".toList = some (snprintf_ld env.time) ∧
        (LONG_MIN ≤ env.time → env.time ≤ LONG_MAX →
          ∀ client, (cache_manager_create .ok
            (manager_db (cache_manager_sync lib env (some m)).1) client).map
              (fun m' => m'.last_sync) = some env.time)) ∧
      (env.metadata_rc ≠ .ok →
        metadata_rows (manager_db (cache_manager_sync lib env (some m)).1) =
          metadata_rows m.db)) := by
  refine ⟨?_, get_metadata_value, ?_, atol_value_snprintf_ld, atol_snprintf_ld, ?_⟩
  · intro q d client
    simp only [cache_manager_create]
    rcases hget : database_get_metadata q (some d) (some "last_sync".toList) with _ | v
    · refine ⟨_, rfl, rfl, ?_, ?_⟩ <;> rcases client with _ | c <;> simp
    · refine ⟨_, rfl, rfl, ?_, ?_⟩ <;> rcases client with _ | c <;> simp
  · intro s
    refine ⟨?_, ?_, ?_⟩
    · intro h1 h2
      rw [atol, min_eq_right h2, max_eq_right h1]
    · intro h
      rw [atol, min_eq_left (le_of_lt h), max_eq_right (by decide)]
    · intro h
      have hmax : atol_value s ≤ LONG_MAX := le_trans (le_of_lt h) (by decide)
      rw [atol, min_eq_right hmax, max_eq_left (le_of_lt h)]
  · intro lib env m hopen h
    obtain ⟨merged, ho, hrows, hsync⟩ := cache_manager_sync_store lib env m h
    rw [hsync]
    refine ⟨rfl, ?_, ?_⟩
    · intro hrc
      simp only [manager_db, Option.bind, hrc]
      have hset := metadata_after_set merged "last_sync".toList (snprintf_ld env.time)
        (ho.trans hopen)
      refine ⟨hset.2, ?_⟩
      intro ht1 ht2 client
      rcases hdb : (database_set_metadata .ok merged (some "last_sync".toList)
        (some (snprintf_ld env.time))).1 with _ | d
      · rw [hdb] at hset; exact absurd hset.1 (by decide)
      · rw [hdb] at hset
        simp only [cache_manager_create, get_metadata_value, hset.2, Option.map_some',
          atol_snprintf_ld env.time ht1 ht2]
    · intro hrc
      simp only [manager_db, Option.bind]
      rw [metadata_after_failed_set _ hrc, hrows]

/-- Witness of amended C29: the sample manager is synced at clock 2000 over a
working store; the key then reads 2000 and a new manager starts there. -/
theorem last_sync_mirrors_metadata_witness :
    store_open sample_manager.db = true ∧
    0 ≤ (cache_manager_sync sample_lib sample_env_areas (some sample_manager)).2 ∧
    sample_env_areas.metadata_rc = .ok ∧
    sample_env_areas.time = 2000 ∧
    LONG_MIN ≤ sample_env_areas.time ∧ sample_env_areas.time ≤ LONG_MAX ∧
    metadata_value (manager_db (cache_manager_sync sample_lib sample_env_areas
      (some sample_manager)).1) "last_sync".toList = some (snprintf_ld sample_env_areas.time) ∧
    (cache_manager_create .ok (manager_db (cache_manager_sync sample_lib sample_env_areas
      (some sample_manager)).1) none).map (fun m => m.last_sync) =
      some sample_env_areas.time :=
  ⟨by decide, by decide, rfl, rfl, by decide, by decide,
    ((last_sync_mirrors_metadata.2.2.2.2.2 sample_lib sample_env_areas sample_manager
      (by decide) (by decide)).2.1 rfl).1,
    ((last_sync_mirrors_metadata.2.2.2.2.2 sample_lib sample_env_areas sample_manager
      (by decide) (by decide)).2.1 rfl).2 (by decide) (by decide) none⟩

/-! ### The scan of the area payload ends -/

theorem strstr_bound (s m : c_string) (off : Nat) (h : strstr s m = some off) :
    off + m.length ≤ s.length := by
  induction s generalizing off with
  | nil =>
    simp only [strstr] at h
    split_ifs at h with hm
    cases h
    simp [hm]
  | cons x xs ih =>
    rw [strstr] at h
    split_ifs at h with hp
    · cases h
      have := (List.isPrefixOf_iff_prefix.mp hp).length_le
      omega
    · rcases hs : strstr xs m with _ | k
      · rw [hs] at h; cases h
      · rw [hs] at h
        cases h
        have := ih k hs
        simp only [List.length_cons]
        omega

theorem scan_quoted_length (ptr : c_string) (n : Nat) :
    (scan_quoted ptr n).length ≤ ptr.length ∧ (scan_quoted ptr n).length ≤ n := by
  unfold scan_quoted
  have h1 := (List.takeWhile_prefix (fun c => decide (c ≠ dquote)) (l := ptr)).length_le
  have h2 := List.length_take_le n (ptr.takeWhile (fun c => decide (c ≠ dquote)))
  have h3 := List.length_take_le' n (ptr.takeWhile (fun c => decide (c ≠ dquote)))
  exact ⟨by omega, h2⟩

theorem areas_loop_unfold (rc : Nat → stmt_outcome) (fuel : Nat) (ptr : c_string)
    (db : Option database_t) (updated : Nat) :
    parse_and_update_areas_loop rc (fuel + 1) ptr db updated =
      match parse_and_update_areas_step rc ptr db updated with
      | none => (db, updated)
      | some next => parse_and_update_areas_loop rc fuel next.1 next.2.1 next.2.2 := by
  rw [parse_and_update_areas_loop, parse_and_update_areas_step]
  split
  · rfl
  · dsimp only
    split_ifs
    · rfl
    · split
      · rfl
      · split_ifs <;> rfl

theorem areas_step_advance (rc : Nat → stmt_outcome) (ptr : c_string)
    (db : Option database_t) (updated : Nat) (next : c_string × Option database_t × Nat)
    (h : parse_and_update_areas_step rc ptr db updated = some next) :
    ∃ k, 5 ≤ k ∧ k ≤ ptr.length ∧ next.1 = ptr.drop k ∧
      ((next.2.1 = db ∧ next.2.2 = updated) ∨
        ∃ id area, next.2.1 = (database_update_entity_area (rc updated) db (some id)
          (some area)).1 ∧ next.2.2 = updated + 1) := by
  rw [parse_and_update_areas_step] at h
  rcases hs : strstr ptr marker_e with _ | off
  · rw [hs] at h; cases h
  · rw [hs] at h
    dsimp only at h
    have hoff : off + 5 ≤ ptr.length := strstr_bound ptr marker_e off hs
    have hid := (scan_quoted_length (ptr.drop (off + 5)) 127).1
    rw [List.length_drop] at hid
    split_ifs at h with hq
    · cases h
      exact ⟨off + 5 + (scan_quoted (ptr.drop (off + 5)) 127).length, by omega, by omega,
        by rw [List.drop_drop, Nat.add_comm], Or.inl ⟨rfl, rfl⟩⟩
    · have hne : (List.drop (scan_quoted (ptr.drop (off + 5)) 127).length
          (ptr.drop (off + 5))).length ≠ 0 := by
        intro h0
        rw [List.length_eq_zero] at h0
        rw [h0] at hq
        simp at hq
      rw [List.length_drop, List.length_drop] at hne
      have hk : ∀ d u, next = (List.drop 1 (List.drop (scan_quoted (ptr.drop (off + 5))
          127).length (ptr.drop (off + 5))), d, u) →
          ∃ k, 5 ≤ k ∧ k ≤ ptr.length ∧ next.1 = ptr.drop k := by
        intro d u hn
        refine ⟨off + 5 + (scan_quoted (ptr.drop (off + 5)) 127).length + 1, by omega,
          by omega, ?_⟩
        rw [hn, List.drop_drop, List.drop_drop]
        congr 1
      split at h
      · cases h
        obtain ⟨k, h1, h2, h3⟩ := hk _ _ rfl
        exact ⟨k, h1, h2, h3, Or.inl ⟨rfl, rfl⟩⟩
      · split_ifs at h
        · cases h
          obtain ⟨k, h1, h2, h3⟩ := hk _ _ rfl
          exact ⟨k, h1, h2, h3, Or.inl ⟨rfl, rfl⟩⟩
        · cases h
          obtain ⟨k, h1, h2, h3⟩ := hk _ _ rfl
          exact ⟨k, h1, h2, h3, Or.inr ⟨_, _, rfl, rfl⟩⟩
        · cases h
          obtain ⟨k, h1, h2, h3⟩ := hk _ _ rfl
          exact ⟨k, h1, h2, h3, Or.inl ⟨rfl, rfl⟩⟩

theorem areas_run_ends (rc : Nat → stmt_outcome) (fuel : Nat) :
    ∀ (ptr : c_string) (db : Option database_t) (updated : Nat), ptr.length < 5 * fuel →
      parse_and_update_areas_run rc fuel ptr db updated =
        some (parse_and_update_areas_loop rc fuel ptr db updated) := by
  induction fuel with
  | zero => intro ptr db updated h; omega
  | succ fuel ih =>
    intro ptr db updated h
    rw [parse_and_update_areas_run, areas_loop_unfold]
    rcases hstep : parse_and_update_areas_step rc ptr db updated with _ | next
    · rfl
    · obtain ⟨k, h1, h2, h3, _⟩ := areas_step_advance rc ptr db updated next hstep
      dsimp only
      apply ih
      rw [h3, List.length_drop]
      omega

theorem areas_run_more_fuel (rc : Nat → stmt_outcome) (fuel : Nat) :
    ∀ (ptr : c_string) (db : Option database_t) (updated : Nat)
      (r : Option database_t × Nat),
      parse_and_update_areas_run rc fuel ptr db updated = some r →
      parse_and_update_areas_run rc (fuel + 1) ptr db updated = some r := by
  induction fuel with
  | zero => intro ptr db updated r h; cases h
  | succ fuel ih =>
    intro ptr db updated r h
    rw [parse_and_update_areas_run] at h ⊢
    rcases hstep : parse_and_update_areas_step rc ptr db updated with _ | next
    · rw [hstep] at h; exact h
    · rw [hstep] at h
      exact ih _ _ _ _ h

/-- C30: the scanning loop of `parse_and_update_areas` ends on every text.  An
iteration that does not end the loop moves the scan position forward by `k`
chars with `5 <= k`, the length of the marker, and `k` at most the length of
the text left, so never past the terminating NUL; it leaves the database and
the update count alone or issues one `database_update_entity_area`.  So the
loop started on a text of fewer than `5 * fuel` chars ends within `fuel`
iterations, and the scan of a whole text `json` ends within `json.length`
iterations, with the same result whatever larger bound is given. -/
theorem areas_scan_terminates (rc : Nat → stmt_outcome) :
    (∀ ptr db updated next, parse_and_update_areas_step rc ptr db updated = some next →
      ∃ k, 5 ≤ k ∧ k ≤ ptr.length ∧ next.1 = ptr.drop k ∧
        ((next.2.1 = db ∧ next.2.2 = updated) ∨
          ∃ id area, next.2.1 = (database_update_entity_area (rc updated) db (some id)
            (some area)).1 ∧ next.2.2 = updated + 1)) ∧
    (∀ fuel ptr db updated, ptr.length < 5 * fuel →
      parse_and_update_areas_run rc fuel ptr db updated =
        some (parse_and_update_areas_loop rc fuel ptr db updated)) ∧
    (∀ db json (more : Nat), parse_and_update_areas_run rc (json.length + more) json db 0 =
      if json.length < 2 then
        (if json.length + more = 0 ∨ (parse_and_update_areas_step rc json db 0).isSome then none
          else some (parse_and_update_areas rc db (some json)))
      else some (parse_and_update_areas rc db (some json))) := by
  refine ⟨areas_step_advance rc, areas_run_ends rc, ?_⟩
  intro db json more
  have hstep : json.length < 5 → parse_and_update_areas_step rc json db 0 = none := by
    intro hlt
    rcases h : parse_and_update_areas_step rc json db 0 with _ | next
    · rfl
    · obtain ⟨k, h1, h2, _⟩ := areas_step_advance rc json db 0 next h
      omega
  split_ifs with h2 h0
  · rcases h0 with h0 | h0
    · have hj : json.length = 0 := by omega
      have hm : more = 0 := by omega
      rw [hj, hm]
      rfl
    · rw [hstep (by omega)] at h0
      cases h0
  · have hpos : json.length + more ≠ 0 := fun h => h0 (Or.inl h)
    obtain ⟨f, hf⟩ := Nat.exists_eq_succ_of_ne_zero hpos
    rw [hf, Nat.succ_eq_add_one, parse_and_update_areas_run, hstep (by omega)]
    simp [parse_and_update_areas, h2]
  · have hbase := areas_run_ends rc json.length json db 0 (by omega)
    have hmore : ∀ n, parse_and_update_areas_run rc (json.length + n) json db 0 =
        some (parse_and_update_areas_loop rc json.length json db 0) := by
      intro n
      induction n with
      | zero => exact hbase
      | succ n ih => exact areas_run_more_fuel rc _ _ _ _ _ ih
    rw [hmore]
    simp [parse_and_update_areas, h2]

/-- Witness of C30 on a malformed text, whose first quote is not closed, which
has no area field and ends right after a marker: the first iteration moves the
scan position from 43 chars left to 19, the scan ends within 43 iterations and
issues no update. -/
theorem areas_scan_terminates_witness :
    sample_malformed_areas.length = 43 ∧
    parse_and_update_areas_step (fun _ => .ok) sample_malformed_areas (some sample_db) 0 =
      some (sample_malformed_areas.drop 24, some sample_db, 0) ∧
    (∃ k, 5 ≤ k ∧ k ≤ sample_malformed_areas.length ∧
      sample_malformed_areas.drop 24 = sample_malformed_areas.drop k ∧
      ((some sample_db = some sample_db ∧ 0 = 0) ∨
        ∃ id area, some sample_db = (database_update_entity_area .ok (some sample_db) (some id)
          (some area)).1 ∧ 0 = 0 + 1)) ∧
    parse_and_update_areas_run (fun _ => .ok) 43 sample_malformed_areas (some sample_db) 0 =
      some (some sample_db, 0) :=
  ⟨by decide, by decide,
    (areas_scan_terminates (fun _ => .ok)).1 sample_malformed_areas (some sample_db) 0
      (sample_malformed_areas.drop 24, some sample_db, 0) (by decide),
    ((areas_scan_terminates (fun _ => .ok)).2.1 43 sample_malformed_areas (some sample_db) 0
      (by decide)).trans (by decide)⟩

/-! ### A sync from an empty cache -/

theorem cache_manager_sync_merged (lib : cjson_lib) (env : sync_env) (m : cache_manager_t)
    (c : ha_client_t) (r : ha_response_t) (es : List ha_entity_t) (n : Int)
    (a : ha_response_t)
    (hc : m.ha_client = some c) (hstates : env.get_states = some r) (hsucc : r.success ≠ 0)
    (hparse : parse_entities_array lib r.data 0 = (some es, n))
    (hreg : env.get_entity_registry = some a) (ha : a.success ≠ 0)
    (hd : a.data.isSome = true) :
    entity_rows (manager_db (cache_manager_sync lib env (some m)).1) =
      entity_rows (parse_and_update_areas env.area_rc
        (database_save_entities env.save_rc m.db (some es) n).1 a.data).1 := by
  obtain ⟨hn, hne, _⟩ := parse_entities_array_some lib r.data es n hparse
  have hn0 : n ≠ 0 := by
    have : es.length ≠ 0 := by simpa [List.length_eq_zero] using hne
    omega
  simp only [cache_manager_sync, hc, hstates, hsucc, hparse, if_false, Option.isNone_some,
    Bool.false_eq_true, hn0, or_self, hreg]
  rw [if_pos ⟨ha, hd⟩]
  simp only [manager_db, Option.bind]
  rw [entity_rows_set_metadata]

theorem wf_update_area (rc : stmt_outcome) (db : Option database_t) (id area : c_string)
    (harea : area.length ≤ 63) (h : ∀ e ∈ entity_rows db, ha_entity_wf e) :
    ∀ e ∈ entity_rows (database_update_entity_area rc db (some id) (some area)).1,
      ha_entity_wf e := by
  rcases db with _ | ⟨_ | s, path⟩
  · exact h
  · exact h
  · cases rc
    · intro e he
      simp only [database_update_entity_area, entity_rows, Option.getD_some,
        List.mem_map] at he
      obtain ⟨r0, hr0, rfl⟩ := he
      have hw := h r0 hr0
      split_ifs
      · obtain ⟨h1, h2, h3, h4, h5, _, h7, h8, h9, h10⟩ := hw
        exact ⟨h1, h2, h3, h4, h5, harea, h7, h8, h9, h10⟩
      · exact hw
    · exact h
    · exact h

theorem wf_areas_loop (rc : Nat → stmt_outcome) (fuel : Nat) (ptr : c_string)
    (db : Option database_t) (updated : Nat) (h : ∀ e ∈ entity_rows db, ha_entity_wf e) :
    ∀ e ∈ entity_rows (parse_and_update_areas_loop rc fuel ptr db updated).1,
      ha_entity_wf e := by
  induction fuel generalizing ptr db updated with
  | zero => exact h
  | succ k ih =>
    unfold parse_and_update_areas_loop
    split
    · exact h
    · dsimp only
      split_ifs
      · exact ih _ _ _ h
      · split
        · exact ih _ _ _ h
        · split_ifs
          · exact ih _ _ _ h
          · exact ih _ _ _ (wf_update_area _ _ _ _ (scan_quoted_length _ 63).2 h)
          · exact ih _ _ _ h

theorem wf_areas (rc : Nat → stmt_outcome) (db : Option database_t) (json : Option c_string)
    (h : ∀ e ∈ entity_rows db, ha_entity_wf e) :
    ∀ e ∈ entity_rows (parse_and_update_areas rc db json).1, ha_entity_wf e := by
  unfold parse_and_update_areas
  split
  · exact h
  · split_ifs
    · exact h
    · exact wf_areas_loop _ _ _ _ _ h

theorem areas_payload_run (rc : Nat → stmt_outcome) (db : Option database_t)
    (P S : c_string) (pairs : List (c_string × c_string))
    (hP : strstr P marker_e = none) (hS : strstr S marker_e = none)
    (hpairs : ∀ p ∈ pairs, area_pair_ok p) :
    parse_and_update_areas rc db (some (area_payload P pairs S)) =
      area_updates rc pairs db 0 := by
  cases pairs with
  | nil =>
    have hlen : ¬ (P ++ '[' :: ']' :: S).length < 2 := by
      simp only [List.length_append, List.length_cons]; omega
    have hJ : strstr (P ++ ['[']) marker_e = none := by
      rw [strstr_pass P marker_e '[' [] hP (by decide)]
      rfl
    have htext : P ++ '[' :: ']' :: S = (P ++ ['[']) ++ ']' :: S := by simp
    simp only [parse_and_update_areas, area_payload, hlen, if_false]
    rw [htext, areas_loop_end rc _ _ S db 0 hJ hS]
    rfl
  | cons p ps =>
    have hrest := area_rest_text_length ps S
    have hlen : ¬ (P ++ '[' :: area_pair_text p (area_rest_text ps S)).length < 2 := by
      simp only [List.length_append, List.length_cons, area_pair_text]; omega
    have hfuel : ps.length + 2 ≤ (P ++ '[' :: area_pair_text p (area_rest_text ps S)).length := by
      simp only [List.length_append, List.length_cons, area_pair_text]; omega
    simp only [parse_and_update_areas, area_payload, hlen, if_false]
    exact areas_loop_pairs rc S hS ps p P '[' _ db 0 hpairs hP (by decide) hfuel

/-- C6 as stated fails: over the empty cache the states payload carries two
entity objects whose ids, of 128 chars each, differ in the last char only; the
sync returns 2, yet one row is cached and `cache_manager_get_entities` returns
one record.  And over the empty cache with the sample payload and an area
answer that names light.kitchen, the record returned for light.kitchen carries
the area "kitchen", which the record parsed from the payload does not. -/
theorem sync_long_ids_counterexample :
    sample_fresh_manager.db = some ⟨some ⟨[], [], []⟩, "/tmp/ha.db".toList⟩ ∧
    sample_long_lib.cJSON_Parse sample_long_body = some sample_long_json ∧
    sample_long_id 'a' ≠ sample_long_id 'b' ∧
    json_get_string (some (cJSON.Object [("entity_id".toList, .String (sample_long_id 'a')),
      ("state".toList, .String "on".toList)])) "entity_id".toList none =
        some (sample_long_id 'a') ∧
    json_get_string (some (cJSON.Object [("entity_id".toList, .String (sample_long_id 'b')),
      ("state".toList, .String "off".toList)])) "entity_id".toList none =
        some (sample_long_id 'b') ∧
    (cache_manager_sync sample_long_lib sample_env_long_ids (some sample_fresh_manager)).2 = 2 ∧
    cache_manager_get_entity_count .ok
      (cache_manager_sync sample_long_lib sample_env_long_ids (some sample_fresh_manager)).1 = 1 ∧
    (cache_manager_get_entities .ok .ok
      (cache_manager_sync sample_long_lib sample_env_long_ids (some sample_fresh_manager)).1
      0).2 = 1 ∧
    parse_entities_array sample_lib sample_states_response.data 0 =
      (some [parsed_light_kitchen, parsed_sensor_temp], 2) ∧
    cache_manager_get_entities .ok .ok
      (cache_manager_sync sample_lib sample_env_areas (some sample_fresh_manager)).1 0 =
      (some [{ parsed_light_kitchen with area_id := "kitchen".toList }, parsed_sensor_temp],
        2) :=
  ⟨rfl, by simp [sample_long_lib], by decide, by decide, by decide, by decide, by decide,
    by decide, by decide, by decide⟩

/-- C6, amended: over an empty cache and a working store, for a successful
states payload that is a JSON array of `n >= 1` entity objects whose ids are
distinct in their first 127 chars, the sync returns `n`, the entity count is
`n` afterwards, `last_sync` is the time of the sync, `online` is 1, and
`cache_manager_get_entities` returns `n` records in ascending order of
`friendly_name`.  They are exactly the parsed records when the area fetch
failed, and else exactly the rows that `parse_and_update_areas` leaves of the
parsed records: the parsed records up to `area_id`, and for an area payload of
well-formed pairs over working updates each record that a pair names carries
the area of the last pair that names it and each record that no pair names is
the parsed record itself. -/
theorem sync_end_to_end (lib : cjson_lib) (env : sync_env) (m : cache_manager_t)
    (c : ha_client_t) (s : sqlite3) (path : c_string) (r : ha_response_t) (body : c_string)
    (items : List cJSON)
    (hc : m.ha_client = some c) (hdb : m.db = some ⟨some s, path⟩) (hempty : s.entities = [])
    (hstates : env.get_states = some r) (hsucc : r.success ≠ 0) (hdata : r.data = some body)
    (hparse : lib.cJSON_Parse body = some (cJSON.Array items)) (hn : items ≠ [])
    (hitems : ∀ it ∈ items, is_entity_object it)
    (hdistinct : (items.map stored_id).Nodup)
    (hstore : ∀ i, env.save_rc i = .ok) :
    (cache_manager_sync lib env (some m)).2 = items.length ∧
    ∃ m', (cache_manager_sync lib env (some m)).1 = some m' ∧
      m'.last_sync = env.time ∧ m'.online = 1 ∧
      cache_manager_get_entity_count .ok (some m') = items.length ∧
      ∃ l, cache_manager_get_entities .ok .ok (some m') 0 = (some l, (items.length : Int)) ∧
        l.Sorted by_friendly_name ∧
        (l.map without_area).Perm
          ((items.filterMap (fun it => parse_entity_from_json lib (some it))).map
            without_area) ∧
        (area_fetch_failed env →
          l.Perm (items.filterMap (fun it => parse_entity_from_json lib (some it)))) ∧
        (∀ a, env.get_entity_registry = some a → a.success ≠ 0 → a.data.isSome = true →
          l.Perm (entity_rows (parse_and_update_areas env.area_rc
            (some ⟨some { s with
              entities := items.filterMap (fun it => parse_entity_from_json lib (some it)) },
              path⟩) a.data).1)) ∧
        (∀ a P pairs S, env.get_entity_registry = some a → a.success ≠ 0 →
          a.data = some (area_payload P pairs S) →
          strstr P marker_e = none → strstr S marker_e = none →
          (∀ p ∈ pairs, area_pair_ok p) → (∀ k, env.area_rc k = .ok) →
          l.Perm ((items.filterMap (fun it => parse_entity_from_json lib (some it))).map
            (area_after pairs)) ∧
          ∀ e ∈ l,
            (∀ pre p post, pairs = pre ++ p :: post → p.1 = e.entity_id →
              (∀ q ∈ post, q.1 ≠ e.entity_id) → e.area_id = p.2) ∧
            ((∀ q ∈ pairs, q.1 ≠ e.entity_id) →
              e ∈ items.filterMap (fun it => parse_entity_from_json lib (some it)))) := by
  have hids := parse_items_ids lib items hitems
  have hlen : (items.filterMap (fun it => parse_entity_from_json lib (some it))).length =
      items.length := by
    have := congrArg List.length hids
    simpa using this
  have hne : items.filterMap (fun it => parse_entity_from_json lib (some it)) ≠ [] := by
    intro h
    rw [h] at hlen
    exact hn (List.length_eq_zero.mp hlen.symm)
  have hp := parse_entities_array_of_array lib body items hparse hne
  rw [← hdata] at hp
  generalize hes : items.filterMap (fun it => parse_entity_from_json lib (some it)) = es
    at hids hlen hne hp ⊢
  obtain ⟨merged, hsync, hrows, hmerged⟩ :=
    cache_manager_sync_success lib env m c r es es.length hc hstates hsucc hp
  obtain ⟨_, _, hwf⟩ := parse_entities_array_some lib r.data es es.length hp
  have hsaved := save_entities_ok env.save_rc hstore s path es hne
  have hafter : rows_after_saves s.entities es = es := by
    rw [hempty, rows_after_saves_distinct [] es (by simpa [hids] using hdistinct)]
    rfl
  rw [hdb, hsaved, hafter] at hrows hmerged hsync
  simp only [entity_rows] at hrows
  have hareas : ∀ a, env.get_entity_registry = some a → a.success ≠ 0 →
      a.data.isSome = true →
      entity_rows merged = entity_rows (parse_and_update_areas env.area_rc
        (some ⟨some { s with entities := es }, path⟩) a.data).1 := by
    intro a hreg ha hd
    have h := cache_manager_sync_merged lib env m c r es es.length a hc hstates hsucc hp
      hreg ha hd
    rw [hsync, hdb, hsaved, hafter] at h
    simp only [manager_db, Option.bind] at h
    rw [entity_rows_set_metadata] at h
    exact h
  have hsort : ∀ rows : List ha_entity_t, (∀ e ∈ rows, ha_entity_wf e) →
      ((sql_order_by_friendly_name rows).map entity_from_row).Perm rows := by
    intro rows hrw
    have hwf' : ∀ e ∈ sql_order_by_friendly_name rows, ha_entity_wf e :=
      fun e he => hrw e ((sql_order_by_friendly_name_perm rows).mem_iff.mp he)
    rw [map_entity_from_row_of_wf _ hwf']
    exact sql_order_by_friendly_name_perm rows
  have hrlen : (entity_rows merged).length = es.length := by
    have := congrArg List.length hrows
    simpa using this
  have hrne : entity_rows merged ≠ [] := by
    intro h
    rw [h] at hrlen
    exact hne (List.length_eq_zero.mp hrlen.symm)
  rw [hsync]
  refine ⟨by rw [hlen], _, rfl, rfl, rfl, ?_, ?_⟩
  · simp only [cache_manager_get_entity_count]
    rw [database_get_entity_count_ok, entity_rows_set_metadata, hrlen, hlen]
  · refine ⟨(sql_order_by_friendly_name (entity_rows merged)).map entity_from_row,
      ?_, ?_, ?_, ?_, ?_, ?_⟩
    · simp only [cache_manager_get_entities]
      rw [database_get_all_entities_ok _ (by rw [entity_rows_set_metadata]; exact hrne),
        entity_rows_set_metadata, hrlen, hlen]
    · exact entity_from_row_sorted _ (sql_order_by_friendly_name_sorted _)
    · have h1 : ((sql_order_by_friendly_name (entity_rows merged)).map entity_from_row).map
          without_area =
          ((sql_order_by_friendly_name (entity_rows merged)).map without_area).map
            entity_from_row := by
        simp only [List.map_map]
        exact List.map_congr_left (fun x _ => without_area_entity_from_row x)
      have h2 : (es.map without_area).map entity_from_row = es.map without_area := by
        simp only [List.map_map]
        apply List.map_congr_left
        intro e he
        simp only [Function.comp]
        rw [← without_area_entity_from_row, entity_from_row_of_wf e (hwf e he)]
      rw [h1, ← h2, ← hrows]
      exact ((sql_order_by_friendly_name_perm _).map _).map _
    · intro harea
      have hm := hmerged harea
      have hrows' : entity_rows merged = es := by rw [hm]; rfl
      rw [hrows']
      have hwf' : ∀ e ∈ sql_order_by_friendly_name es, ha_entity_wf e :=
        fun e he => hwf e ((sql_order_by_friendly_name_perm es).mem_iff.mp he)
      rw [map_entity_from_row_of_wf _ hwf']
      exact sql_order_by_friendly_name_perm es
    · intro a hreg ha hd
      have hrows' := hareas a hreg ha hd
      rw [hrows']
      apply hsort
      exact wf_areas env.area_rc _ a.data (fun e he => hwf e he)
    · intro a P pairs S hreg ha hd hP hS hpairs hrc
      have hrows' := hareas a hreg ha (by rw [hd]; rfl)
      have hrun : parse_and_update_areas env.area_rc
          (some ⟨some { s with entities := es }, path⟩) (some (area_payload P pairs S)) =
          area_updates env.area_rc pairs (some ⟨some { s with entities := es }, path⟩) 0 :=
        areas_payload_run env.area_rc _ P S pairs hP hS hpairs
      rw [hd, hrun, area_updates_ok env.area_rc hrc] at hrows'
      change entity_rows merged = es.map (area_after pairs) at hrows'
      have hwfm : ∀ e ∈ es.map (area_after pairs), ha_entity_wf e := by
        intro e he
        have := wf_areas env.area_rc (some ⟨some { s with entities := es }, path⟩)
          (some (area_payload P pairs S)) (fun e he => hwf e he)
        rw [hrun, area_updates_ok env.area_rc hrc] at this
        exact this e he
      have hperm := hsort (es.map (area_after pairs)) hwfm
      rw [hrows']
      refine ⟨hperm, ?_⟩
      intro e he
      obtain ⟨r0, hr0, rfl⟩ := List.mem_map.mp (hperm.mem_iff.mp he)
      have hid := (area_after_frame pairs r0).2
      constructor
      · intro pre p post hsplit hp1 hpost
        rw [hsplit]
        rw [hid] at hp1 hpost
        exact area_after_last pre post p r0 hp1 hpost
      · intro hnone
        rw [hid] at hnone
        rw [area_after_untouched pairs r0 hnone]
        exact hr0

/-- Witness of amended C6: the empty cache is synced against the sample hub,
light.kitchen is "on" and sensor.temp is "21.0"; with the sample area answer
light.kitchen comes back with the area kitchen. -/
theorem sync_end_to_end_witness :
    (∀ it ∈ [cJSON.Object
        [ ("entity_id".toList, .String "light.kitchen".toList),
          ("state".toList, .String "on".toList),
          ("attributes".toList, .Object [("friendly_name".toList, .String "Kitchen".toList)]) ],
      cJSON.Object
        [ ("entity_id".toList, .String "sensor.temp".toList),
          ("state".toList, .String "21.0".toList) ]], is_entity_object it) ∧
    (cache_manager_sync sample_lib sample_env_no_areas (some sample_fresh_manager)).2 = 2 ∧
    cache_manager_get_entities .ok .ok
      (cache_manager_sync sample_lib sample_env_no_areas (some sample_fresh_manager)).1 0 =
      (some [parsed_light_kitchen, parsed_sensor_temp], 2) ∧
    sample_areas_body = area_payload [] [("light.kitchen".toList, "kitchen".toList)] [] ∧
    (cache_manager_sync sample_lib sample_env_areas (some sample_fresh_manager)).2 = 2 ∧
    cache_manager_get_entities .ok .ok
      (cache_manager_sync sample_lib sample_env_areas (some sample_fresh_manager)).1 0 =
      (some [{ parsed_light_kitchen with area_id := "kitchen".toList }, parsed_sensor_temp],
        2) :=
  have hitems : ∀ it ∈ [cJSON.Object
        [ ("entity_id".toList, .String "light.kitchen".toList),
          ("state".toList, .String "on".toList),
          ("attributes".toList, .Object [("friendly_name".toList, .String "Kitchen".toList)]) ],
      cJSON.Object
        [ ("entity_id".toList, .String "sensor.temp".toList),
          ("state".toList, .String "21.0".toList) ]], is_entity_object it := by
    intro it hit
    simp only [List.mem_cons, List.mem_singleton, List.not_mem_nil, or_false] at hit
    rcases hit with h | h <;> subst h
    · exact ⟨rfl, _, rfl⟩
    · exact ⟨rfl, _, rfl⟩
  ⟨hitems,
    (sync_end_to_end sample_lib sample_env_no_areas sample_fresh_manager sample_client
      ⟨[], [], []⟩ "/tmp/ha.db".toList sample_states_response sample_states_body _
      rfl rfl rfl rfl (by decide) rfl rfl (by simp) hitems (by decide) (fun _ => rfl)).1,
    by decide, by decide,
    (sync_end_to_end sample_lib sample_env_areas sample_fresh_manager sample_client
      ⟨[], [], []⟩ "/tmp/ha.db".toList sample_states_response sample_states_body _
      rfl rfl rfl rfl (by decide) rfl rfl (by simp) hitems (by decide) (fun _ => rfl)).1,
    by decide⟩

end HassMiyoo
